import Mathlib

/-!
# Geometry batcher: buffer packing, flush protocol and text on a path

Shallow embedding of `yg/geometry_batcher.cpp` (class `yg::gl::GeometryBatcher`).

Conventions of the embedding:

* `float` and `double` values are rational numbers; rounding of the machine formats is not
  represented.
* `size_t` cursors, capacities and counts are natural numbers. The fit check bounds every sum by
  the capacity of the leased block, so these computations stay far below the word size; values
  stored in the index buffer go through `unsigned short` and are reduced modulo 65536, and the
  `unsigned` arithmetic on texture rectangles is reduced modulo 2^32.
* Collaborators whose code lives outside this file of the source (resource manager, geometry
  helpers, text conversion) are fields of `Env`; the skin and its pages are plain data.
* Every call made to a collaborator that has an effect outside the batcher is appended to
  `GeometryBatcher.log`, oldest first.
* A failed `ASSERT`, a dereferenced null style, an index outside an array and an exhausted
  iteration budget give `none`.
* `lock()` and `unlock()` only map a buffer into memory; the contents of a buffer are part of the
  `Storage` value, so the two calls have no counterpart here.
-/

namespace yg

/-- Point with idealised coordinates (`m2::PointF`, `m2::PointD`). -/
structure Point where
  x : ℚ
  y : ℚ
deriving DecidableEq, Inhabited

/-- Vertex of the vertex buffer: position, texture coordinate and depth. -/
structure Vertex where
  pt : Point
  tex : Point
  depth : ℚ
deriving DecidableEq, Inhabited

/-- Modelled from the spec: `Vertex` is declared outside the source at hand; it holds a 2D float
position, a 2D float texture coordinate and a float depth, five 4-byte floats. -/
def sizeofVertex : Nat := 20

/-- Size in bytes of `unsigned short`. -/
def sizeofIndex : Nat := 2

/-- Number of values of `unsigned short`. -/
def indexModulus : Nat := 65536

/-- Number of values of `unsigned`. -/
def unsignedModulus : Nat := 4294967296

/-- Sum of two `unsigned` values. -/
def uadd (a b : Nat) : Nat := (a + b) % unsignedModulus

/-- Difference of two `unsigned` values. -/
def usub (a b : Nat) : Nat := (a % unsignedModulus + unsignedModulus - b % unsignedModulus) % unsignedModulus

/-- Storage block leased from the resource manager: the byte sizes of its two buffers
(`m_vertices->size()`, `m_indices->size()`) and their contents as seen through the locked
pointers. -/
structure Storage where
  verticesSize : Nat
  indicesSize : Nat
  vertices : Nat → Vertex
  indices : Nat → Nat

instance : Inhabited Storage := ⟨⟨0, 0, fun _ => default, fun _ => 0⟩⟩

/-- Cursor state of one skin page (`GeometryPipeline`). The pointers `m_vertices` and `m_indices`
alias the buffers of `m_storage`. -/
structure GeometryPipeline where
  m_currentVertex : Nat
  m_currentIndex : Nat
  m_maxVertices : Nat
  m_maxIndices : Nat
  m_storage : Storage

instance : Inhabited GeometryPipeline := ⟨⟨0, 0, 0, 0, default⟩⟩

/-- Rectangle with `unsigned` coordinates (`m2::RectU`). -/
structure RectU where
  minX : Nat
  minY : Nat
  maxX : Nat
  maxY : Nat
deriving DecidableEq, Inhabited

/-- Width of a rectangle, computed in `unsigned`. -/
def RectU.SizeX (r : RectU) : Nat := usub r.maxX r.minX

/-- Height of a rectangle, computed in `unsigned`. -/
def RectU.SizeY (r : RectU) : Nat := usub r.maxY r.minY

/-- Style category tag (`ResourceStyle::m_cat`). -/
inductive Category where
  | EPointStyle
  | ELineStyle
  | ECharStyle
deriving DecidableEq, Inhabited

/-- Pen of a line style (`m_penInfo`): its width `m_w`. -/
structure PenInfo where
  m_w : ℚ
deriving DecidableEq, Inhabited

/-- Style record of the skin. The source reaches the glyph fields through an unchecked
`static_cast<CharStyle const *>` and the line fields through a `static_cast<LineStyle const *>`,
so they are fields of the one record. `rawTileLen` is the value of the method `rawTileLen()` of a
line style. -/
structure ResourceStyle where
  m_cat : Category
  m_texRect : RectU
  m_pageID : Nat
  m_xOffset : Int
  m_yOffset : Int
  m_xAdvance : Int
  m_isSolid : Bool := false
  m_isWrapped : Bool := false
  m_penInfo : PenInfo := ⟨0⟩
  rawTileLen : ℚ := 0
  m_centerColorPixel : Point := ⟨0, 0⟩
  m_borderColorPixel : Point := ⟨0, 0⟩
deriving DecidableEq, Inhabited

/-- Key of a glyph lookup (`GlyphKey(code, fontSize, isMask)`). -/
structure GlyphKey where
  code : Char
  fontSize : Nat
  isMask : Bool
deriving DecidableEq

/-- One page of the skin: dynamic or static, the handle of its texture, and the pixel mapping of
that texture (`texture()->mapPixel`). -/
structure SkinPage where
  isDynamic : Bool
  texture : Nat
  mapPixel : Point → Point

instance : Inhabited SkinPage := ⟨⟨false, 0, fun p => p⟩⟩

/-- The skin: its pages, the style table (`fromID`, `none` for a null pointer) and the glyph
table (`mapGlyph`). -/
structure Skin where
  pages : List SkinPage
  fromID : Nat → Option ResourceStyle
  mapGlyph : GlyphKey → Bool → Nat

/-- Function registered by `addClearPageFn`. -/
inductive ClearPageFn where
  | flush
  | switchTextures
deriving DecidableEq

/-- Calls made to collaborators. `drawGeometry` carries the index of the page whose pipeline is
submitted next to the arguments of the call. -/
inductive Event where
  | addOverflowFn (priority : Nat)
  | addClearPageFn (fn : ClearPageFn) (priority : Nat)
  | uploadData (page : Nat)
  | drawGeometry (page : Nat) (texture : Nat) (storage : Storage) (indicesCount : Nat)
  | freeStorage (storage : Storage)
  | freeSmallStorage (storage : Storage)
  | reserveStorage (storage : Storage)
  | reserveSmallStorage (storage : Storage)
  | freeTexture (page : Nat)
  | reserveTexture (page : Nat)

/-- Collaborators of the batcher. `R` is the state of the resource manager; the two pools hand
out blocks of any size. -/
structure Env (R : Type) where
  reserveStorage : R → Storage × R
  reserveSmallStorage : R → Storage × R
  freeStorage : Storage → R → R
  freeSmallStorage : Storage → R → R
  sin : ℚ → ℚ
  cos : ℚ → ℚ
  pi : ℚ
  AngleTo : Point → Point → ℚ
  Length : Point → Point → ℚ
  Move : Point → ℚ → ℚ → Point
  rounds : ℚ → Int
  FromUtf8 : String → List Char
  fribidi_log2vis : List Char → List Char

/-- State of the batcher. -/
structure GeometryBatcher (R : Type) where
  m_skin : Option Skin
  m_pipelines : List GeometryPipeline
  m_aaShift : Nat
  m_resourceManager : R
  log : List Event

variable {R : Type}

/-- Pipeline of a page (`m_pipelines[pageID]`). -/
def GeometryBatcher.pipeline (b : GeometryBatcher R) (pageID : Nat) : GeometryPipeline :=
  b.m_pipelines.getD pageID default

/-- Loop of `reset` from index `i` on. -/
def resetFrom (pageID : Int) : Nat → List GeometryPipeline → List GeometryPipeline
  | _, [] => []
  | i, p :: ps =>
    (if pageID = -1 ∨ pageID = (i : Int) then
        { p with m_currentVertex := 0, m_currentIndex := 0 }
      else p) :: resetFrom pageID (i + 1) ps

/-- Embedding of `GeometryBatcher::reset`. -/
def reset (b : GeometryBatcher R) (pageID : Int) : GeometryBatcher R :=
  { b with m_pipelines := resetFrom pageID 0 b.m_pipelines }

/-- Block leased for a page: from the normal pool for a dynamic page, from the small pool
otherwise. -/
def reserveFor (E : Env R) (isDynamic : Bool) (rm : R) : Storage × R :=
  if isDynamic then E.reserveStorage rm else E.reserveSmallStorage rm

/-- Event of the lease made by `reserveFor`. -/
def reserveEvent (isDynamic : Bool) (s : Storage) : Event :=
  if isDynamic then Event.reserveStorage s else Event.reserveSmallStorage s

/-- Return of a block to the pool of its page. -/
def freeFor (E : Env R) (isDynamic : Bool) (s : Storage) (rm : R) : R :=
  if isDynamic then E.freeStorage s rm else E.freeSmallStorage s rm

/-- Event of the return made by `freeFor`. -/
def freeEvent (isDynamic : Bool) (s : Storage) : Event :=
  if isDynamic then Event.freeStorage s else Event.freeSmallStorage s

/-- Pipeline with both cursors at zero on a freshly leased block. -/
def freshPipeline (s : Storage) : GeometryPipeline :=
  { m_currentVertex := 0
    m_currentIndex := 0
    m_maxVertices := s.verticesSize / sizeofVertex
    m_maxIndices := s.indicesSize / sizeofIndex
    m_storage := s }

/-- Loop of `setSkin` over the pages: every slot of the resized pipeline array is overwritten. -/
def leasePipelines (E : Env R) : List SkinPage → R → List Event →
    List GeometryPipeline × R × List Event
  | [], rm, log => ([], rm, log)
  | pg :: rest, rm, log =>
    let r := reserveFor E pg.isDynamic rm
    let t := leasePipelines E rest r.2 (log ++ [reserveEvent pg.isDynamic r.1])
    (freshPipeline r.1 :: t.1, t.2.1, t.2.2)

/-- Embedding of `GeometryBatcher::setSkin`. -/
def setSkin (E : Env R) (b : GeometryBatcher R) (skin : Option Skin) : GeometryBatcher R :=
  match skin with
  | none => { b with m_skin := none }
  | some s =>
    let t := leasePipelines E s.pages b.m_resourceManager
      (b.log ++ [Event.addOverflowFn 100, Event.addClearPageFn ClearPageFn.flush 100,
        Event.addClearPageFn ClearPageFn.switchTextures 99])
    { b with m_skin := some s, m_pipelines := t.1, m_resourceManager := t.2.1, log := t.2.2 }

/-- Embedding of `GeometryBatcher::beginFrame` (the part of the batcher). -/
def beginFrame (b : GeometryBatcher R) : GeometryBatcher R :=
  reset b (-1)

/-- Embedding of `GeometryBatcher::hasRoom`. -/
def hasRoom (b : GeometryBatcher R) (verticesCount indicesCount : Nat) (pageID : Nat) : Bool :=
  decide ((b.pipeline pageID).m_currentVertex + verticesCount ≤ (b.pipeline pageID).m_maxVertices)
    && decide ((b.pipeline pageID).m_currentIndex + indicesCount ≤ (b.pipeline pageID).m_maxIndices)

/-- Embedding of `GeometryBatcher::verticesLeft`. -/
def verticesLeft (b : GeometryBatcher R) (pageID : Nat) : Nat :=
  (b.pipeline pageID).m_maxVertices - (b.pipeline pageID).m_currentVertex

/-- Embedding of `GeometryBatcher::indicesLeft`. -/
def indicesLeft (b : GeometryBatcher R) (pageID : Nat) : Nat :=
  (b.pipeline pageID).m_maxIndices - (b.pipeline pageID).m_currentIndex

/-- Body of the loop of `flush` for page `i`: upload, submit and re-lease when the index cursor
is nonzero, then reset the page. The local flag `renderedData` of the source is written and
never read, so it has no counterpart. -/
def flushPage (E : Env R) (skin : Skin) (i : Nat) (b : GeometryBatcher R) : GeometryBatcher R :=
  let skinPage := skin.pages.getD i default
  let pipeline := b.pipeline i
  let b1 := { b with log := b.log ++ [Event.uploadData i] }
  let b2 :=
    if pipeline.m_currentIndex ≠ 0 then
      let rm1 := freeFor E skinPage.isDynamic pipeline.m_storage b1.m_resourceManager
      let r := reserveFor E skinPage.isDynamic rm1
      { b1 with
        m_pipelines := b1.m_pipelines.set i
          { pipeline with
            m_storage := r.1
            m_maxVertices := r.1.verticesSize / sizeofVertex
            m_maxIndices := r.1.indicesSize / sizeofIndex }
        m_resourceManager := r.2
        log := b1.log ++
          [Event.drawGeometry i skinPage.texture pipeline.m_storage pipeline.m_currentIndex,
           freeEvent skinPage.isDynamic pipeline.m_storage,
           reserveEvent skinPage.isDynamic r.1] }
    else b1
  reset b2 (i : Int)

/-- Loop of `flush`: `i` runs from the number of pipelines down to 1 and page `i - 1` is
handled when it is selected. -/
def flushLoop (E : Env R) (skin : Skin) (pageID : Int) : Nat → GeometryBatcher R → GeometryBatcher R
  | 0, b => b
  | i + 1, b =>
    flushLoop E skin pageID i
      (if pageID = -1 ∨ (i : Int) = pageID then flushPage E skin i b else b)

/-- Embedding of `GeometryBatcher::flush`. -/
def flush (E : Env R) (b : GeometryBatcher R) (pageID : Int) : GeometryBatcher R :=
  match b.m_skin with
  | none => b
  | some skin => flushLoop E skin pageID b.m_pipelines.length b

/-- Embedding of `GeometryBatcher::switchTextures`. -/
def switchTextures (b : GeometryBatcher R) (pageID : Nat) : GeometryBatcher R :=
  { b with log := b.log ++ [Event.freeTexture pageID, Event.reserveTexture pageID] }

/-- First loop of `addTexturedFan`, `addTexturedStrip`: vertices `0 .. n-1` are stored from
`vOffset` on. -/
def storeVertices (coords texCoords : List Point) (depth : ℚ) (vOffset : Nat) :
    Nat → (Nat → Vertex) → (Nat → Vertex)
  | 0, mem => mem
  | n + 1, mem =>
    Function.update (storeVertices coords texCoords depth vOffset n mem) (vOffset + n)
      { pt := coords.getD n default, tex := texCoords.getD n default, depth := depth }

/-- Index loop of `addTexturedFan`: triangles `0 .. n-1` of the fan are stored from `iOffset`
on. -/
def storeFanIndices (vOffset iOffset : Nat) : Nat → (Nat → Nat) → (Nat → Nat)
  | 0, mem => mem
  | j + 1, mem =>
    Function.update
      (Function.update
        (Function.update (storeFanIndices vOffset iOffset j mem)
          (iOffset + j * 3) (vOffset % indexModulus))
        (iOffset + j * 3 + 1) ((vOffset + j + 1) % indexModulus))
      (iOffset + j * 3 + 2) ((vOffset + j + 2) % indexModulus)

/-- Index loop of `addTexturedStrip`; the result carries `oldIdx1` and `oldIdx2`. -/
def storeStripIndices (vOffset iOffset : Nat) : Nat → (Nat → Nat) → (Nat → Nat) × Nat × Nat
  | 0, mem => (mem, vOffset, vOffset + 1)
  | j + 1, mem =>
    let t := storeStripIndices vOffset iOffset j mem
    (Function.update
      (Function.update
        (Function.update t.1 (iOffset + j * 3) (t.2.1 % indexModulus))
        (iOffset + j * 3 + 1) (t.2.2 % indexModulus))
      (iOffset + j * 3 + 2) ((vOffset + j + 2) % indexModulus),
     t.2.2, vOffset + j + 2)

/-- Replace the pipeline of a page. -/
def GeometryBatcher.setPipeline (b : GeometryBatcher R) (pageID : Nat) (p : GeometryPipeline) :
    GeometryBatcher R :=
  { b with m_pipelines := b.m_pipelines.set pageID p }

/-- Writes of `addTexturedFan` into the pipeline of the page, after the fit check. -/
def writeFan (p : GeometryPipeline) (coords texCoords : List Point) (size : Nat) (depth : ℚ) :
    GeometryPipeline :=
  { p with
    m_storage :=
      { p.m_storage with
        vertices := storeVertices coords texCoords depth p.m_currentVertex size p.m_storage.vertices
        indices := storeFanIndices p.m_currentVertex p.m_currentIndex (size - 2) p.m_storage.indices }
    m_currentVertex := p.m_currentVertex + size
    m_currentIndex := p.m_currentIndex + (size - 2) * 3 }

/-- Writes of `addTexturedStrip` into the pipeline of the page, after the fit check. -/
def writeStrip (p : GeometryPipeline) (coords texCoords : List Point) (size : Nat) (depth : ℚ) :
    GeometryPipeline :=
  { p with
    m_storage :=
      { p.m_storage with
        vertices := storeVertices coords texCoords depth p.m_currentVertex size p.m_storage.vertices
        indices :=
          (storeStripIndices p.m_currentVertex p.m_currentIndex (size - 2) p.m_storage.indices).1 }
    m_currentVertex := p.m_currentVertex + size
    m_currentIndex := p.m_currentIndex + (size - 2) * 3 }

/-- Embedding of `GeometryBatcher::addTexturedFan`. The product `(size - 2) * 3` of the source is
formed in `unsigned`; for `size >= 2` it agrees with the natural number below up to 2^32, and for
`size < 2` the call ends in the failed `ASSERT(size > 2)`. -/
def addTexturedFan (E : Env R) (b : GeometryBatcher R) (coords texCoords : List Point)
    (size : Nat) (depth : ℚ) (pageID : Nat) : Option (GeometryBatcher R) :=
  if pageID < b.m_pipelines.length then
    let b1 := if !hasRoom b size ((size - 2) * 3) pageID then flush E b (pageID : Int) else b
    if size > 2 then
      some (b1.setPipeline pageID (writeFan (b1.pipeline pageID) coords texCoords size depth))
    else none
  else none

/-- Embedding of `GeometryBatcher::addTexturedStrip`. -/
def addTexturedStrip (E : Env R) (b : GeometryBatcher R) (coords texCoords : List Point)
    (size : Nat) (depth : ℚ) (pageID : Nat) : Option (GeometryBatcher R) :=
  if pageID < b.m_pipelines.length then
    let b1 := if !hasRoom b size ((size - 2) * 3) pageID then flush E b (pageID : Int) else b
    if size > 2 then
      some (b1.setPipeline pageID (writeStrip (b1.pipeline pageID) coords texCoords size depth))
    else none
  else none

/-- Embedding of `GeometryBatcher::drawTexturedPolygon`. -/
def drawTexturedPolygon (E : Env R) (b : GeometryBatcher R) (ptShift : Point) (angle : ℚ)
    (tx0 ty0 tx1 ty1 : ℚ) (x0 y0 x1 y1 : ℚ) (depth : ℚ) (pageID : Nat) :
    Option (GeometryBatcher R) :=
  if pageID < b.m_pipelines.length then
    let b1 := if !hasRoom b 4 6 pageID then flush E b (pageID : Int) else b
    match b1.m_skin with
    | none => none
    | some skin =>
      match skin.pages[pageID]? with
      | none => none
      | some page =>
        let texMin := page.mapPixel ⟨tx0, ty0⟩
        let texMax := page.mapPixel ⟨tx1, ty1⟩
        let sinA := E.sin angle
        let cosA := E.cos angle
        let c0 : Point := ⟨x0 * cosA - y0 * sinA + ptShift.x, x0 * sinA + y0 * cosA + ptShift.y⟩
        let c1 : Point := ⟨x0 * cosA - y1 * sinA + ptShift.x, x0 * sinA + y1 * cosA + ptShift.y⟩
        let c2 : Point := ⟨x1 * cosA - y1 * sinA + ptShift.x, x1 * sinA + y1 * cosA + ptShift.y⟩
        let c3 : Point := ⟨x1 * cosA - y0 * sinA + ptShift.x, x1 * sinA + y0 * cosA + ptShift.y⟩
        let deltaX : ℚ := if angle = 0 then c0.x - (Int.ceil c0.x : ℚ) else 0
        let deltaY : ℚ := if angle = 0 then c0.y - (Int.ceil c0.y : ℚ) else 0
        let coords : List Point :=
          [⟨c0.x - deltaX, c0.y - deltaY⟩, ⟨c1.x - deltaX, c1.y - deltaY⟩,
           ⟨c2.x - deltaX, c2.y - deltaY⟩, ⟨c3.x - deltaX, c3.y - deltaY⟩]
        let texCoords : List Point :=
          [⟨texMin.x, texMin.y⟩, ⟨texMin.x, texMax.y⟩, ⟨texMax.x, texMax.y⟩, ⟨texMax.x, texMin.y⟩]
        addTexturedFan E b1 coords texCoords 4 depth pageID
  else none

/-- Embedding of `GeometryBatcher::drawPoint`. -/
def drawPoint (E : Env R) (b : GeometryBatcher R) (pt : Point) (styleID : Nat) (depth : ℚ) :
    Option (GeometryBatcher R) :=
  match b.m_skin with
  | none => none
  | some skin =>
    match skin.fromID styleID with
    | none => none
    | some style =>
      if style.m_pageID < b.m_pipelines.length then
        let b1 := if !hasRoom b 4 6 style.m_pageID then flush E b (style.m_pageID : Int) else b
        let texMinX := uadd style.m_texRect.minX 1
        let texMinY := uadd style.m_texRect.minY 1
        let texMaxX := usub style.m_texRect.maxX 1
        let texMaxY := usub style.m_texRect.maxY 1
        let polyMinX : ℚ := E.rounds (pt.x - (usub style.m_texRect.SizeX 2 : ℚ) / 2)
        let polyMaxX : ℚ := polyMinX + (usub style.m_texRect.SizeX 2 : ℚ)
        let polyMinY : ℚ := E.rounds (pt.y - (usub style.m_texRect.SizeY 2 : ℚ) / 2)
        let polyMaxY : ℚ := polyMinY + (usub style.m_texRect.SizeY 2 : ℚ)
        drawTexturedPolygon E b1 ⟨0, 0⟩ 0 texMinX texMinY texMaxX texMaxY
          polyMinX polyMinY polyMaxX polyMaxY depth style.m_pageID
      else none

/-- Vertex loop of `drawTrianglesList`: points `batchOffset .. batchOffset + n - 1` are stored
from `vOffset` on. -/
def storePoints (points : List Point) (tex : Point) (depth : ℚ) (vOffset batchOffset : Nat) :
    Nat → (Nat → Vertex) → (Nat → Vertex)
  | 0, mem => mem
  | n + 1, mem =>
    Function.update (storePoints points tex depth vOffset batchOffset n mem) (vOffset + n)
      { pt := points.getD (batchOffset + n) default, tex := tex, depth := depth }

/-- Index loop of `drawTrianglesList`. -/
def storeListIndices (vOffset iOffset : Nat) : Nat → (Nat → Nat) → (Nat → Nat)
  | 0, mem => mem
  | n + 1, mem =>
    Function.update (storeListIndices vOffset iOffset n mem) (iOffset + n)
      ((vOffset + n) % indexModulus)

/-- Writes of one batch of `drawTrianglesList` into the pipeline of the page. -/
def writeBatch (p : GeometryPipeline) (points : List Point) (tex : Point) (depth : ℚ)
    (batchOffset batchSize : Nat) : GeometryPipeline :=
  { p with
    m_storage :=
      { p.m_storage with
        vertices :=
          storePoints points tex depth p.m_currentVertex batchOffset batchSize p.m_storage.vertices
        indices := storeListIndices p.m_currentVertex p.m_currentIndex batchSize p.m_storage.indices }
    m_currentVertex := p.m_currentVertex + batchSize
    m_currentIndex := p.m_currentIndex + batchSize }

/-- Size of the next batch of `drawTrianglesList`. -/
def batchSizeOf (b : GeometryBatcher R) (pageID pointsLeft : Nat) : Nat :=
  let batchSize := pointsLeft
  let batchSize :=
    if batchSize > verticesLeft b pageID then verticesLeft b pageID / 3 * 3 else batchSize
  if batchSize > indicesLeft b pageID then indicesLeft b pageID / 3 * 3 else batchSize

/-- The `while (true)` loop of `drawTrianglesList`; `fuel` bounds the number of iterations. -/
def drawTrianglesListLoop (E : Env R) (points : List Point) (tex : Point) (depth : ℚ)
    (pageID : Nat) : Nat → Nat → Nat → GeometryBatcher R → Option (GeometryBatcher R)
  | 0, _, _, _ => none
  | fuel + 1, pointsLeft, batchOffset, b =>
    let batchSize := batchSizeOf b pageID pointsLeft
    let needToFlush := decide (batchSize < pointsLeft)
    let b1 := b.setPipeline pageID
      (writeBatch (b.pipeline pageID) points tex depth batchOffset batchSize)
    let b2 := if needToFlush then flush E b1 (pageID : Int) else b1
    if pointsLeft - batchSize = 0 then some b2
    else
      drawTrianglesListLoop E points tex depth pageID fuel (pointsLeft - batchSize)
        (batchOffset + batchSize) b2

/-- Embedding of `GeometryBatcher::drawTrianglesList`; `fuel` bounds the iterations of its
loop. -/
def drawTrianglesList (E : Env R) (fuel : Nat) (b : GeometryBatcher R) (points : List Point)
    (pointsCount : Nat) (styleID : Nat) (depth : ℚ) : Option (GeometryBatcher R) :=
  match b.m_skin with
  | none => none
  | some skin =>
    match skin.fromID styleID with
    | none => none
    | some style =>
      if style.m_pageID < b.m_pipelines.length then
        let b1 :=
          if !hasRoom b pointsCount pointsCount style.m_pageID then
            flush E b (style.m_pageID : Int)
          else b
        if pointsCount ≥ 2 then
          match skin.pages[style.m_pageID]? with
          | none => none
          | some page =>
            let tex := page.mapPixel ⟨(style.m_texRect.minX : ℚ) + 1, (style.m_texRect.minY : ℚ) + 1⟩
            drawTrianglesListLoop E points tex depth style.m_pageID fuel pointsCount 0 b1
        else none
      else none

/-- Embedding of `GeometryBatcher::drawGlyph`. -/
def drawGlyph (E : Env R) (b : GeometryBatcher R) (ptOrg ptGlyph : Point) (angle blOffset : ℚ)
    (p : ResourceStyle) (depth : ℚ) : Option (GeometryBatcher R) :=
  let x0 : ℚ := ptGlyph.x + ((p.m_xOffset - 1 : Int) : ℚ)
  let y1 : ℚ := ptGlyph.y - ((p.m_yOffset - 1 : Int) : ℚ) - blOffset
  let y0 : ℚ := y1 - (usub p.m_texRect.SizeY 2 : ℚ)
  let x1 : ℚ := x0 + (usub p.m_texRect.SizeX 2 : ℚ)
  drawTexturedPolygon E b ptOrg angle
    (uadd p.m_texRect.minX 1) (uadd p.m_texRect.minY 1)
    (usub p.m_texRect.maxX 1) (usub p.m_texRect.maxY 1)
    x0 y0 x1 y1 depth p.m_pageID

/-- Embedding of `GeometryBatcher::Log2Vis`: the result is resized to the length of the input
and receives the visual order computed by `fribidi_log2vis`. -/
def Log2Vis (E : Env R) (str : List Char) : List Char :=
  (E.fribidi_log2vis str ++ List.replicate str.length (Char.ofNat 0)).take str.length

/-- Array of points read in the readable direction (class `pts_array`). -/
structure pts_array where
  m_arr : List Point
  m_size : Nat
  m_reverse : Bool

/-- Loop of the constructor of `pts_array`: the sum of the lengths of the first `n` segments. -/
def segmentsLength (E : Env R) (arr : List Point) : Nat → Option ℚ
  | 0 => some 0
  | n + 1 =>
    match segmentsLength E arr n, arr[n]?, arr[n + 1]? with
    | some len, some p, some q => some (len + E.Length p q)
    | _, _, _ => none

/-- Constructor of `pts_array`; the second component is the value left in `pathOffset`. -/
def pts_array.create (E : Env R) (arr : List Point) (sz : Nat) (fullLength pathOffset : ℚ) :
    Option (pts_array × ℚ) :=
  if sz > 1 then
    match arr[0]?, arr[sz - 1]? with
    | some first, some last =>
      let a := E.AngleTo first last
      if |a| > E.pi / 2 then
        match segmentsLength E arr (sz - 1) with
        | none => none
        | some len =>
          let pathOffset1 := fullLength - pathOffset - len
          if pathOffset1 ≥ -(1 / 1000000) then
            some (⟨arr, sz, true⟩, if pathOffset1 < 0 then 0 else pathOffset1)
          else none
      else some (⟨arr, sz, false⟩, pathOffset)
    | _, _ => none
  else none

/-- Embedding of `pts_array::size`. -/
def pts_array.size (a : pts_array) : Nat := a.m_size

/-- Embedding of `pts_array::get` and of `operator[]`. -/
def pts_array.get (a : pts_array) (i : Nat) : Option Point :=
  if i < a.m_size then a.m_arr[if a.m_reverse then a.m_size - i - 1 else i]? else none

/-- Value of `angle` before the first segment is entered. -/
def angle_not_inited : ℚ := -100

/-- Result of `CalcPointAndAngle`: the returned flag and the values left in the reference
parameters. -/
structure CalcResult where
  ok : Bool
  offset : ℚ
  ind : Nat
  pt : Point
  angle : ℚ

/-- The `while (true)` loop of `CalcPointAndAngle`. The flag is `false` for `return false` and
`true` for `break`. -/
def calcLoop (E : Env R) (arr : pts_array) : Nat → ℚ → Nat → Point → Option (Bool × ℚ × Nat × Point)
  | 0, _, _, _ => none
  | fuel + 1, offset, ind, pt =>
    if ind + 1 = arr.size then some (false, offset, ind, pt)
    else
      match arr.get (ind + 1) with
      | none => none
      | some q =>
        let l := E.Length q pt
        if offset < l then some (true, offset, ind, pt)
        else calcLoop E arr fuel (offset - l) (ind + 1) q

/-- Embedding of `CalcPointAndAngle`. Every iteration of its loop that does not leave it
advances `ind`, so `arr.size + 1` iterations are enough. -/
def CalcPointAndAngle (E : Env R) (arr : pts_array) (offset : ℚ) (ind : Nat) (pt : Point)
    (angle : ℚ) : Option CalcResult :=
  match calcLoop E arr (arr.size + 1) offset ind pt with
  | none => none
  | some (false, offset1, ind1, pt1) => some ⟨false, offset1, ind1, pt1, angle⟩
  | some (true, offset1, ind1, pt1) =>
    match arr.get (ind1 + 1) with
    | none => none
    | some q =>
      let angle1 := if ind ≠ ind1 ∨ angle = angle_not_inited then E.AngleTo pt1 q else angle
      some ⟨true, offset1, ind1, E.Move pt1 offset1 angle1, angle1⟩

/-- Vertical position of a text relative to its path (`TextPos`). -/
inductive TextPos where
  | under_line
  | middle_line
  | above_line
deriving DecidableEq

/-- Base line offset computed by `drawPathTextImpl`. -/
def baseLineOffset (pos : TextPos) (fontSize : Nat) : ℚ :=
  match pos with
  | TextPos.under_line => 2 - (fontSize : ℚ)
  | TextPos.middle_line => 2 - ((fontSize / 2 : Nat) : ℚ)
  | TextPos.above_line => 2 - 0

/-- Glyph loop of `drawPathTextImpl`: the styles of the glyphs, `none` when a looked up style is
null (it is dereferenced for its advance). -/
def lookupGlyphs (skin : Skin) (fontSize : Nat) (fromMask isFixedFont : Bool) :
    List Char → Option (List ResourceStyle)
  | [] => some []
  | c :: cs =>
    match skin.fromID (skin.mapGlyph ⟨c, fontSize, fromMask⟩ isFixedFont),
      lookupGlyphs skin fontSize fromMask isFixedFont cs with
    | some g, some gs => some (g :: gs)
    | _, _ => none

/-- Sum of the advances of the glyphs (`strLength`). -/
def strLengthOf (glyphs : List ResourceStyle) : ℚ :=
  glyphs.foldl (fun acc g => acc + (g.m_xAdvance : ℚ)) 0

/-- Loop of `drawPathTextImpl` that finds the first visible glyph: the offset and the glyphs
from index `i` on. -/
def skipHidden : ℚ → List ResourceStyle → ℚ × List ResourceStyle
  | offset, [] => (offset, [])
  | offset, g :: gs =>
    if offset < 0 then skipHidden (offset + (g.m_xAdvance : ℚ)) gs else (offset, g :: gs)

/-- Loop of `drawPathTextImpl` that draws the visible glyphs. -/
def drawGlyphs (E : Env R) (arr : pts_array) (blOffset depth : ℚ) :
    List ResourceStyle → ℚ → Nat → Point → ℚ → GeometryBatcher R → Option (GeometryBatcher R)
  | [], _, _, _, _, b => some b
  | g :: gs, offset, ind, ptOrg, angle, b =>
    match CalcPointAndAngle E arr offset ind ptOrg angle with
    | none => none
    | some r =>
      if r.ok then
        match drawGlyph E b r.pt ⟨0, 0⟩ r.angle blOffset g depth with
        | none => none
        | some b1 => drawGlyphs E arr blOffset depth gs (g.m_xAdvance : ℚ) r.ind r.pt r.angle b1
      else some b

/-- Embedding of `GeometryBatcher::drawPathTextImpl`: the returned flag and the state. -/
def drawPathTextImpl (E : Env R) (b : GeometryBatcher R) (path : List Point) (s : Nat)
    (fontSize : Nat) (utf8Text : String) (fullLength pathOffset : ℚ) (pos : TextPos)
    (fromMask : Bool) (depth : ℚ) (isFixedFont : Bool) : Option (Bool × GeometryBatcher R) :=
  match pts_array.create E path s fullLength pathOffset with
  | none => none
  | some (arrPath, pathOffset1) =>
    let text := Log2Vis E (E.FromUtf8 utf8Text)
    let blOffset := baseLineOffset pos fontSize
    match b.m_skin with
    | none => none
    | some skin =>
      match lookupGlyphs skin fontSize fromMask isFixedFont text with
      | none => none
      | some glyphs =>
        let strLength := strLengthOf glyphs
        let offset := (fullLength - strLength) / 2
        if offset < 0 then some (false, b)
        else
          let offset1 := offset - pathOffset1
          if -offset1 ≥ strLength then some (false, b)
          else
            let t := skipHidden offset1 glyphs
            match arrPath.get 0 with
            | none => none
            | some ptOrg =>
              match drawGlyphs E arrPath blOffset depth t.2 t.1 0 ptOrg angle_not_inited b with
              | none => none
              | some b1 => some (true, b1)

/-- Embedding of `GeometryBatcher::drawPathText`. -/
def drawPathText (E : Env R) (b : GeometryBatcher R) (path : List Point) (s : Nat)
    (fontSize : Nat) (utf8Text : String) (fullLength pathOffset : ℚ) (pos : TextPos)
    (isMasked : Bool) (depth : ℚ) (isFixedFont : Bool) : Option (Bool × GeometryBatcher R) :=
  if isMasked then
    match drawPathTextImpl E b path s fontSize utf8Text fullLength pathOffset pos true depth
        isFixedFont with
    | none => none
    | some (false, b1) => some (false, b1)
    | some (true, b1) =>
      drawPathTextImpl E b1 path s fontSize utf8Text fullLength pathOffset pos false depth
        isFixedFont
  else
    drawPathTextImpl E b path s fontSize utf8Text fullLength pathOffset pos false depth isFixedFont

/-! ## Notions used to state the properties -/

/-- Pages and index counts of the submits (`drawGeometry` calls) of a log, oldest first. -/
def submits : List Event → List (Nat × Nat)
  | [] => []
  | Event.drawGeometry page _ _ indicesCount :: es => (page, indicesCount) :: submits es
  | _ :: es => submits es

/-- Number of visits of page `p` by the loop of `flush` recorded in a log: with a skin attached
every visit starts with `uploadData` on that page. -/
def flushVisits (p : Nat) : List Event → Nat
  | [] => 0
  | Event.uploadData page :: es => (if page = p then 1 else 0) + flushVisits p es
  | _ :: es => flushVisits p es

/-- Blocks leased according to a log, oldest first. -/
def leases : List Event → List Storage
  | [] => []
  | Event.reserveStorage s :: es => s :: leases es
  | Event.reserveSmallStorage s :: es => s :: leases es
  | _ :: es => leases es

/-- Capacity invariant of one pipeline. -/
def GeometryPipeline.inBounds (p : GeometryPipeline) : Prop :=
  p.m_currentVertex ≤ p.m_maxVertices ∧ p.m_currentIndex ≤ p.m_maxIndices

instance (p : GeometryPipeline) : Decidable p.inBounds := by
  unfold GeometryPipeline.inBounds
  infer_instance

/-- Capacity invariant of the batcher: every pipeline is within its capacities. -/
def GeometryBatcher.inBounds (b : GeometryBatcher R) : Prop :=
  ∀ p ∈ b.m_pipelines, p.inBounds

instance (b : GeometryBatcher R) : Decidable b.inBounds := by
  unfold GeometryBatcher.inBounds
  infer_instance

/-- Arguments of one call of `addTexturedFan`. -/
structure Fan where
  coords : List Point
  texCoords : List Point
  size : Nat
  depth : ℚ

/-- A sequence of calls of `addTexturedFan` on one page. -/
def addTexturedFans (E : Env R) (pageID : Nat) : List Fan → GeometryBatcher R →
    Option (GeometryBatcher R)
  | [], b => some b
  | f :: fs, b =>
    match addTexturedFan E b f.coords f.texCoords f.size f.depth pageID with
    | none => none
    | some b1 => addTexturedFans E pageID fs b1

/-- Every fan of the sequence has room on the page at the time of its call. -/
def fansFit (E : Env R) (pageID : Nat) : List Fan → GeometryBatcher R → Bool
  | [], _ => true
  | f :: fs, b =>
    hasRoom b f.size (3 * (f.size - 2)) pageID &&
      match addTexturedFan E b f.coords f.texCoords f.size f.depth pageID with
      | none => true
      | some b1 => fansFit E pageID fs b1

/-- Pages selected by the argument of `flush` and `reset`. -/
def selects (pageID : Int) (i : Nat) : Bool :=
  decide (pageID = -1 ∨ (i : Int) = pageID)

/-! ## A concrete environment -/

/-- Resource manager with two queues of blocks: a lease takes the block at the front, a return
puts the block at the back. An empty queue hands out the empty block. -/
structure QueuePools where
  storages : List Storage
  smallStorages : List Storage

/-- Environment over `QueuePools`, with the geometry helpers of a horizontal path. -/
def queueEnv : Env QueuePools where
  reserveStorage := fun rm => (rm.storages.headD default, { rm with storages := rm.storages.tail })
  reserveSmallStorage := fun rm =>
    (rm.smallStorages.headD default, { rm with smallStorages := rm.smallStorages.tail })
  freeStorage := fun s rm => { rm with storages := rm.storages ++ [s] }
  freeSmallStorage := fun s rm => { rm with smallStorages := rm.smallStorages ++ [s] }
  sin := fun _ => 0
  cos := fun _ => 1
  pi := 22 / 7
  AngleTo := fun _ _ => 0
  Length := fun p q => |p.x - q.x| + |p.y - q.y|
  Move := fun p len _ => ⟨p.x + len, p.y⟩
  rounds := fun q => Int.floor (q + 1 / 2)
  FromUtf8 := fun str => str.data
  fribidi_log2vis := fun str => str

/-- Block with room for `v` vertices and `i` indices. -/
def blockOf (v i : Nat) : Storage :=
  { verticesSize := v * sizeofVertex, indicesSize := i * sizeofIndex,
    vertices := fun _ => default, indices := fun _ => 0 }

/-- Glyph style of advance 50 on page 0. -/
def sampleGlyph : ResourceStyle :=
  { m_cat := Category.ECharStyle, m_texRect := ⟨0, 0, 10, 10⟩, m_pageID := 0,
    m_xOffset := 0, m_yOffset := 0, m_xAdvance := 50 }

/-- Skin with `n` static pages in which every style is `sampleGlyph`. -/
def sampleSkin (n : Nat) : Skin :=
  { pages := List.replicate n default, fromID := fun _ => some sampleGlyph,
    mapGlyph := fun _ _ => 0 }

/-- Batcher before any skin is attached, over pools holding one small block for `v` vertices and
`i` indices per page of a later skin. -/
def emptyBatcher (n v i : Nat) : GeometryBatcher QueuePools :=
  { m_skin := none, m_pipelines := [], m_aaShift := 1,
    m_resourceManager := ⟨[], List.replicate n (blockOf v i)⟩, log := [] }

/-- Batcher with `sampleSkin n` attached, every page on a block for `v` vertices and `i`
indices. -/
def sampleBatcher (n v i : Nat) : GeometryBatcher QueuePools :=
  setSkin queueEnv (emptyBatcher n v i) (some (sampleSkin n))

/-! ## The effect of one visit of the flush loop, in closed form -/

/-- Pipeline with both cursors at zero. -/
def zeroCursors (p : GeometryPipeline) : GeometryPipeline :=
  { p with m_currentVertex := 0, m_currentIndex := 0 }

/-- Block leased by a visit of the flush loop that submits pipeline `p`. -/
def leasedBlock (E : Env R) (isDynamic : Bool) (p : GeometryPipeline) (rm : R) : Storage :=
  (reserveFor E isDynamic (freeFor E isDynamic p.m_storage rm)).1

/-- Pipeline of a page after a visit of the flush loop. -/
def pageAfterFlush (E : Env R) (isDynamic : Bool) (p : GeometryPipeline) (rm : R) :
    GeometryPipeline :=
  if p.m_currentIndex ≠ 0 then freshPipeline (leasedBlock E isDynamic p rm) else zeroCursors p

/-- Resource manager after a visit of the flush loop. -/
def rmAfterFlush (E : Env R) (isDynamic : Bool) (p : GeometryPipeline) (rm : R) : R :=
  if p.m_currentIndex ≠ 0 then (reserveFor E isDynamic (freeFor E isDynamic p.m_storage rm)).2
  else rm

/-- Calls made by a visit of the flush loop to page `i`. -/
def flushPageEvents (E : Env R) (page : SkinPage) (i : Nat) (p : GeometryPipeline) (rm : R) :
    List Event :=
  Event.uploadData i ::
    (if p.m_currentIndex ≠ 0 then
      [Event.drawGeometry i page.texture p.m_storage p.m_currentIndex,
       freeEvent page.isDynamic p.m_storage,
       reserveEvent page.isDynamic (leasedBlock E page.isDynamic p rm)]
    else [])

/-- Batcher `b` after one quad (a fan of 4 vertices) was added to page 0. -/
def withQuad (b : GeometryBatcher QueuePools) : GeometryBatcher QueuePools :=
  (addTexturedFan queueEnv b [] [] 4 0 0).getD b

/-- Batcher `b` after one quad was added to page `p`. -/
def withQuadOn (p : Nat) (b : GeometryBatcher QueuePools) : GeometryBatcher QueuePools :=
  (addTexturedFan queueEnv b [] [] 4 0 p).getD b

/-- Batcher over three pages for 4 vertices and 6 indices, each page holding a quad. -/
def threeQuads : GeometryBatcher QueuePools :=
  withQuadOn 2 (withQuadOn 1 (withQuadOn 0 (sampleBatcher 3 4 6)))

/-- Submits made by the flush loop below page `k` when every page is selected: the pages with a
nonzero index cursor, from page `k - 1` down to page 0. -/
def pendingSubmits (b : GeometryBatcher R) : Nat → List (Nat × Nat)
  | 0 => []
  | k + 1 =>
    (if (b.pipeline k).m_currentIndex ≠ 0 then [(k, (b.pipeline k).m_currentIndex)] else []) ++
      pendingSubmits b k

/-- Batcher over one page for 4 vertices and 6 indices whose vertex cursor is 3 while its index
cursor is 0. -/
def verticesOnly : GeometryBatcher QueuePools :=
  (sampleBatcher 1 4 6).setPipeline 0
    { (sampleBatcher 1 4 6).pipeline 0 with m_currentVertex := 3 }

/-- Batcher over one static page whose small pool hands out a block for 4 vertices and 6
indices first and a block for 8 vertices and 12 indices next; the page holds a quad. -/
def variedBlocks : GeometryBatcher QueuePools :=
  withQuad (setSkin queueEnv
    { m_skin := none, m_pipelines := [], m_aaShift := 1,
      m_resourceManager := ⟨[], [blockOf 4 6, blockOf 8 12]⟩, log := [] }
    (some (sampleSkin 1)))

/-- Fit check of `hasRoom` in the arithmetic of a `size_t` with `m` values: both sums are
reduced modulo `m` before the comparison. -/
def hasRoomWord (m : Nat) (b : GeometryBatcher R) (verticesCount indicesCount : Nat)
    (pageID : Nat) : Bool :=
  decide (((b.pipeline pageID).m_currentVertex + verticesCount) % m ≤
      (b.pipeline pageID).m_maxVertices)
    && decide (((b.pipeline pageID).m_currentIndex + indicesCount) % m ≤
      (b.pipeline pageID).m_maxIndices)

/-- Difference of `verticesLeft` in the arithmetic of a `size_t` with `m` values. -/
def verticesLeftWord (m : Nat) (b : GeometryBatcher R) (pageID : Nat) : Nat :=
  ((b.pipeline pageID).m_maxVertices + m - (b.pipeline pageID).m_currentVertex % m) % m

/-- Difference of `indicesLeft` in the arithmetic of a `size_t` with `m` values. -/
def indicesLeftWord (m : Nat) (b : GeometryBatcher R) (pageID : Nat) : Nat :=
  ((b.pipeline pageID).m_maxIndices + m - (b.pipeline pageID).m_currentIndex % m) % m

/-- Sum of the lengths of the first `n` segments of a path. -/
def pathLen (E : Env R) (arr : List Point) (n : Nat) : ℚ :=
  ((List.range n).map (fun i => E.Length (arr.getD i default) (arr.getD (i + 1) default))).sum

/-- Environment `queueEnv` in which a path that ends to the left of its start has the angle 3
(above pi / 2) and every other path the angle 0. -/
def leftwardEnv : Env QueuePools :=
  { queueEnv with AngleTo := fun p q => if q.x < p.x then 3 else 0 }

/-- State after the fit check that opens every drawing operation: the page is flushed when the
primitive has no room. -/
def makeRoom (E : Env R) (b : GeometryBatcher R) (verticesCount indicesCount pageID : Nat) :
    GeometryBatcher R :=
  if !hasRoom b verticesCount indicesCount pageID then flush E b (pageID : Int) else b

/-- The four corners computed by `drawTexturedPolygon`, after the snap of the zero angle. -/
def polygonCoords (E : Env R) (ptShift : Point) (angle x0 y0 x1 y1 : ℚ) : List Point :=
  let sinA := E.sin angle
  let cosA := E.cos angle
  let c0 : Point := ⟨x0 * cosA - y0 * sinA + ptShift.x, x0 * sinA + y0 * cosA + ptShift.y⟩
  let c1 : Point := ⟨x0 * cosA - y1 * sinA + ptShift.x, x0 * sinA + y1 * cosA + ptShift.y⟩
  let c2 : Point := ⟨x1 * cosA - y1 * sinA + ptShift.x, x1 * sinA + y1 * cosA + ptShift.y⟩
  let c3 : Point := ⟨x1 * cosA - y0 * sinA + ptShift.x, x1 * sinA + y0 * cosA + ptShift.y⟩
  let deltaX : ℚ := if angle = 0 then c0.x - (Int.ceil c0.x : ℚ) else 0
  let deltaY : ℚ := if angle = 0 then c0.y - (Int.ceil c0.y : ℚ) else 0
  [⟨c0.x - deltaX, c0.y - deltaY⟩, ⟨c1.x - deltaX, c1.y - deltaY⟩,
   ⟨c2.x - deltaX, c2.y - deltaY⟩, ⟨c3.x - deltaX, c3.y - deltaY⟩]

/-- The four texture coordinates computed by `drawTexturedPolygon`. -/
def polygonTexCoords (page : SkinPage) (tx0 ty0 tx1 ty1 : ℚ) : List Point :=
  [⟨(page.mapPixel ⟨tx0, ty0⟩).x, (page.mapPixel ⟨tx0, ty0⟩).y⟩,
   ⟨(page.mapPixel ⟨tx0, ty0⟩).x, (page.mapPixel ⟨tx1, ty1⟩).y⟩,
   ⟨(page.mapPixel ⟨tx1, ty1⟩).x, (page.mapPixel ⟨tx1, ty1⟩).y⟩,
   ⟨(page.mapPixel ⟨tx1, ty1⟩).x, (page.mapPixel ⟨tx0, ty0⟩).y⟩]

/-- Point style with a texture rectangle 10 pixels wide and 8 pixels high on page 0. -/
def markerStyle : ResourceStyle :=
  { m_cat := Category.EPointStyle, m_texRect := ⟨0, 0, 10, 8⟩, m_pageID := 0,
    m_xOffset := 0, m_yOffset := 0, m_xAdvance := 0 }

/-- Skin with one static page in which every style is `markerStyle`. -/
def markerSkin : Skin :=
  { pages := [default], fromID := fun _ => some markerStyle, mapGlyph := fun _ _ => 0 }

/-- Batcher with `markerSkin` attached, its page on a block for 4 vertices and 6 indices. -/
def markerBatcher : GeometryBatcher QueuePools :=
  setSkin queueEnv (emptyBatcher 1 4 6) (some markerSkin)

/-! ## Text bounds -/

/-- Rectangle with idealised coordinates (`m2::RectD`). -/
structure RectD where
  minX : ℚ
  minY : ℚ
  maxX : ℚ
  maxY : ℚ
deriving DecidableEq

/-- Modelled from the spec: `m2::RectD::Inflate` is declared outside the source at hand; it
grows the rectangle by the margin `dx` on the left and right and `dy` below and above. -/
def RectD.Inflate (r : RectD) (dx dy : ℚ) : RectD :=
  ⟨r.minX - dx, r.minY - dy, r.maxX + dx, r.maxY + dy⟩

/-- Metrics of a glyph (`GlyphMetrics`). -/
structure GlyphMetrics where
  m_xAdvance : Int
  m_xOffset : Int
  m_yOffset : Int
  m_width : Int
  m_height : Int
deriving DecidableEq

/-- Collaborators of `textRect`: the glyph metrics of the resource manager, the rectangle made by
the default constructor of `m2::RectD`, and `m2::RectD::Add`. -/
structure TextEnv where
  getGlyphMetrics : GlyphKey → GlyphMetrics
  emptyRect : RectD
  Add : RectD → Point → RectD

/-- Loop of `textRect` over the characters. -/
def textRectLoop (T : TextEnv) (fontSize : Nat) : List Char → RectD → Point → RectD
  | [], rect, _ => rect
  | c :: cs, rect, pt =>
    let m := T.getGlyphMetrics ⟨c, fontSize, false⟩
    let rect1 := T.Add rect pt
    let rect2 := T.Add rect1
      ⟨pt.x + ((m.m_xOffset + m.m_width : Int) : ℚ), pt.y + ((-m.m_yOffset - m.m_height : Int) : ℚ)⟩
    textRectLoop T fontSize cs rect2 ⟨pt.x + (m.m_xAdvance : ℚ), pt.y + 0⟩

/-- Embedding of `GeometryBatcher::textRect`. -/
def textRect (E : Env R) (T : TextEnv) (utf8Text : String) (fontSize : Nat) (log2vis : Bool) :
    RectD :=
  let text := E.FromUtf8 utf8Text
  let text1 := if log2vis then Log2Vis E text else text
  (textRectLoop T fontSize text1 T.emptyRect ⟨0, 0⟩).Inflate 2 2

/-- Largest finite value of a `double`. -/
def doubleMax : ℚ := (2 ^ 53 - 1) * 2 ^ 971

/-- Text environment whose default rectangle is empty in the way of a bounding-box accumulator
(every minimum at the largest value, every maximum at the lowest) and whose `Add` extends the
rectangle to the point. -/
def boundingEnv : TextEnv where
  getGlyphMetrics := fun _ => ⟨50, 0, 0, 10, 10⟩
  emptyRect := ⟨doubleMax, doubleMax, -doubleMax, -doubleMax⟩
  Add := fun r p => ⟨min r.minX p.x, min r.minY p.y, max r.maxX p.x, max r.maxY p.y⟩

/-! ## Batches of a triangle list -/

/-- One batch of `drawTrianglesList`: the index of its first point, its size, the vertex and
index offsets at which it is written, whether the page was flushed after it, and the pipeline of
the page right after its writes. -/
structure Chunk where
  batchOffset : Nat
  size : Nat
  vOffset : Nat
  iOffset : Nat
  flushed : Bool
  written : GeometryPipeline

/-- The loop of `drawTrianglesList` with the record of its batches: the state is computed as in
`drawTrianglesListLoop`. -/
def drawTrianglesListTraceLoop (E : Env R) (points : List Point) (tex : Point) (depth : ℚ)
    (pageID : Nat) : Nat → Nat → Nat → GeometryBatcher R → Option (GeometryBatcher R × List Chunk)
  | 0, _, _, _ => none
  | fuel + 1, pointsLeft, batchOffset, b =>
    let batchSize := batchSizeOf b pageID pointsLeft
    let needToFlush := decide (batchSize < pointsLeft)
    let written := writeBatch (b.pipeline pageID) points tex depth batchOffset batchSize
    let c : Chunk :=
      ⟨batchOffset, batchSize, (b.pipeline pageID).m_currentVertex,
        (b.pipeline pageID).m_currentIndex, needToFlush, written⟩
    let b1 := b.setPipeline pageID written
    let b2 := if needToFlush then flush E b1 (pageID : Int) else b1
    if pointsLeft - batchSize = 0 then some (b2, [c])
    else
      match drawTrianglesListTraceLoop E points tex depth pageID fuel (pointsLeft - batchSize)
          (batchOffset + batchSize) b2 with
      | none => none
      | some (b3, cs) => some (b3, c :: cs)

/-- The batches of a call of `drawTrianglesList`, together with its result. -/
def drawTrianglesListTrace (E : Env R) (fuel : Nat) (b : GeometryBatcher R) (points : List Point)
    (pointsCount : Nat) (styleID : Nat) (depth : ℚ) :
    Option (GeometryBatcher R × List Chunk) :=
  match b.m_skin with
  | none => none
  | some skin =>
    match skin.fromID styleID with
    | none => none
    | some style =>
      if style.m_pageID < b.m_pipelines.length then
        if pointsCount ≥ 2 then
          match skin.pages[style.m_pageID]? with
          | none => none
          | some page =>
            drawTrianglesListTraceLoop E points
              (page.mapPixel ⟨(style.m_texRect.minX : ℚ) + 1, (style.m_texRect.minY : ℚ) + 1⟩)
              depth style.m_pageID fuel pointsCount 0
              (makeRoom E b pointsCount pointsCount style.m_pageID)
        else none
      else none

/-- The points of a batch are stored in order: point `k` of the batch is vertex `vOffset + k`,
and index slot `iOffset + k` holds `vOffset + k` reduced to an `unsigned short`. -/
def Chunk.stored (c : Chunk) (points : List Point) (tex : Point) (depth : ℚ) : Prop :=
  ∀ k, k < c.size →
    c.written.m_storage.vertices (c.vOffset + k) =
      { pt := points.getD (c.batchOffset + k) default, tex := tex, depth := depth } ∧
    c.written.m_storage.indices (c.iOffset + k) = (c.vOffset + k) % indexModulus

/-- The batches cover `left` points from point `off` on: every batch but the last is a multiple
of 3 smaller than what is left and is followed by a flush, the last batch takes all that is left
and is not followed by a flush. -/
def chunksOk (points : List Point) (tex : Point) (depth : ℚ) : Nat → Nat → List Chunk → Prop
  | _, _, [] => False
  | off, left, [c] =>
    c.batchOffset = off ∧ c.size = left ∧ c.flushed = false ∧ c.stored points tex depth
  | off, left, c :: c1 :: cs =>
    c.batchOffset = off ∧ c.size < left ∧ 3 ∣ c.size ∧ c.flushed = true ∧
      c.stored points tex depth ∧
      chunksOk points tex depth (off + c.size) (left - c.size) (c1 :: cs)

/-- Batcher over one page for 65540 vertices and 65540 indices that holds 65535 of each. -/
def manyVertices : GeometryBatcher QueuePools :=
  (sampleBatcher 1 65540 65540).setPipeline 0
    { (sampleBatcher 1 65540 65540).pipeline 0 with
      m_currentVertex := 65535, m_currentIndex := 65535 }

/-- Environment whose resource manager hands out, from either pool, a block for `v` vertices and
`i` indices at every lease; the other collaborators are those of `queueEnv`. -/
def constEnv (v i : Nat) : Env Unit where
  reserveStorage := fun _ => (blockOf v i, ())
  reserveSmallStorage := fun _ => (blockOf v i, ())
  freeStorage := fun _ _ => ()
  freeSmallStorage := fun _ _ => ()
  sin := queueEnv.sin
  cos := queueEnv.cos
  pi := queueEnv.pi
  AngleTo := queueEnv.AngleTo
  Length := queueEnv.Length
  Move := queueEnv.Move
  rounds := queueEnv.rounds
  FromUtf8 := queueEnv.FromUtf8
  fribidi_log2vis := queueEnv.fribidi_log2vis

/-- Batcher over `constEnv v i` with `sampleSkin n` attached. -/
def constBatcher (n v i : Nat) : GeometryBatcher Unit :=
  setSkin (constEnv v i)
    { m_skin := none, m_pipelines := [], m_aaShift := 1, m_resourceManager := (), log := [] }
    (some (sampleSkin n))

/-! ## Stroked paths -/

/-- Collaborators of `drawPath`: `atan2`, `m2::PointD::Rotate`, and `PenInfo::atDashOffset` of
the pen of the style with the given id. -/
structure LineEnv where
  atan2 : ℚ → ℚ → ℚ
  Rotate : Point → ℚ → Point
  atDashOffset : Nat → ℚ → Bool

/-- Conversion of a `double` to `int`: the fraction is dropped. -/
def toInt (q : ℚ) : Int :=
  if 0 ≤ q then Int.floor q else Int.ceil q

/-- Direction of a segment: the difference of its end points scaled by the inverse of its
length. For a segment of length 0 the machine value is not a number; here the inverse of 0 is
0. -/
def direction (E : Env R) (p q : Point) : Point :=
  ⟨(q.x - p.x) * (1 / E.Length ⟨q.x - p.x, q.y - p.y⟩ ⟨0, 0⟩),
   (q.y - p.y) * (1 / E.Length ⟨q.x - p.x, q.y - p.y⟩ ⟨0, 0⟩)⟩

/-- Geometry width computed by `drawPath` for a line style, an `int`. -/
def geomWidth (b : GeometryBatcher R) (lineStyle : ResourceStyle) : Int :=
  toInt (if lineStyle.m_isSolid then lineStyle.m_penInfo.m_w
    else lineStyle.m_penInfo.m_w + 4 - 2 * (b.m_aaShift : ℚ))

/-- Result of the tiling loop of one segment: the state, the running pattern offset
`rawTileStartLen`, the length `rawTileLen` of the last tile, and the lengths of the tiles that
were emitted, oldest first. -/
structure TileState (R : Type) where
  b : GeometryBatcher R
  rawTileStartLen : ℚ
  rawTileLen : ℚ
  tiles : List ℚ

/-- Length of the next tile of `drawPath`. -/
def tileLen (lineStyle : ResourceStyle) (segLen rawTileStartLen segLenRemain : ℚ) : ℚ :=
  if lineStyle.m_isWrapped || lineStyle.m_isSolid then segLen
  else min (lineStyle.rawTileLen - rawTileStartLen) segLenRemain

/-- Running pattern offset after a tile of length `len`, before the assertion. -/
def nextStartLen (lineStyle : ResourceStyle) (rawTileStartLen len : ℚ) : ℚ :=
  if rawTileStartLen + len ≥ lineStyle.rawTileLen then
    rawTileStartLen + len - lineStyle.rawTileLen
  else rawTileStartLen + len

/-- End point of a tile of length `rawTileLen` that starts in `rawTileStartPt`. -/
def tileEndPt (dir rawTileStartPt : Point) (rawTileLen : ℚ) : Point :=
  ⟨rawTileStartPt.x + dir.x * rawTileLen, rawTileStartPt.y + dir.y * rawTileLen⟩

/-- The four corners of a tile. -/
def tileCoords (dir norm rawTileStartPt : Point) (rawTileLen geomHalfWidth : ℚ) : List Point :=
  let rawTileEndPt := tileEndPt dir rawTileStartPt rawTileLen
  let fNorm : Point := ⟨norm.x * geomHalfWidth, norm.y * geomHalfWidth⟩
  [⟨rawTileStartPt.x + fNorm.x, rawTileStartPt.y + fNorm.y⟩,
   ⟨rawTileStartPt.x - fNorm.x, rawTileStartPt.y - fNorm.y⟩,
   ⟨rawTileEndPt.x - fNorm.x, rawTileEndPt.y - fNorm.y⟩,
   ⟨rawTileEndPt.x + fNorm.x, rawTileEndPt.y + fNorm.y⟩]

/-- The four texture coordinates of a tile. -/
def tileTexCoords (aaShift : Nat) (lineStyle : ResourceStyle) (page : SkinPage)
    (rawTileStartLen rawTileLen : ℚ) : List Point :=
  let texMaxY : ℚ :=
    if lineStyle.m_isSolid then (uadd lineStyle.m_texRect.minY 1 : ℚ)
    else (usub lineStyle.m_texRect.maxY aaShift : ℚ)
  let texMinY : ℚ :=
    if lineStyle.m_isSolid then (uadd lineStyle.m_texRect.minY 1 : ℚ)
    else (uadd lineStyle.m_texRect.minY aaShift : ℚ)
  let texMinX : ℚ :=
    if lineStyle.m_isSolid then (uadd lineStyle.m_texRect.minX 1 : ℚ)
    else if lineStyle.m_isWrapped then 0
    else (uadd lineStyle.m_texRect.minX 2 : ℚ) + rawTileStartLen
  let texMaxX : ℚ :=
    if lineStyle.m_isSolid then (uadd lineStyle.m_texRect.minX 1 : ℚ)
    else texMinX + rawTileLen
  [page.mapPixel ⟨texMinX, texMinY⟩, page.mapPixel ⟨texMinX, texMaxY⟩,
   page.mapPixel ⟨texMaxX, texMaxY⟩, page.mapPixel ⟨texMaxX, texMinY⟩]

/-- The loop `while (segLenRemain > 0)` of `drawPath`; `fuel` bounds its iterations. The failed
`ASSERT(rawTileStartLen < lineStyle->rawTileLen())` ends the loop without a result. -/
def drawPathTiles (E : Env R) (lineStyle : ResourceStyle) (depth : ℚ) (dir norm : Point)
    (segLen geomHalfWidth : ℚ) :
    Nat → ℚ → Point → ℚ → ℚ → List ℚ → GeometryBatcher R → Option (TileState R)
  | 0, _, _, _, _, _, _ => none
  | fuel + 1, segLenRemain, rawTileStartPt, rawTileStartLen, lastTileLen, tiles, b =>
    if segLenRemain > 0 then
      let rawTileLen := tileLen lineStyle segLen rawTileStartLen segLenRemain
      let startLen2 := nextStartLen lineStyle rawTileStartLen rawTileLen
      if startLen2 < lineStyle.rawTileLen then
        match b.m_skin with
        | none => none
        | some skin =>
          match skin.pages[lineStyle.m_pageID]? with
          | none => none
          | some page =>
            match addTexturedFan E b
                (tileCoords dir norm rawTileStartPt rawTileLen geomHalfWidth)
                (tileTexCoords b.m_aaShift lineStyle page rawTileStartLen rawTileLen)
                4 depth lineStyle.m_pageID with
            | none => none
            | some b1 =>
              drawPathTiles E lineStyle depth dir norm segLen geomHalfWidth fuel
                (segLenRemain - rawTileLen) (tileEndPt dir rawTileStartPt rawTileLen) startLen2
                rawTileLen (tiles ++ [rawTileLen]) b1
      else none
    else some ⟨b, rawTileStartLen, lastTileLen, tiles⟩

/-- The loop over `j` of a join: `n` triangles swept from `startVec`. -/
def drawPathJoinLoop (E : Env R) (L : LineEnv) (lineStyle : ResourceStyle) (depth : ℚ)
    (corner : Point) (joinSegTex : List Point) (angleStep geomHalfWidth : ℚ) :
    Nat → Point → Point → GeometryBatcher R → Option (GeometryBatcher R)
  | 0, _, _, b => some b
  | n + 1, startVec, prevStartVec, b =>
    let startVec1 := L.Rotate startVec angleStep
    let joinSeg : List Point :=
      [corner,
       ⟨corner.x + startVec1.x * geomHalfWidth, corner.y + startVec1.y * geomHalfWidth⟩,
       ⟨corner.x + prevStartVec.x * geomHalfWidth, corner.y + prevStartVec.y * geomHalfWidth⟩]
    match addTexturedFan E b joinSeg joinSegTex 3 depth lineStyle.m_pageID with
    | none => none
    | some b1 =>
      drawPathJoinLoop E L lineStyle depth corner joinSegTex angleStep geomHalfWidth n startVec1
        startVec1 b1

/-- Number of triangles of a join with turn angle `alpha`: `int(ceil(fabs(alpha) / (pi / 6)))`. -/
def angleSegCount (E : Env R) (alpha : ℚ) : Int :=
  toInt (Int.ceil (|alpha| / (E.pi / 6)) : ℚ)

/-- The join between the segment with direction `dir` that ends in `corner` and the segment from
`corner` to `next`. -/
def drawPathJoin (E : Env R) (L : LineEnv) (lineStyle : ResourceStyle) (depth : ℚ)
    (dir norm corner next : Point) (geomHalfWidth : ℚ) (b : GeometryBatcher R) :
    Option (GeometryBatcher R) :=
  let nextDir := direction E corner next
  let alphaSin := dir.x * nextDir.y - dir.y * nextDir.x
  let alphaCos := dir.x * nextDir.x + dir.y * nextDir.y
  let alpha := L.atan2 alphaSin alphaCos
  let count := angleSegCount E alpha
  let angleStep := alpha / (count : ℚ)
  let startVec : Point := if alpha > 0 then ⟨-norm.x, -norm.y⟩ else norm
  match b.m_skin with
  | none => none
  | some skin =>
    match skin.pages[lineStyle.m_pageID]? with
    | none => none
    | some page =>
      let joinSegTex : List Point :=
        [page.mapPixel lineStyle.m_centerColorPixel, page.mapPixel lineStyle.m_borderColorPixel,
         page.mapPixel lineStyle.m_borderColorPixel]
      drawPathJoinLoop E L lineStyle depth corner joinSegTex angleStep geomHalfWidth count.toNat
        startVec startVec b

/-- Body of the loop over the segments of `drawPath` for segment `i`: the tiles, then the join
with the next segment. The result carries the running pattern offset and the tile lengths. -/
def drawPathSegment (E : Env R) (L : LineEnv) (lineStyle : ResourceStyle) (styleID : Nat)
    (depth : ℚ) (fuel : Nat) (points : List Point) (pointsCount i : Nat) (rawTileStartLen : ℚ)
    (b : GeometryBatcher R) : Option (TileState R) :=
  match points[i]?, points[i + 1]? with
  | some p, some q =>
    let dir := direction E p q
    let norm : Point := ⟨-dir.y, dir.x⟩
    let segLen := E.Length q p
    let geomHalfWidth : ℚ := (geomWidth b lineStyle : ℚ) / 2
    match drawPathTiles E lineStyle depth dir norm segLen geomHalfWidth fuel segLen p
        rawTileStartLen 0 [] b with
    | none => none
    | some ts =>
      let isColorJoin :=
        if lineStyle.m_isSolid then true else L.atDashOffset styleID ts.rawTileLen
      if i ≠ pointsCount - 2 ∧ isColorJoin = true then
        match points[i + 2]? with
        | none => none
        | some next =>
          match drawPathJoin E L lineStyle depth dir norm q next geomHalfWidth ts.b with
          | none => none
          | some b1 => some { ts with b := b1 }
      else some ts
  | _, _ => none

/-- The loop `for (i = 0; i < pointsCount - 1; ++i)` of `drawPath`, with `n` iterations left;
the result carries the tile lengths of every segment. -/
def drawPathLoop (E : Env R) (L : LineEnv) (lineStyle : ResourceStyle) (styleID : Nat)
    (depth : ℚ) (fuel : Nat) (points : List Point) (pointsCount : Nat) :
    Nat → Nat → ℚ → GeometryBatcher R → Option (GeometryBatcher R × List (List ℚ))
  | 0, _, _, b => some (b, [])
  | n + 1, i, rawTileStartLen, b =>
    match drawPathSegment E L lineStyle styleID depth fuel points pointsCount i rawTileStartLen
        b with
    | none => none
    | some ts =>
      match drawPathLoop E L lineStyle styleID depth fuel points pointsCount n (i + 1)
          ts.rawTileStartLen ts.b with
      | none => none
      | some (b1, segs) => some (b1, ts.tiles :: segs)

/-- Embedding of `GeometryBatcher::drawPath`, with the tile lengths of every segment next to the
state; `fuel` bounds the iterations of each tiling loop. -/
def drawPathTrace (E : Env R) (L : LineEnv) (fuel : Nat) (b : GeometryBatcher R)
    (points : List Point) (pointsCount styleID : Nat) (depth : ℚ) :
    Option (GeometryBatcher R × List (List ℚ)) :=
  if pointsCount ≥ 2 then
    match b.m_skin with
    | none => none
    | some skin =>
      match skin.fromID styleID with
      | none => none
      | some style =>
        if style.m_cat = Category.ELineStyle then
          drawPathLoop E L style styleID depth fuel points pointsCount (pointsCount - 1) 0 0 b
        else none
  else none

/-- Embedding of `GeometryBatcher::drawPath`: the state after the call. -/
def drawPath (E : Env R) (L : LineEnv) (fuel : Nat) (b : GeometryBatcher R)
    (points : List Point) (pointsCount styleID : Nat) (depth : ℚ) : Option (GeometryBatcher R) :=
  (drawPathTrace E L fuel b points pointsCount styleID depth).map Prod.fst

/-- Collaborators of `drawPath` for paths without a turn: every angle is 0, the rotation is the
identity, and every dash offset is a colour join. -/
def flatLineEnv : LineEnv :=
  { atan2 := fun _ _ => 0, Rotate := fun p _ => p, atDashOffset := fun _ _ => true }

/-- Dashed line style on page 0 with raw tile length 4 and pen width 3. -/
def dashStyle : ResourceStyle :=
  { m_cat := Category.ELineStyle, m_texRect := ⟨0, 0, 8, 7⟩, m_pageID := 0,
    m_xOffset := 0, m_yOffset := 0, m_xAdvance := 0, m_penInfo := ⟨3⟩, rawTileLen := 4 }

/-- Solid line style on page 0 with raw tile length 4 and pen width 2. -/
def solidStyle : ResourceStyle :=
  { m_cat := Category.ELineStyle, m_texRect := ⟨0, 0, 8, 6⟩, m_pageID := 0,
    m_xOffset := 0, m_yOffset := 0, m_xAdvance := 0, m_isSolid := true, m_penInfo := ⟨2⟩,
    rawTileLen := 4 }

/-- Skin with one static page in which style 0 is `dashStyle` and every other style is
`solidStyle`. -/
def lineSkin : Skin :=
  { pages := [default], fromID := fun i => if i = 0 then some dashStyle else some solidStyle,
    mapGlyph := fun _ _ => 0 }

/-- Batcher with `lineSkin` attached, its page on a block for 16 vertices and 24 indices. -/
def lineBatcher : GeometryBatcher QueuePools :=
  setSkin queueEnv (emptyBatcher 1 16 24) (some lineSkin)

/-- Glyph style of advance 200 on page 0. -/
def wideGlyph : ResourceStyle :=
  { m_cat := Category.ECharStyle, m_texRect := ⟨0, 0, 10, 10⟩, m_pageID := 0,
    m_xOffset := 0, m_yOffset := 0, m_xAdvance := 200 }

/-- Skin with one static page whose mask glyphs are `wideGlyph` (style 1) and whose other glyphs
are `sampleGlyph`. -/
def maskSkin : Skin :=
  { pages := [default], fromID := fun i => if i = 1 then some wideGlyph else some sampleGlyph,
    mapGlyph := fun k _ => if k.isMask then 1 else 0 }

/-- Batcher with `maskSkin` attached, its page on a block for 16 vertices and 24 indices. -/
def maskBatcher : GeometryBatcher QueuePools :=
  setSkin queueEnv (emptyBatcher 1 16 24) (some maskSkin)

/-- Signed turn angle `alpha` computed by `drawPath` at the corner between a segment of
direction `dir` and the segment from `corner` to `next`. -/
def joinAngle (E : Env R) (L : LineEnv) (dir corner next : Point) : ℚ :=
  L.atan2 (dir.x * (direction E corner next).y - dir.y * (direction E corner next).x)
    (dir.x * (direction E corner next).x + dir.y * (direction E corner next).y)

/-- The fans passed to `addTexturedFan` by the loop over `j` of a join, oldest first. -/
def joinFans (L : LineEnv) (corner : Point) (joinSegTex : List Point)
    (angleStep geomHalfWidth depth : ℚ) : Nat → Point → Point → List Fan
  | 0, _, _ => []
  | n + 1, startVec, prevStartVec =>
    { coords :=
        [corner,
         ⟨corner.x + (L.Rotate startVec angleStep).x * geomHalfWidth,
          corner.y + (L.Rotate startVec angleStep).y * geomHalfWidth⟩,
         ⟨corner.x + prevStartVec.x * geomHalfWidth, corner.y + prevStartVec.y * geomHalfWidth⟩],
      texCoords := joinSegTex, size := 3, depth := depth } ::
      joinFans L corner joinSegTex angleStep geomHalfWidth depth n (L.Rotate startVec angleStep)
        (L.Rotate startVec angleStep)

/-- Start vector of a join: the normal on the outer side of the turn. -/
def joinStartVec (alpha : ℚ) (norm : Point) : Point :=
  if alpha > 0 then ⟨-norm.x, -norm.y⟩ else norm

/-- Texture coordinates of every triangle of a join. -/
def joinSegTexOf (lineStyle : ResourceStyle) (page : SkinPage) : List Point :=
  [page.mapPixel lineStyle.m_centerColorPixel, page.mapPixel lineStyle.m_borderColorPixel,
   page.mapPixel lineStyle.m_borderColorPixel]

/-- The fans of the join at `corner`, as `drawPath` computes them. -/
def joinFansOf (E : Env R) (L : LineEnv) (lineStyle : ResourceStyle) (page : SkinPage)
    (depth : ℚ) (dir norm corner next : Point) (geomHalfWidth : ℚ) : List Fan :=
  joinFans L corner (joinSegTexOf lineStyle page)
    (joinAngle E L dir corner next / (angleSegCount E (joinAngle E L dir corner next) : ℚ))
    geomHalfWidth depth (angleSegCount E (joinAngle E L dir corner next)).toNat
    (joinStartVec (joinAngle E L dir corner next) norm)
    (joinStartVec (joinAngle E L dir corner next) norm)

/-- Collaborators of `drawPath` for which every turn has the angle 1 (in radians). -/
def turnLineEnv : LineEnv :=
  { atan2 := fun _ _ => 1, Rotate := fun p _ => ⟨-p.y, p.x⟩, atDashOffset := fun _ _ => true }

/-- Point `pt` lies on the closed segment from `p` to `q`. -/
def onSegment (p q pt : Point) : Bool :=
  decide ((q.x - p.x) * (pt.y - p.y) = (q.y - p.y) * (pt.x - p.x)) &&
    decide (min p.x q.x ≤ pt.x) && decide (pt.x ≤ max p.x q.x) &&
    decide (min p.y q.y ≤ pt.y) && decide (pt.y ≤ max p.y q.y)

/-- Point `pt` lies on the segment of the path that starts at `arr[ind]`. -/
def pts_array.onSegment (arr : pts_array) (ind : Nat) (pt : Point) : Bool :=
  match arr.get ind, arr.get (ind + 1) with
  | some p, some q => yg.onSegment p q pt
  | _, _ => false

/-- Remaining length of the path from `pt` on the segment that starts at `arr[ind]`, over `n`
segments: the distance from `pt` to `arr[ind + 1]` plus the lengths of the `n - 1` segments
after it. -/
def remainingLength (E : Env R) (arr : pts_array) : Nat → Nat → Point → ℚ
  | 0, _, _ => 0
  | n + 1, ind, pt =>
    match arr.get (ind + 1) with
    | none => 0
    | some q => E.Length q pt + remainingLength E arr n (ind + 1) q

/-- The fans passed to `addTexturedFan` by the tiling loop of `drawPath` for tiles of the given
lengths that each start at pattern offset 0, the first tile starting in `rawTileStartPt`. -/
def tileFans (lineStyle : ResourceStyle) (page : SkinPage) (aaShift : Nat) (depth : ℚ)
    (dir norm : Point) (geomHalfWidth : ℚ) : List ℚ → Point → List Fan
  | [], _ => []
  | rawTileLen :: rest, rawTileStartPt =>
    { coords := tileCoords dir norm rawTileStartPt rawTileLen geomHalfWidth,
      texCoords := tileTexCoords aaShift lineStyle page 0 rawTileLen, size := 4, depth := depth } ::
      tileFans lineStyle page aaShift depth dir norm geomHalfWidth rest
        (tileEndPt dir rawTileStartPt rawTileLen)

/-! ## Basic facts -/

theorem resetFrom_length (pid : Int) (l : List GeometryPipeline) (k : Nat) :
    (resetFrom pid k l).length = l.length := by
  induction l generalizing k with
  | nil => rfl
  | cons p ps ih => simp [resetFrom, ih]

theorem resetFrom_getElem? (pid : Int) (l : List GeometryPipeline) (k j : Nat) :
    (resetFrom pid k l)[j]? =
      (l[j]?).map (fun p => if pid = -1 ∨ pid = ((k + j : Nat) : Int) then zeroCursors p else p) := by
  induction l generalizing k j with
  | nil => simp [resetFrom]
  | cons p ps ih =>
    cases j with
    | zero => simp [resetFrom, zeroCursors]
    | succ j =>
      simp only [resetFrom, List.getElem?_cons_succ, ih]
      have : k + 1 + j = k + (j + 1) := by omega
      rw [this]

theorem resetFrom_page (i : Nat) (l : List GeometryPipeline) :
    resetFrom (i : Int) 0 l = l.set i (zeroCursors (l.getD i default)) := by
  apply List.ext_getElem?
  intro j
  rw [resetFrom_getElem?]
  have h1 : ¬ ((i : Int) = -1) := by omega
  by_cases hj : i = j
  · subst hj
    by_cases hl : i < l.length
    · simp [hl, List.getElem?_eq_getElem]
    · have hl2 : l.length ≤ i := by omega
      simp [List.getElem?_eq_none hl2, List.set_eq_of_length_le hl2]
  · have h2 : ¬ ((i : Int) = ((0 + j : Nat) : Int)) := by omega
    simp [h1, h2, hj, List.getElem?_set_ne hj]

theorem pipeline_eq (b : GeometryBatcher R) (q : Nat) :
    b.pipeline q = (b.m_pipelines[q]?).getD default := by
  simp [GeometryBatcher.pipeline]

theorem pipeline_of_lt (b : GeometryBatcher R) (q : Nat) (h : q < b.m_pipelines.length) :
    b.m_pipelines[q]? = some (b.pipeline q) := by
  simp [GeometryBatcher.pipeline, List.getElem?_eq_getElem h]

theorem pipeline_congr (b c : GeometryBatcher R) (q : Nat)
    (h : c.m_pipelines[q]? = b.m_pipelines[q]?) : c.pipeline q = b.pipeline q := by
  simp [pipeline_eq, h]

theorem flushPage_eq (E : Env R) (s : Skin) (i : Nat) (b : GeometryBatcher R) :
    flushPage E s i b =
      { b with
        m_pipelines := b.m_pipelines.set i
          (pageAfterFlush E (s.pages.getD i default).isDynamic (b.pipeline i) b.m_resourceManager)
        m_resourceManager :=
          rmAfterFlush E (s.pages.getD i default).isDynamic (b.pipeline i) b.m_resourceManager
        log := b.log ++
          flushPageEvents E (s.pages.getD i default) i (b.pipeline i) b.m_resourceManager } := by
  unfold flushPage
  by_cases h0 : (b.pipeline i).m_currentIndex = 0
  · simp only [h0, ne_eq, not_true_eq_false, if_false, reset, resetFrom_page, pageAfterFlush,
      rmAfterFlush, flushPageEvents]
    rfl
  · by_cases hl : i < b.m_pipelines.length
    · simp only [h0, ne_eq, not_false_eq_true, if_true, reset, resetFrom_page, pageAfterFlush,
        rmAfterFlush, flushPageEvents, leasedBlock, List.set_set, List.append_assoc]
      simp [List.getD_eq_getElem?_getD, List.getElem?_set_self hl, zeroCursors, freshPipeline]
    · have hl2 : b.m_pipelines.length ≤ i := by omega
      simp only [h0, ne_eq, not_false_eq_true, if_true, reset, resetFrom_page, pageAfterFlush,
        rmAfterFlush, flushPageEvents, leasedBlock, List.set_set, List.append_assoc]
      simp [List.set_eq_of_length_le hl2]

theorem flushPage_skin (E : Env R) (s : Skin) (i : Nat) (b : GeometryBatcher R) :
    (flushPage E s i b).m_skin = b.m_skin := by
  rw [flushPage_eq]

theorem flushPage_length (E : Env R) (s : Skin) (i : Nat) (b : GeometryBatcher R) :
    (flushPage E s i b).m_pipelines.length = b.m_pipelines.length := by
  rw [flushPage_eq]; simp

theorem flushPage_other (E : Env R) (s : Skin) (i q : Nat) (b : GeometryBatcher R) (h : i ≠ q) :
    (flushPage E s i b).m_pipelines[q]? = b.m_pipelines[q]? := by
  rw [flushPage_eq]; simp [List.getElem?_set_ne h]

theorem flushPage_self (E : Env R) (s : Skin) (i : Nat) (b : GeometryBatcher R)
    (h : i < b.m_pipelines.length) :
    (flushPage E s i b).pipeline i =
      pageAfterFlush E (s.pages.getD i default).isDynamic (b.pipeline i) b.m_resourceManager := by
  rw [flushPage_eq]
  simp [GeometryBatcher.pipeline, List.getElem?_set_self h]

theorem flushPage_log (E : Env R) (s : Skin) (i : Nat) (b : GeometryBatcher R) :
    (flushPage E s i b).log =
      b.log ++ flushPageEvents E (s.pages.getD i default) i (b.pipeline i) b.m_resourceManager := by
  rw [flushPage_eq]

theorem flushLoop_succ (E : Env R) (s : Skin) (pid : Int) (k : Nat) (b : GeometryBatcher R) :
    flushLoop E s pid (k + 1) b =
      flushLoop E s pid k (if pid = -1 ∨ (k : Int) = pid then flushPage E s k b else b) := rfl

theorem flushLoop_single (E : Env R) (s : Skin) (p k : Nat) (b : GeometryBatcher R) :
    flushLoop E s (p : Int) k b = if p < k then flushPage E s p b else b := by
  induction k generalizing b with
  | zero => simp [flushLoop]
  | succ k ih =>
    rw [flushLoop_succ]
    have h1 : ¬ ((p : Int) = -1) := by omega
    by_cases hk : k = p
    · subst hk
      simp [ih]
    · have h2 : ¬ ((k : Int) = (p : Int)) := by omega
      simp only [h1, h2, or_self, if_false, ih]
      by_cases h3 : p < k
      · have : p < k + 1 := by omega
        simp [h3, this]
      · have : ¬ p < k + 1 := by omega
        simp [h3, this]

theorem flush_no_skin (E : Env R) (b : GeometryBatcher R) (pid : Int) (h : b.m_skin = none) :
    flush E b pid = b := by
  simp [flush, h]

theorem flush_page (E : Env R) (b : GeometryBatcher R) (s : Skin) (p : Nat)
    (hs : b.m_skin = some s) (hp : p < b.m_pipelines.length) :
    flush E b (p : Int) = flushPage E s p b := by
  simp [flush, hs, flushLoop_single, hp]

theorem flushLoop_skin (E : Env R) (s : Skin) (pid : Int) (k : Nat) (b : GeometryBatcher R) :
    (flushLoop E s pid k b).m_skin = b.m_skin := by
  induction k generalizing b with
  | zero => rfl
  | succ k ih =>
    rw [flushLoop_succ, ih]
    split
    · exact flushPage_skin E s k b
    · rfl

theorem flushLoop_length (E : Env R) (s : Skin) (pid : Int) (k : Nat) (b : GeometryBatcher R) :
    (flushLoop E s pid k b).m_pipelines.length = b.m_pipelines.length := by
  induction k generalizing b with
  | zero => rfl
  | succ k ih =>
    rw [flushLoop_succ, ih]
    split
    · exact flushPage_length E s k b
    · rfl

theorem flushLoop_other (E : Env R) (s : Skin) (pid : Int) (k q : Nat) (b : GeometryBatcher R)
    (h : ¬ (q < k ∧ selects pid q = true)) :
    (flushLoop E s pid k b).m_pipelines[q]? = b.m_pipelines[q]? := by
  induction k generalizing b with
  | zero => rfl
  | succ k ih =>
    rw [flushLoop_succ]
    have hk : ¬ (q < k ∧ selects pid q = true) := fun hh => h ⟨by omega, hh.2⟩
    rw [ih _ hk]
    split
    · rename_i hsel
      have hne : k ≠ q := by
        intro hkq
        subst hkq
        exact h ⟨by omega, by simpa [selects] using hsel⟩
      exact flushPage_other E s k q b hne
    · rfl

theorem flush_skin (E : Env R) (b : GeometryBatcher R) (pid : Int) :
    (flush E b pid).m_skin = b.m_skin := by
  unfold flush
  split
  · rfl
  · rw [flushLoop_skin]

theorem flush_length (E : Env R) (b : GeometryBatcher R) (pid : Int) :
    (flush E b pid).m_pipelines.length = b.m_pipelines.length := by
  unfold flush
  split
  · rfl
  · rw [flushLoop_length]

theorem setPipeline_self (b : GeometryBatcher R) (p : Nat) (x : GeometryPipeline)
    (h : p < b.m_pipelines.length) : (b.setPipeline p x).pipeline p = x := by
  simp [GeometryBatcher.setPipeline, GeometryBatcher.pipeline, List.getElem?_set_self h]

theorem setPipeline_other (b : GeometryBatcher R) (p q : Nat) (x : GeometryPipeline)
    (h : q ≠ p) : (b.setPipeline p x).pipeline q = b.pipeline q := by
  simp [GeometryBatcher.setPipeline, GeometryBatcher.pipeline, List.getElem?_set_ne (Ne.symm h)]

theorem setPipeline_length (b : GeometryBatcher R) (p : Nat) (x : GeometryPipeline) :
    (b.setPipeline p x).m_pipelines.length = b.m_pipelines.length := by
  simp [GeometryBatcher.setPipeline]

theorem addTexturedFan_room (E : Env R) (b : GeometryBatcher R) (coords texCoords : List Point)
    (n : Nat) (depth : ℚ) (p : Nat) (hp : p < b.m_pipelines.length) (hn : 3 ≤ n)
    (hroom : hasRoom b n (3 * (n - 2)) p = true) :
    addTexturedFan E b coords texCoords n depth p =
      some (b.setPipeline p (writeFan (b.pipeline p) coords texCoords n depth)) := by
  have hn2 : n > 2 := by omega
  have hroom2 : hasRoom b n ((n - 2) * 3) p = true := by rw [Nat.mul_comm]; exact hroom
  simp [addTexturedFan, hp, hn2, hroom2]

theorem addTexturedFan_no_room (E : Env R) (b : GeometryBatcher R) (coords texCoords : List Point)
    (n : Nat) (depth : ℚ) (p : Nat) (hp : p < b.m_pipelines.length) (hn : 3 ≤ n)
    (hroom : hasRoom b n (3 * (n - 2)) p = false) :
    addTexturedFan E b coords texCoords n depth p =
      some ((flush E b (p : Int)).setPipeline p
        (writeFan ((flush E b (p : Int)).pipeline p) coords texCoords n depth)) := by
  have hn2 : n > 2 := by omega
  have hroom2 : hasRoom b n ((n - 2) * 3) p = false := by rw [Nat.mul_comm]; exact hroom
  simp [addTexturedFan, hp, hn2, hroom2]

theorem addTexturedFans_room (E : Env R) (p : Nat) (fans : List Fan) (b : GeometryBatcher R)
    (hp : p < b.m_pipelines.length) (hsz : ∀ f ∈ fans, 3 ≤ f.size)
    (hfit : fansFit E p fans b = true) :
    ∃ b1, addTexturedFans E p fans b = some b1 ∧ b1.log = b.log ∧
      b1.m_resourceManager = b.m_resourceManager ∧
      (b1.pipeline p).m_currentVertex =
        (b.pipeline p).m_currentVertex + (fans.map (fun f => f.size)).sum ∧
      (b1.pipeline p).m_currentIndex =
        (b.pipeline p).m_currentIndex + (fans.map (fun f => 3 * (f.size - 2))).sum ∧
      ∀ q, q ≠ p → b1.pipeline q = b.pipeline q := by
  induction fans generalizing b with
  | nil => exact ⟨b, rfl, rfl, rfl, by simp, by simp, fun _ _ => rfl⟩
  | cons f fs ih =>
    have hf : 3 ≤ f.size := hsz f (List.mem_cons_self _ _)
    simp only [fansFit, Bool.and_eq_true] at hfit
    obtain ⟨hroom, hrest⟩ := hfit
    have hstep := addTexturedFan_room E b f.coords f.texCoords f.size f.depth p hp hf hroom
    rw [hstep] at hrest
    have hp1 : p < (b.setPipeline p
        (writeFan (b.pipeline p) f.coords f.texCoords f.size f.depth)).m_pipelines.length := by
      rw [setPipeline_length]; exact hp
    obtain ⟨b1, h1, h2, h3, h4, h5, h6⟩ :=
      ih _ hp1 (fun g hg => hsz g (List.mem_cons_of_mem _ hg)) hrest
    refine ⟨b1, ?_, ?_, ?_, ?_, ?_, ?_⟩
    · simp only [addTexturedFans, hstep]; exact h1
    · rw [h2]; rfl
    · rw [h3]; rfl
    · rw [h4, setPipeline_self _ _ _ hp]
      simp only [writeFan, List.map_cons, List.sum_cons]
      omega
    · rw [h5, setPipeline_self _ _ _ hp]
      simp only [writeFan, List.map_cons, List.sum_cons]
      omega
    · intro q hq
      rw [h6 q hq, setPipeline_other _ _ _ _ hq]

/-- C1: a fan of `n >= 3` vertices that has room on page `p` is appended without any flush (no
call reaches a collaborator, the resource manager is untouched), the vertex cursor of `p` grows
by `n`, its index cursor by `3 * (n - 2)`, and every other pipeline is unchanged; a sequence of
fans that each have room at the time of their call leaves the index cursor at its starting value
plus the sum of the index counts, again without any flush. -/
theorem addTexturedFan_within_capacity (E : Env R) (b : GeometryBatcher R)
    (coords texCoords : List Point) (n : Nat) (depth : ℚ) (p : Nat) (fans : List Fan)
    (hp : p < b.m_pipelines.length) (hn : 3 ≤ n)
    (hroom : hasRoom b n (3 * (n - 2)) p = true)
    (hsz : ∀ f ∈ fans, 3 ≤ f.size) (hfit : fansFit E p fans b = true) :
    (∃ b1, addTexturedFan E b coords texCoords n depth p = some b1 ∧
      b1.log = b.log ∧ b1.m_resourceManager = b.m_resourceManager ∧
      (b1.pipeline p).m_currentVertex = (b.pipeline p).m_currentVertex + n ∧
      (b1.pipeline p).m_currentIndex = (b.pipeline p).m_currentIndex + 3 * (n - 2) ∧
      (b1.pipeline p).m_maxVertices = (b.pipeline p).m_maxVertices ∧
      (b1.pipeline p).m_maxIndices = (b.pipeline p).m_maxIndices ∧
      ∀ q, q ≠ p → b1.pipeline q = b.pipeline q) ∧
    (∃ b2, addTexturedFans E p fans b = some b2 ∧
      b2.log = b.log ∧ b2.m_resourceManager = b.m_resourceManager ∧
      (b2.pipeline p).m_currentVertex =
        (b.pipeline p).m_currentVertex + (fans.map (fun f => f.size)).sum ∧
      (b2.pipeline p).m_currentIndex =
        (b.pipeline p).m_currentIndex + (fans.map (fun f => 3 * (f.size - 2))).sum ∧
      ∀ q, q ≠ p → b2.pipeline q = b.pipeline q) := by
  refine ⟨⟨_, addTexturedFan_room E b coords texCoords n depth p hp hn hroom, rfl, rfl, ?_, ?_,
    ?_, ?_, ?_⟩, addTexturedFans_room E p fans b hp hsz hfit⟩
  · rw [setPipeline_self _ _ _ hp]; rfl
  · rw [setPipeline_self _ _ _ hp]; simp only [writeFan]; omega
  · rw [setPipeline_self _ _ _ hp]; rfl
  · rw [setPipeline_self _ _ _ hp]; rfl
  · intro q hq; exact setPipeline_other _ _ _ _ hq

/-- Instance of `addTexturedFan_within_capacity`: a page with room for 10 vertices and 20
indices, one fan of 4 vertices, and the sequence of a triangle and a quad. -/
theorem addTexturedFan_within_capacity_witness :
    (0 < (sampleBatcher 1 10 20).m_pipelines.length ∧ 3 ≤ 4 ∧
      hasRoom (sampleBatcher 1 10 20) 4 (3 * (4 - 2)) 0 = true ∧
      fansFit queueEnv 0 [⟨[], [], 3, 0⟩, ⟨[], [], 4, 0⟩] (sampleBatcher 1 10 20) = true) ∧
    ((∃ b1, addTexturedFan queueEnv (sampleBatcher 1 10 20) [] [] 4 0 0 = some b1 ∧
      b1.log = (sampleBatcher 1 10 20).log ∧
      b1.m_resourceManager = (sampleBatcher 1 10 20).m_resourceManager ∧
      (b1.pipeline 0).m_currentVertex = ((sampleBatcher 1 10 20).pipeline 0).m_currentVertex + 4 ∧
      (b1.pipeline 0).m_currentIndex =
        ((sampleBatcher 1 10 20).pipeline 0).m_currentIndex + 3 * (4 - 2) ∧
      (b1.pipeline 0).m_maxVertices = ((sampleBatcher 1 10 20).pipeline 0).m_maxVertices ∧
      (b1.pipeline 0).m_maxIndices = ((sampleBatcher 1 10 20).pipeline 0).m_maxIndices ∧
      ∀ q, q ≠ 0 → b1.pipeline q = (sampleBatcher 1 10 20).pipeline q) ∧
    (∃ b2, addTexturedFans queueEnv 0 [⟨[], [], 3, 0⟩, ⟨[], [], 4, 0⟩] (sampleBatcher 1 10 20)
        = some b2 ∧
      b2.log = (sampleBatcher 1 10 20).log ∧
      b2.m_resourceManager = (sampleBatcher 1 10 20).m_resourceManager ∧
      (b2.pipeline 0).m_currentVertex =
        ((sampleBatcher 1 10 20).pipeline 0).m_currentVertex +
          (([⟨[], [], 3, 0⟩, ⟨[], [], 4, 0⟩] : List Fan).map (fun f => f.size)).sum ∧
      (b2.pipeline 0).m_currentIndex =
        ((sampleBatcher 1 10 20).pipeline 0).m_currentIndex +
          (([⟨[], [], 3, 0⟩, ⟨[], [], 4, 0⟩] : List Fan).map (fun f => 3 * (f.size - 2))).sum ∧
      ∀ q, q ≠ 0 → b2.pipeline q = (sampleBatcher 1 10 20).pipeline q)) :=
  ⟨⟨by decide, by decide, by decide, by decide⟩,
    addTexturedFan_within_capacity queueEnv (sampleBatcher 1 10 20) [] [] 4 0 0
      [⟨[], [], 3, 0⟩, ⟨[], [], 4, 0⟩] (by decide) (by decide) (by decide) (by decide)
      (by decide)⟩

theorem submits_append (l1 l2 : List Event) : submits (l1 ++ l2) = submits l1 ++ submits l2 := by
  induction l1 with
  | nil => rfl
  | cons e es ih => cases e <;> simp [submits, ih]

theorem flushVisits_append (p : Nat) (l1 l2 : List Event) :
    flushVisits p (l1 ++ l2) = flushVisits p l1 + flushVisits p l2 := by
  induction l1 with
  | nil => simp [flushVisits]
  | cons e es ih => cases e <;> simp [flushVisits, ih, Nat.add_assoc]

theorem leases_append (l1 l2 : List Event) : leases (l1 ++ l2) = leases l1 ++ leases l2 := by
  induction l1 with
  | nil => rfl
  | cons e es ih => cases e <;> simp [leases, ih]

theorem submits_flushPageEvents (E : Env R) (page : SkinPage) (i : Nat) (p : GeometryPipeline)
    (rm : R) :
    submits (flushPageEvents E page i p rm) =
      if p.m_currentIndex ≠ 0 then [(i, p.m_currentIndex)] else [] := by
  unfold flushPageEvents
  by_cases h : p.m_currentIndex = 0
  · simp [h, submits]
  · cases hd : page.isDynamic <;> simp [h, submits, freeEvent, reserveEvent]

theorem flushVisits_flushPageEvents (E : Env R) (page : SkinPage) (i q : Nat)
    (p : GeometryPipeline) (rm : R) :
    flushVisits q (flushPageEvents E page i p rm) = if i = q then 1 else 0 := by
  unfold flushPageEvents
  by_cases h : p.m_currentIndex = 0
  · simp [h, flushVisits]
  · cases hd : page.isDynamic <;> simp [h, flushVisits, freeEvent, reserveEvent]

theorem leases_flushPageEvents (E : Env R) (page : SkinPage) (i : Nat) (p : GeometryPipeline)
    (rm : R) :
    leases (flushPageEvents E page i p rm) =
      if p.m_currentIndex ≠ 0 then [leasedBlock E page.isDynamic p rm] else [] := by
  unfold flushPageEvents
  by_cases h : p.m_currentIndex = 0
  · simp [h, leases]
  · cases hd : page.isDynamic <;> simp [h, leases, freeEvent, reserveEvent]

theorem pageAfterFlush_cursors (E : Env R) (d : Bool) (p : GeometryPipeline) (rm : R) :
    (pageAfterFlush E d p rm).m_currentVertex = 0 ∧ (pageAfterFlush E d p rm).m_currentIndex = 0 := by
  unfold pageAfterFlush
  split <;> simp [freshPipeline, zeroCursors]

/-- C2: with a skin attached, a fan of `n >= 3` vertices that has no room on page `p` makes
`addTexturedFan` flush page `p` once, on the state before any write (the log grows by the calls
of one visit of the flush loop, which submits the block and index count held before the call),
the fan is written on the flushed state, and the cursors of `p` end at `n` and `3 * (n - 2)`. -/
theorem addTexturedFan_flushes_once (E : Env R) (b : GeometryBatcher R) (s : Skin)
    (coords texCoords : List Point) (n : Nat) (depth : ℚ) (p : Nat)
    (hs : b.m_skin = some s) (hp : p < b.m_pipelines.length) (hn : 3 ≤ n)
    (hroom : hasRoom b n (3 * (n - 2)) p = false) :
    ∃ b1, addTexturedFan E b coords texCoords n depth p = some b1 ∧
      b1 = (flush E b (p : Int)).setPipeline p
        (writeFan ((flush E b (p : Int)).pipeline p) coords texCoords n depth) ∧
      b1.log = b.log ++
        flushPageEvents E (s.pages.getD p default) p (b.pipeline p) b.m_resourceManager ∧
      flushVisits p b1.log = flushVisits p b.log + 1 ∧
      submits b1.log = submits b.log ++
        (if (b.pipeline p).m_currentIndex ≠ 0 then [(p, (b.pipeline p).m_currentIndex)] else []) ∧
      (b1.pipeline p).m_currentVertex = n ∧
      (b1.pipeline p).m_currentIndex = 3 * (n - 2) := by
  have hfl := flush_page E b s p hs hp
  have hlen : p < (flush E b (p : Int)).m_pipelines.length := by rw [flush_length]; exact hp
  have hlog : ((flush E b (p : Int)).setPipeline p
      (writeFan ((flush E b (p : Int)).pipeline p) coords texCoords n depth)).log =
      b.log ++ flushPageEvents E (s.pages.getD p default) p (b.pipeline p) b.m_resourceManager := by
    show (flush E b (p : Int)).log = _
    rw [hfl, flushPage_log]
  have hcur := pageAfterFlush_cursors E (s.pages.getD p default).isDynamic (b.pipeline p)
    b.m_resourceManager
  have hpl : (flush E b (p : Int)).pipeline p =
      pageAfterFlush E (s.pages.getD p default).isDynamic (b.pipeline p) b.m_resourceManager := by
    rw [hfl]; exact flushPage_self E s p b hp
  refine ⟨_, addTexturedFan_no_room E b coords texCoords n depth p hp hn hroom, rfl, hlog, ?_, ?_,
    ?_, ?_⟩
  · rw [hlog, flushVisits_append, flushVisits_flushPageEvents]; simp
  · rw [hlog, submits_append, submits_flushPageEvents]
  · rw [setPipeline_self _ _ _ hlen, hpl]
    simp only [writeFan, hcur.1]; omega
  · rw [setPipeline_self _ _ _ hlen, hpl]
    simp only [writeFan, hcur.2]; omega

/-- Instance of `addTexturedFan_flushes_once`: a page with room for 4 vertices and 6 indices that
already holds a quad receives a second quad. -/
theorem addTexturedFan_flushes_once_witness :
    ((withQuad (sampleBatcher 1 4 6)).m_skin = some (sampleSkin 1) ∧
      0 < (withQuad (sampleBatcher 1 4 6)).m_pipelines.length ∧ 3 ≤ 4 ∧
      hasRoom (withQuad (sampleBatcher 1 4 6)) 4 (3 * (4 - 2)) 0 = false) ∧
    ∃ b1, addTexturedFan queueEnv (withQuad (sampleBatcher 1 4 6)) [] [] 4 0 0 = some b1 ∧
      b1 = (flush queueEnv (withQuad (sampleBatcher 1 4 6)) ((0 : Nat) : Int)).setPipeline 0
        (writeFan ((flush queueEnv (withQuad (sampleBatcher 1 4 6)) ((0 : Nat) : Int)).pipeline 0)
          [] [] 4 0) ∧
      b1.log = (withQuad (sampleBatcher 1 4 6)).log ++
        flushPageEvents queueEnv ((sampleSkin 1).pages.getD 0 default) 0
          ((withQuad (sampleBatcher 1 4 6)).pipeline 0)
          (withQuad (sampleBatcher 1 4 6)).m_resourceManager ∧
      flushVisits 0 b1.log = flushVisits 0 (withQuad (sampleBatcher 1 4 6)).log + 1 ∧
      submits b1.log = submits (withQuad (sampleBatcher 1 4 6)).log ++
        (if ((withQuad (sampleBatcher 1 4 6)).pipeline 0).m_currentIndex ≠ 0 then
          [(0, ((withQuad (sampleBatcher 1 4 6)).pipeline 0).m_currentIndex)]
          else []) ∧
      (b1.pipeline 0).m_currentVertex = 4 ∧
      (b1.pipeline 0).m_currentIndex = 3 * (4 - 2) :=
  ⟨⟨rfl, by decide, by decide, by decide⟩,
    addTexturedFan_flushes_once queueEnv (withQuad (sampleBatcher 1 4 6)) (sampleSkin 1) [] [] 4 0
      0 rfl (by decide) (by decide) (by decide)⟩

theorem hasRoom_false_of_left (b : GeometryBatcher R) (pc p : Nat)
    (h : verticesLeft b p < pc ∨ indicesLeft b p < pc) : hasRoom b pc pc p = false := by
  simp only [verticesLeft, indicesLeft] at h
  simp only [hasRoom, Bool.and_eq_false_iff, decide_eq_false_iff_not]
  omega

theorem batchSizeOf_fits (b : GeometryBatcher R) (p n : Nat)
    (hv : n ≤ verticesLeft b p) (hi : n ≤ indicesLeft b p) : batchSizeOf b p n = n := by
  have h1 : ¬ n > verticesLeft b p := by omega
  have h2 : ¬ n > indicesLeft b p := by omega
  simp [batchSizeOf, h1, h2]

/-- Counterexample to C3 as stated: on a page whose blocks hold 6 vertices and 6 indices, a list
of 9 points exceeds the room, the call flushes the page twice (before the first batch and after
it), and the cursors end at 3, not at 9. -/
theorem drawTrianglesList_two_flushes :
    verticesLeft (sampleBatcher 1 6 6) 0 < 9 ∧
    ∃ b1, drawTrianglesList queueEnv 2 (sampleBatcher 1 6 6) [] 9 0 0 = some b1 ∧
      (b1.pipeline 0).m_currentVertex = 3 ∧ (b1.pipeline 0).m_currentIndex = 3 ∧
      flushVisits 0 b1.log = flushVisits 0 (sampleBatcher 1 6 6).log + 2 ∧
      submits b1.log = submits (sampleBatcher 1 6 6).log ++ [(0, 6)] :=
  ⟨by decide, _, rfl, by decide, by decide, by decide, by decide⟩

/-- C3, amended: with a skin attached, a list of `pointsCount >= 2` points of a style on page
`p` that exceeds the remaining vertex or index room of `p` and fits the block the page holds
after a flush makes `drawTrianglesList` flush page `p` once, before anything is written, and
leaves both cursors of `p` at `pointsCount`. -/
theorem drawTrianglesList_flushes_once (E : Env R) (b : GeometryBatcher R) (s : Skin)
    (st : ResourceStyle) (fuel : Nat) (points : List Point) (pointsCount styleID : Nat) (depth : ℚ)
    (hs : b.m_skin = some s) (hst : s.fromID styleID = some st)
    (hp : st.m_pageID < b.m_pipelines.length) (hpg : st.m_pageID < s.pages.length)
    (hpc : 2 ≤ pointsCount) (hfuel : 1 ≤ fuel)
    (hroom : verticesLeft b st.m_pageID < pointsCount ∨ indicesLeft b st.m_pageID < pointsCount)
    (hfit : pointsCount ≤ ((flush E b (st.m_pageID : Int)).pipeline st.m_pageID).m_maxVertices ∧
      pointsCount ≤ ((flush E b (st.m_pageID : Int)).pipeline st.m_pageID).m_maxIndices) :
    ∃ b1, drawTrianglesList E fuel b points pointsCount styleID depth = some b1 ∧
      b1.log = b.log ++ flushPageEvents E (s.pages.getD st.m_pageID default) st.m_pageID
        (b.pipeline st.m_pageID) b.m_resourceManager ∧
      flushVisits st.m_pageID b1.log = flushVisits st.m_pageID b.log + 1 ∧
      (b1.pipeline st.m_pageID).m_currentVertex = pointsCount ∧
      (b1.pipeline st.m_pageID).m_currentIndex = pointsCount := by
  obtain ⟨fuel, rfl⟩ : ∃ k, fuel = k + 1 := ⟨fuel - 1, by omega⟩
  have hfl := flush_page E b s st.m_pageID hs hp
  have hlen : st.m_pageID < (flush E b (st.m_pageID : Int)).m_pipelines.length := by
    rw [flush_length]; exact hp
  have hpl : (flush E b (st.m_pageID : Int)).pipeline st.m_pageID =
      pageAfterFlush E (s.pages.getD st.m_pageID default).isDynamic (b.pipeline st.m_pageID)
        b.m_resourceManager := by
    rw [hfl]; exact flushPage_self E s st.m_pageID b hp
  have hcur := pageAfterFlush_cursors E (s.pages.getD st.m_pageID default).isDynamic
    (b.pipeline st.m_pageID) b.m_resourceManager
  rw [← hpl] at hcur
  have hbatch : batchSizeOf (flush E b (st.m_pageID : Int)) st.m_pageID pointsCount =
      pointsCount := by
    apply batchSizeOf_fits
    · simp only [verticesLeft, hcur.1]; omega
    · simp only [indicesLeft, hcur.2]; omega
  have hlog : (flush E b (st.m_pageID : Int)).log = b.log ++
      flushPageEvents E (s.pages.getD st.m_pageID default) st.m_pageID
        (b.pipeline st.m_pageID) b.m_resourceManager := by
    rw [hfl, flushPage_log]
  have hpage : s.pages[st.m_pageID]? = some (s.pages[st.m_pageID]) :=
    List.getElem?_eq_getElem hpg
  have hrun : drawTrianglesList E (fuel + 1) b points pointsCount styleID depth =
      some ((flush E b (st.m_pageID : Int)).setPipeline st.m_pageID
        (writeBatch ((flush E b (st.m_pageID : Int)).pipeline st.m_pageID) points
          ((s.pages[st.m_pageID]).mapPixel
            ⟨(st.m_texRect.minX : ℚ) + 1, (st.m_texRect.minY : ℚ) + 1⟩) depth 0 pointsCount)) := by
    simp [drawTrianglesList, hs, hst, hp, hasRoom_false_of_left b pointsCount st.m_pageID hroom,
      hpc, hpage, drawTrianglesListLoop, hbatch]
  refine ⟨_, hrun, hlog, ?_, ?_, ?_⟩
  · show flushVisits st.m_pageID (flush E b (st.m_pageID : Int)).log = _
    rw [hlog, flushVisits_append, flushVisits_flushPageEvents]; simp
  · rw [setPipeline_self _ _ _ hlen]
    simp only [writeBatch, hcur.1]; omega
  · rw [setPipeline_self _ _ _ hlen]
    simp only [writeBatch, hcur.2]; omega

/-- Instance of `drawTrianglesList_flushes_once`: a page for 6 vertices and 6 indices that holds
a quad receives a triangle. -/
theorem drawTrianglesList_flushes_once_witness :
    ((withQuad (sampleBatcher 1 6 6)).m_skin = some (sampleSkin 1) ∧
      (sampleSkin 1).fromID 0 = some sampleGlyph ∧
      sampleGlyph.m_pageID < (withQuad (sampleBatcher 1 6 6)).m_pipelines.length ∧
      sampleGlyph.m_pageID < (sampleSkin 1).pages.length ∧ 2 ≤ 3 ∧ 1 ≤ 1 ∧
      (verticesLeft (withQuad (sampleBatcher 1 6 6)) sampleGlyph.m_pageID < 3 ∨
        indicesLeft (withQuad (sampleBatcher 1 6 6)) sampleGlyph.m_pageID < 3) ∧
      (3 ≤ ((flush queueEnv (withQuad (sampleBatcher 1 6 6)) (sampleGlyph.m_pageID : Int)).pipeline
          sampleGlyph.m_pageID).m_maxVertices ∧
        3 ≤ ((flush queueEnv (withQuad (sampleBatcher 1 6 6)) (sampleGlyph.m_pageID : Int)).pipeline
          sampleGlyph.m_pageID).m_maxIndices)) ∧
    ∃ b1, drawTrianglesList queueEnv 1 (withQuad (sampleBatcher 1 6 6)) [] 3 0 0 = some b1 ∧
      b1.log = (withQuad (sampleBatcher 1 6 6)).log ++
        flushPageEvents queueEnv ((sampleSkin 1).pages.getD sampleGlyph.m_pageID default)
          sampleGlyph.m_pageID ((withQuad (sampleBatcher 1 6 6)).pipeline sampleGlyph.m_pageID)
          (withQuad (sampleBatcher 1 6 6)).m_resourceManager ∧
      flushVisits sampleGlyph.m_pageID b1.log =
        flushVisits sampleGlyph.m_pageID (withQuad (sampleBatcher 1 6 6)).log + 1 ∧
      (b1.pipeline sampleGlyph.m_pageID).m_currentVertex = 3 ∧
      (b1.pipeline sampleGlyph.m_pageID).m_currentIndex = 3 :=
  ⟨⟨rfl, rfl, by decide, by decide, by decide, by decide, by decide, by decide⟩,
    drawTrianglesList_flushes_once queueEnv (withQuad (sampleBatcher 1 6 6)) (sampleSkin 1)
      sampleGlyph 1 [] 3 0 0 rfl rfl (by decide) (by decide) (by decide) (by decide) (by decide)
      (by decide)⟩

theorem inBounds_set (l : List GeometryPipeline) (i : Nat) (x : GeometryPipeline)
    (hl : ∀ p ∈ l, p.inBounds) (hx : x.inBounds) : ∀ p ∈ l.set i x, p.inBounds := by
  intro p hp
  rcases List.mem_or_eq_of_mem_set hp with h | h
  · exact hl p h
  · rw [h]; exact hx

theorem inBounds_setPipeline (b : GeometryBatcher R) (i : Nat) (x : GeometryPipeline)
    (hb : b.inBounds) (hx : x.inBounds) : (b.setPipeline i x).inBounds :=
  inBounds_set b.m_pipelines i x hb hx

theorem inBounds_pipeline (b : GeometryBatcher R) (i : Nat) (hb : b.inBounds) :
    (b.pipeline i).inBounds := by
  by_cases h : i < b.m_pipelines.length
  · have : b.pipeline i = b.m_pipelines[i] := by
      simp [GeometryBatcher.pipeline, List.getElem?_eq_getElem h]
    rw [this]
    exact hb _ (List.getElem_mem h)
  · have h2 : b.m_pipelines.length ≤ i := by omega
    have : b.pipeline i = default := by
      simp [GeometryBatcher.pipeline, List.getElem?_eq_none h2]
    rw [this]
    exact ⟨Nat.le_refl _, Nat.le_refl _⟩

theorem inBounds_resetFrom (pid : Int) (l : List GeometryPipeline) (k : Nat)
    (hl : ∀ p ∈ l, p.inBounds) : ∀ p ∈ resetFrom pid k l, p.inBounds := by
  induction l generalizing k with
  | nil => intro p hp; simp [resetFrom] at hp
  | cons x xs ih =>
    intro p hp
    simp only [resetFrom, List.mem_cons] at hp
    rcases hp with h | h
    · rw [h]
      split
      · exact ⟨Nat.zero_le _, Nat.zero_le _⟩
      · exact hl x (List.mem_cons_self _ _)
    · exact ih (k + 1) (fun q hq => hl q (List.mem_cons_of_mem _ hq)) p h

theorem inBounds_reset (b : GeometryBatcher R) (pid : Int) (hb : b.inBounds) :
    (reset b pid).inBounds :=
  inBounds_resetFrom pid b.m_pipelines 0 hb

theorem inBounds_pageAfterFlush (E : Env R) (d : Bool) (p : GeometryPipeline) (rm : R) :
    (pageAfterFlush E d p rm).inBounds := by
  have h := pageAfterFlush_cursors E d p rm
  unfold GeometryPipeline.inBounds
  rw [h.1, h.2]
  exact ⟨Nat.zero_le _, Nat.zero_le _⟩

theorem inBounds_flushPage (E : Env R) (s : Skin) (i : Nat) (b : GeometryBatcher R)
    (hb : b.inBounds) : (flushPage E s i b).inBounds := by
  rw [flushPage_eq]
  exact inBounds_set b.m_pipelines i _ hb (inBounds_pageAfterFlush E _ _ _)

theorem inBounds_flushLoop (E : Env R) (s : Skin) (pid : Int) (k : Nat) (b : GeometryBatcher R)
    (hb : b.inBounds) : (flushLoop E s pid k b).inBounds := by
  induction k generalizing b with
  | zero => exact hb
  | succ k ih =>
    rw [flushLoop_succ]
    apply ih
    split
    · exact inBounds_flushPage E s k b hb
    · exact hb

theorem inBounds_flush (E : Env R) (b : GeometryBatcher R) (pid : Int) (hb : b.inBounds) :
    (flush E b pid).inBounds := by
  unfold flush
  split
  · exact hb
  · exact inBounds_flushLoop E _ pid _ b hb

theorem inBounds_leasePipelines (E : Env R) (pages : List SkinPage) (rm : R) (log : List Event) :
    ∀ p ∈ (leasePipelines E pages rm log).1, p.inBounds := by
  induction pages generalizing rm log with
  | nil => intro p hp; simp [leasePipelines] at hp
  | cons pg rest ih =>
    intro p hp
    simp only [leasePipelines, List.mem_cons] at hp
    rcases hp with h | h
    · rw [h]; exact ⟨Nat.zero_le _, Nat.zero_le _⟩
    · exact ih _ _ p h

theorem inBounds_setSkin_some (E : Env R) (b : GeometryBatcher R) (s : Skin) :
    (setSkin E b (some s)).inBounds :=
  inBounds_leasePipelines E s.pages _ _

theorem inBounds_setSkin (E : Env R) (b : GeometryBatcher R) (skin : Option Skin)
    (hb : b.inBounds) : (setSkin E b skin).inBounds := by
  cases skin with
  | none => exact hb
  | some s => exact inBounds_setSkin_some E b s

theorem inBounds_writeFan (b : GeometryBatcher R) (coords texCoords : List Point) (n : Nat)
    (depth : ℚ) (p : Nat) (hroom : hasRoom b n ((n - 2) * 3) p = true) :
    (writeFan (b.pipeline p) coords texCoords n depth).inBounds := by
  simp only [hasRoom, Bool.and_eq_true, decide_eq_true_eq] at hroom
  exact hroom

theorem inBounds_writeStrip (b : GeometryBatcher R) (coords texCoords : List Point) (n : Nat)
    (depth : ℚ) (p : Nat) (hroom : hasRoom b n ((n - 2) * 3) p = true) :
    (writeStrip (b.pipeline p) coords texCoords n depth).inBounds := by
  simp only [hasRoom, Bool.and_eq_true, decide_eq_true_eq] at hroom
  exact hroom

theorem inBounds_addTexturedFan (E : Env R) (b b1 : GeometryBatcher R)
    (coords texCoords : List Point) (n : Nat) (depth : ℚ) (p : Nat) (hb : b.inBounds)
    (hrun : addTexturedFan E b coords texCoords n depth p = some b1)
    (hfit : hasRoom b n (3 * (n - 2)) p = true ∨
      hasRoom (flush E b (p : Int)) n (3 * (n - 2)) p = true) : b1.inBounds := by
  rw [Nat.mul_comm] at hfit
  unfold addTexturedFan at hrun
  by_cases hp : p < b.m_pipelines.length
  · by_cases hn : n > 2
    · simp only [hp, hn, if_true] at hrun
      by_cases hroom : hasRoom b n ((n - 2) * 3) p = true
      · simp only [hroom, Bool.not_true, Bool.false_eq_true, if_false, Option.some.injEq] at hrun
        rw [← hrun]
        exact inBounds_setPipeline _ _ _ hb (inBounds_writeFan b _ _ _ _ _ hroom)
      · have hroom2 : hasRoom b n ((n - 2) * 3) p = false := by simpa using hroom
        simp only [hroom2, Bool.not_false, if_true, Option.some.injEq] at hrun
        rw [← hrun]
        rcases hfit with h | h
        · exact absurd h hroom
        · exact inBounds_setPipeline _ _ _ (inBounds_flush E b _ hb)
            (inBounds_writeFan _ _ _ _ _ _ h)
    · simp [hp, hn] at hrun
  · simp [hp] at hrun

theorem inBounds_addTexturedStrip (E : Env R) (b b1 : GeometryBatcher R)
    (coords texCoords : List Point) (n : Nat) (depth : ℚ) (p : Nat) (hb : b.inBounds)
    (hrun : addTexturedStrip E b coords texCoords n depth p = some b1)
    (hfit : hasRoom b n (3 * (n - 2)) p = true ∨
      hasRoom (flush E b (p : Int)) n (3 * (n - 2)) p = true) : b1.inBounds := by
  rw [Nat.mul_comm] at hfit
  unfold addTexturedStrip at hrun
  by_cases hp : p < b.m_pipelines.length
  · by_cases hn : n > 2
    · simp only [hp, hn, if_true] at hrun
      by_cases hroom : hasRoom b n ((n - 2) * 3) p = true
      · simp only [hroom, Bool.not_true, Bool.false_eq_true, if_false, Option.some.injEq] at hrun
        rw [← hrun]
        exact inBounds_setPipeline _ _ _ hb (inBounds_writeStrip b _ _ _ _ _ hroom)
      · have hroom2 : hasRoom b n ((n - 2) * 3) p = false := by simpa using hroom
        simp only [hroom2, Bool.not_false, if_true, Option.some.injEq] at hrun
        rw [← hrun]
        rcases hfit with h | h
        · exact absurd h hroom
        · exact inBounds_setPipeline _ _ _ (inBounds_flush E b _ hb)
            (inBounds_writeStrip _ _ _ _ _ _ h)
    · simp [hp, hn] at hrun
  · simp [hp] at hrun

theorem inBounds_drawTexturedPolygon (E : Env R) (b b1 : GeometryBatcher R) (ptShift : Point)
    (angle tx0 ty0 tx1 ty1 x0 y0 x1 y1 depth : ℚ) (p : Nat) (hb : b.inBounds)
    (hrun : drawTexturedPolygon E b ptShift angle tx0 ty0 tx1 ty1 x0 y0 x1 y1 depth p = some b1)
    (hfit : hasRoom b 4 6 p = true ∨ hasRoom (flush E b (p : Int)) 4 6 p = true) :
    b1.inBounds := by
  unfold drawTexturedPolygon at hrun
  by_cases hp : p < b.m_pipelines.length
  · simp only [hp, if_true] at hrun
    by_cases hroom : hasRoom b 4 6 p = true
    · simp only [hroom, Bool.not_true, Bool.false_eq_true, if_false] at hrun
      split at hrun
      · exact absurd hrun (by simp)
      · split at hrun
        · exact absurd hrun (by simp)
        · exact inBounds_addTexturedFan E b b1 _ _ 4 depth p hb hrun (Or.inl hroom)
    · have hroom2 : hasRoom b 4 6 p = false := by simpa using hroom
      have hfl : hasRoom (flush E b (p : Int)) 4 6 p = true := by
        rcases hfit with h | h
        · exact absurd h hroom
        · exact h
      simp only [hroom2, Bool.not_false, if_true] at hrun
      split at hrun
      · exact absurd hrun (by simp)
      · split at hrun
        · exact absurd hrun (by simp)
        · exact inBounds_addTexturedFan E _ b1 _ _ 4 depth p (inBounds_flush E b _ hb) hrun
            (Or.inl hfl)
  · simp [hp] at hrun

theorem inBounds_drawPoint (E : Env R) (b b1 : GeometryBatcher R) (pt : Point) (styleID : Nat)
    (depth : ℚ) (s : Skin) (st : ResourceStyle) (hb : b.inBounds)
    (hs : b.m_skin = some s) (hst : s.fromID styleID = some st)
    (hrun : drawPoint E b pt styleID depth = some b1)
    (hfit : hasRoom b 4 6 st.m_pageID = true ∨
      hasRoom (flush E b (st.m_pageID : Int)) 4 6 st.m_pageID = true) : b1.inBounds := by
  unfold drawPoint at hrun
  simp only [hs, hst] at hrun
  by_cases hp : st.m_pageID < b.m_pipelines.length
  · simp only [hp, if_true] at hrun
    by_cases hroom : hasRoom b 4 6 st.m_pageID = true
    · simp only [hroom, Bool.not_true, Bool.false_eq_true, if_false] at hrun
      exact inBounds_drawTexturedPolygon E b b1 _ _ _ _ _ _ _ _ _ _ _ _ hb hrun (Or.inl hroom)
    · have hroom2 : hasRoom b 4 6 st.m_pageID = false := by simpa using hroom
      have hfl : hasRoom (flush E b (st.m_pageID : Int)) 4 6 st.m_pageID = true := by
        rcases hfit with h | h
        · exact absurd h hroom
        · exact h
      simp only [hroom2, Bool.not_false, if_true] at hrun
      exact inBounds_drawTexturedPolygon E _ b1 _ _ _ _ _ _ _ _ _ _ _ _
        (inBounds_flush E b _ hb) hrun (Or.inl hfl)
  · simp [hp] at hrun

theorem batchSizeOf_le (b : GeometryBatcher R) (p n : Nat) :
    batchSizeOf b p n ≤ verticesLeft b p ∧ batchSizeOf b p n ≤ indicesLeft b p := by
  unfold batchSizeOf
  simp only
  split <;> split <;> omega

theorem inBounds_writeBatch (b : GeometryBatcher R) (points : List Point) (tex : Point)
    (depth : ℚ) (p off n : Nat) (hb : b.inBounds) :
    (writeBatch (b.pipeline p) points tex depth off (batchSizeOf b p n)).inBounds := by
  have h1 := batchSizeOf_le b p n
  have h2 := inBounds_pipeline b p hb
  simp only [verticesLeft, indicesLeft] at h1
  simp only [GeometryPipeline.inBounds] at h2
  simp only [GeometryPipeline.inBounds, writeBatch]
  omega

theorem inBounds_drawTrianglesListLoop (E : Env R) (points : List Point) (tex : Point)
    (depth : ℚ) (p fuel : Nat) (pointsLeft off : Nat) (b b1 : GeometryBatcher R)
    (hb : b.inBounds)
    (hrun : drawTrianglesListLoop E points tex depth p fuel pointsLeft off b = some b1) :
    b1.inBounds := by
  induction fuel generalizing pointsLeft off b with
  | zero => simp [drawTrianglesListLoop] at hrun
  | succ fuel ih =>
    simp only [drawTrianglesListLoop] at hrun
    have hw : (b.setPipeline p
        (writeBatch (b.pipeline p) points tex depth off (batchSizeOf b p pointsLeft))).inBounds :=
      inBounds_setPipeline _ _ _ hb (inBounds_writeBatch b points tex depth p off pointsLeft hb)
    have hf : (if decide (batchSizeOf b p pointsLeft < pointsLeft) = true then
        flush E (b.setPipeline p
          (writeBatch (b.pipeline p) points tex depth off (batchSizeOf b p pointsLeft))) (p : Int)
        else b.setPipeline p
          (writeBatch (b.pipeline p) points tex depth off (batchSizeOf b p pointsLeft))).inBounds := by
      split
      · exact inBounds_flush E _ _ hw
      · exact hw
    split at hrun
    · simp only [Option.some.injEq] at hrun
      rw [← hrun]; exact hf
    · exact ih _ _ _ hf hrun

theorem inBounds_drawTrianglesList (E : Env R) (fuel : Nat) (b b1 : GeometryBatcher R)
    (points : List Point) (pointsCount styleID : Nat) (depth : ℚ) (hb : b.inBounds)
    (hrun : drawTrianglesList E fuel b points pointsCount styleID depth = some b1) :
    b1.inBounds := by
  unfold drawTrianglesList at hrun
  cases hs : b.m_skin with
  | none => simp [hs] at hrun
  | some s =>
    cases hst : s.fromID styleID with
    | none => simp [hs, hst] at hrun
    | some st =>
      simp only [hs, hst] at hrun
      by_cases hp : st.m_pageID < b.m_pipelines.length
      · by_cases hpc : pointsCount ≥ 2
        · cases hpg : s.pages[st.m_pageID]? with
          | none => simp [hp, hpc, hpg] at hrun
          | some page =>
            simp only [hp, hpc, hpg, if_true] at hrun
            refine inBounds_drawTrianglesListLoop E _ _ _ _ _ _ _ _ b1 ?_ hrun
            split
            · exact inBounds_flush E b _ hb
            · exact hb
        · simp [hp, hpc] at hrun
      · simp [hp] at hrun

/-- Counterexample to C4 as stated: on a page whose blocks hold 4 vertices and 6 indices, a fan
of 5 vertices is flushed for and then written in full, which leaves the vertex cursor at 5 and
the index cursor at 9, above the capacities 4 and 6. -/
theorem addTexturedFan_exceeds_block :
    (sampleBatcher 1 4 6).inBounds ∧
    ∃ b1, addTexturedFan queueEnv (sampleBatcher 1 4 6) [] [] 5 0 0 = some b1 ∧
      (b1.pipeline 0).m_currentVertex = 5 ∧ (b1.pipeline 0).m_maxVertices = 4 ∧
      (b1.pipeline 0).m_currentIndex = 9 ∧ (b1.pipeline 0).m_maxIndices = 6 ∧
      ¬ b1.inBounds :=
  ⟨by decide, _, rfl, by decide, by decide, by decide, by decide, by decide⟩

/-- C4, amended: the capacity invariant (every pipeline has its vertex cursor at most
`m_maxVertices` and its index cursor at most `m_maxIndices`) holds after `setSkin` with a skin
and is preserved by `setSkin`, `reset`, `flush` and `drawTrianglesList` for every argument and
every size of leased block, and by `addTexturedFan`, `addTexturedStrip`, `drawTexturedPolygon`
and `drawPoint` whenever the primitive has room on its page either at the call or after the
flush of that page. -/
theorem inBounds_preserved (E : Env R) (b : GeometryBatcher R) (hb : b.inBounds) :
    (∀ (b0 : GeometryBatcher R) (s : Skin), (setSkin E b0 (some s)).inBounds) ∧
    (∀ skin, (setSkin E b skin).inBounds) ∧
    (∀ pid, (reset b pid).inBounds) ∧
    (∀ pid, (flush E b pid).inBounds) ∧
    (∀ coords texCoords n depth p b1,
      addTexturedFan E b coords texCoords n depth p = some b1 →
      (hasRoom b n (3 * (n - 2)) p = true ∨
        hasRoom (flush E b (p : Int)) n (3 * (n - 2)) p = true) → b1.inBounds) ∧
    (∀ coords texCoords n depth p b1,
      addTexturedStrip E b coords texCoords n depth p = some b1 →
      (hasRoom b n (3 * (n - 2)) p = true ∨
        hasRoom (flush E b (p : Int)) n (3 * (n - 2)) p = true) → b1.inBounds) ∧
    (∀ ptShift angle tx0 ty0 tx1 ty1 x0 y0 x1 y1 depth p b1,
      drawTexturedPolygon E b ptShift angle tx0 ty0 tx1 ty1 x0 y0 x1 y1 depth p = some b1 →
      (hasRoom b 4 6 p = true ∨ hasRoom (flush E b (p : Int)) 4 6 p = true) → b1.inBounds) ∧
    (∀ pt styleID depth s st b1, b.m_skin = some s → s.fromID styleID = some st →
      drawPoint E b pt styleID depth = some b1 →
      (hasRoom b 4 6 st.m_pageID = true ∨
        hasRoom (flush E b (st.m_pageID : Int)) 4 6 st.m_pageID = true) → b1.inBounds) ∧
    (∀ fuel points pointsCount styleID depth b1,
      drawTrianglesList E fuel b points pointsCount styleID depth = some b1 → b1.inBounds) :=
  ⟨fun b0 s => inBounds_setSkin_some E b0 s,
   fun skin => inBounds_setSkin E b skin hb,
   fun pid => inBounds_reset b pid hb,
   fun pid => inBounds_flush E b pid hb,
   fun coords texCoords n depth p b1 hrun hfit =>
     inBounds_addTexturedFan E b b1 coords texCoords n depth p hb hrun hfit,
   fun coords texCoords n depth p b1 hrun hfit =>
     inBounds_addTexturedStrip E b b1 coords texCoords n depth p hb hrun hfit,
   fun ptShift angle tx0 ty0 tx1 ty1 x0 y0 x1 y1 depth p b1 hrun hfit =>
     inBounds_drawTexturedPolygon E b b1 ptShift angle tx0 ty0 tx1 ty1 x0 y0 x1 y1 depth p hb
       hrun hfit,
   fun pt styleID depth s st b1 hs hst hrun hfit =>
     inBounds_drawPoint E b b1 pt styleID depth s st hb hs hst hrun hfit,
   fun fuel points pointsCount styleID depth b1 hrun =>
     inBounds_drawTrianglesList E fuel b b1 points pointsCount styleID depth hb hrun⟩

/-- Instance of `inBounds_preserved` on a page for 4 vertices and 6 indices that holds a quad:
a flush of all pages, a second quad (which needs a flush), a point marker and a list of 9 points
(written in three batches) all end within the capacities. -/
theorem inBounds_preserved_witness :
    (withQuad (sampleBatcher 1 4 6)).inBounds ∧
    (flush queueEnv (withQuad (sampleBatcher 1 4 6)) (-1)).inBounds ∧
    (∃ b1, addTexturedFan queueEnv (withQuad (sampleBatcher 1 4 6)) [] [] 4 0 0 = some b1 ∧
      b1.inBounds) ∧
    (∃ b1, drawPoint queueEnv (withQuad (sampleBatcher 1 4 6)) ⟨0, 0⟩ 0 0 = some b1 ∧
      b1.inBounds) ∧
    (∃ b1, drawTrianglesList queueEnv 3 (withQuad (sampleBatcher 1 4 6)) [] 9 0 0 = some b1 ∧
      b1.inBounds) :=
  ⟨by decide,
   (inBounds_preserved queueEnv (withQuad (sampleBatcher 1 4 6)) (by decide)).2.2.2.1 (-1),
   ⟨_, rfl, (inBounds_preserved queueEnv (withQuad (sampleBatcher 1 4 6))
      (by decide)).2.2.2.2.1 [] [] 4 0 0 _ rfl (Or.inr (by decide))⟩,
   ⟨_, rfl, (inBounds_preserved queueEnv (withQuad (sampleBatcher 1 4 6))
      (by decide)).2.2.2.2.2.2.2.1 ⟨0, 0⟩ 0 0 (sampleSkin 1) sampleGlyph _ rfl rfl rfl
      (Or.inr (by decide))⟩,
   ⟨_, rfl, (inBounds_preserved queueEnv (withQuad (sampleBatcher 1 4 6))
      (by decide)).2.2.2.2.2.2.2.2 3 [] 9 0 0 _ rfl⟩⟩

theorem pendingSubmits_congr (b c : GeometryBatcher R) (k : Nat)
    (h : ∀ i, i < k → c.pipeline i = b.pipeline i) : pendingSubmits c k = pendingSubmits b k := by
  induction k with
  | zero => rfl
  | succ k ih =>
    simp only [pendingSubmits]
    rw [h k (by omega), ih (fun i hi => h i (by omega))]

theorem pendingSubmits_eq (b : GeometryBatcher R) (k : Nat) :
    pendingSubmits b k =
      ((List.range k).reverse.filter (fun i => decide ((b.pipeline i).m_currentIndex ≠ 0))).map
        (fun i => (i, (b.pipeline i).m_currentIndex)) := by
  induction k with
  | zero => rfl
  | succ k ih =>
    simp only [pendingSubmits, List.range_succ, List.reverse_append, List.reverse_cons,
      List.reverse_nil, List.nil_append, List.singleton_append, ih]
    by_cases h : (b.pipeline k).m_currentIndex = 0
    · simp [h, List.filter_cons]
    · simp [h, List.filter_cons]

theorem flushLoop_all_submits (E : Env R) (s : Skin) (k : Nat) (b : GeometryBatcher R) :
    submits (flushLoop E s (-1) k b).log = submits b.log ++ pendingSubmits b k := by
  induction k generalizing b with
  | zero => simp [flushLoop, pendingSubmits]
  | succ k ih =>
    rw [flushLoop_succ]
    simp only [true_or, if_true]
    rw [ih, flushPage_log, submits_append, submits_flushPageEvents, List.append_assoc]
    congr 1
    simp only [pendingSubmits]
    congr 1
    apply pendingSubmits_congr
    intro i hi
    apply pipeline_congr
    exact flushPage_other E s k i b (by omega)

theorem flush_all_submits (E : Env R) (b : GeometryBatcher R) (s : Skin)
    (hs : b.m_skin = some s) :
    submits (flush E b (-1)).log = submits b.log ++ pendingSubmits b b.m_pipelines.length := by
  simp only [flush, hs]
  exact flushLoop_all_submits E s _ b

theorem flush_page_submits (E : Env R) (b : GeometryBatcher R) (s : Skin) (p : Nat)
    (hs : b.m_skin = some s) :
    submits (flush E b (p : Int)).log = submits b.log ++
      (if p < b.m_pipelines.length ∧ (b.pipeline p).m_currentIndex ≠ 0 then
        [(p, (b.pipeline p).m_currentIndex)] else []) := by
  simp only [flush, hs, flushLoop_single]
  by_cases hp : p < b.m_pipelines.length
  · simp only [hp, if_true, flushPage_log, submits_append, submits_flushPageEvents, true_and]
  · simp [hp]

/-- C5: with a skin attached, `flush(-1)` submits exactly the pages with a nonzero index cursor,
each once with its own index count, from the last page down to page 0 (so a batcher with three
non-empty pages submits page 2, page 1, page 0), and `flush(p)` for a page index `p` submits
page `p` alone, and only when `p` is a page with a nonzero index cursor. -/
theorem flush_submit_order (E : Env R) (b : GeometryBatcher R) (s : Skin) (p : Nat)
    (hs : b.m_skin = some s) :
    submits (flush E b (-1)).log = submits b.log ++
      ((List.range b.m_pipelines.length).reverse.filter
        (fun i => decide ((b.pipeline i).m_currentIndex ≠ 0))).map
        (fun i => (i, (b.pipeline i).m_currentIndex)) ∧
    (b.m_pipelines.length = 3 → (b.pipeline 0).m_currentIndex ≠ 0 →
      (b.pipeline 1).m_currentIndex ≠ 0 → (b.pipeline 2).m_currentIndex ≠ 0 →
      submits (flush E b (-1)).log = submits b.log ++
        [(2, (b.pipeline 2).m_currentIndex), (1, (b.pipeline 1).m_currentIndex),
         (0, (b.pipeline 0).m_currentIndex)]) ∧
    submits (flush E b (p : Int)).log = submits b.log ++
      (if p < b.m_pipelines.length ∧ (b.pipeline p).m_currentIndex ≠ 0 then
        [(p, (b.pipeline p).m_currentIndex)] else []) := by
  refine ⟨?_, ?_, flush_page_submits E b s p hs⟩
  · rw [flush_all_submits E b s hs, pendingSubmits_eq]
  · intro h3 h0 h1 h2
    rw [flush_all_submits E b s hs, h3]
    simp [pendingSubmits, h0, h1, h2]

/-- Instance of `flush_submit_order`: three pages that each hold a quad (6 indices). -/
theorem flush_submit_order_witness :
    threeQuads.m_skin = some (sampleSkin 3) ∧
    submits (flush queueEnv threeQuads (-1)).log = submits threeQuads.log ++ [(2, 6), (1, 6), (0, 6)] ∧
    submits (flush queueEnv threeQuads ((1 : Nat) : Int)).log = submits threeQuads.log ++ [(1, 6)] :=
  ⟨rfl,
   (flush_submit_order queueEnv threeQuads (sampleSkin 3) 1 rfl).2.1 (by decide) (by decide)
     (by decide) (by decide),
   (flush_submit_order queueEnv threeQuads (sampleSkin 3) 1 rfl).2.2⟩

theorem flushLoop_selected (E : Env R) (s : Skin) (pid : Int) (k q : Nat) (b : GeometryBatcher R)
    (hq : q < k) (hsel : selects pid q = true) (hlen : q < b.m_pipelines.length) :
    ∃ rm, (flushLoop E s pid k b).pipeline q =
      pageAfterFlush E (s.pages.getD q default).isDynamic (b.pipeline q) rm := by
  induction k generalizing b with
  | zero => omega
  | succ k ih =>
    rw [flushLoop_succ]
    have hsel2 : pid = -1 ∨ (q : Int) = pid := by simpa [selects] using hsel
    by_cases hqk : q = k
    · subst hqk
      simp only [hsel2, if_true]
      refine ⟨b.m_resourceManager, ?_⟩
      rw [pipeline_congr _ _ q (flushLoop_other E s pid q q _ (by omega))]
      exact flushPage_self E s q b hlen
    · have hq2 : q < k := by omega
      by_cases hk : pid = -1 ∨ (k : Int) = pid
      · simp only [hk, if_true]
        obtain ⟨rm, hrm⟩ := ih (flushPage E s k b) hq2 (by rw [flushPage_length]; exact hlen)
        refine ⟨rm, ?_⟩
        rw [hrm, pipeline_congr _ _ q (flushPage_other E s k q b (by omega))]
      · simp only [hk, if_false]
        exact ih b hq2 hlen

theorem pendingSubmits_mem (b : GeometryBatcher R) (k : Nat) (x : Nat × Nat)
    (h : x ∈ pendingSubmits b k) : (b.pipeline x.1).m_currentIndex ≠ 0 := by
  induction k with
  | zero => simp [pendingSubmits] at h
  | succ k ih =>
    simp only [pendingSubmits, List.mem_append] at h
    rcases h with h | h
    · by_cases h0 : (b.pipeline k).m_currentIndex = 0
      · simp [h0] at h
      · simp only [ne_eq, h0, not_false_eq_true, if_true, List.mem_singleton] at h
        rw [h]; exact h0
    · exact ih h

theorem pageAfterFlush_empty (E : Env R) (d : Bool) (p : GeometryPipeline) (rm : R)
    (h : p.m_currentIndex = 0) : pageAfterFlush E d p rm = zeroCursors p := by
  simp [pageAfterFlush, h]

/-- C6: with a skin attached, a flush that visits a page whose index cursor is zero, be it
`flush(p)` or `flush(-1)`, submits nothing for that page, leases nothing for it, keeps its
storage block and capacities and leaves both of its cursors at zero, whatever its vertex cursor
was; `flush(p)` only calls `uploadData` on the page. -/
theorem flush_empty_page (E : Env R) (b : GeometryBatcher R) (s : Skin) (p : Nat)
    (hs : b.m_skin = some s) (hp : p < b.m_pipelines.length)
    (h0 : (b.pipeline p).m_currentIndex = 0) :
    ((flush E b (p : Int)).log = b.log ++ [Event.uploadData p] ∧
      submits (flush E b (p : Int)).log = submits b.log ∧
      leases (flush E b (p : Int)).log = leases b.log ∧
      (flush E b (p : Int)).m_resourceManager = b.m_resourceManager ∧
      ((flush E b (p : Int)).pipeline p).m_storage = (b.pipeline p).m_storage ∧
      ((flush E b (p : Int)).pipeline p).m_maxVertices = (b.pipeline p).m_maxVertices ∧
      ((flush E b (p : Int)).pipeline p).m_maxIndices = (b.pipeline p).m_maxIndices ∧
      ((flush E b (p : Int)).pipeline p).m_currentVertex = 0 ∧
      ((flush E b (p : Int)).pipeline p).m_currentIndex = 0) ∧
    ((∃ d, submits (flush E b (-1)).log = submits b.log ++ d ∧ ∀ x ∈ d, x.1 ≠ p) ∧
      ((flush E b (-1)).pipeline p).m_storage = (b.pipeline p).m_storage ∧
      ((flush E b (-1)).pipeline p).m_maxVertices = (b.pipeline p).m_maxVertices ∧
      ((flush E b (-1)).pipeline p).m_maxIndices = (b.pipeline p).m_maxIndices ∧
      ((flush E b (-1)).pipeline p).m_currentVertex = 0 ∧
      ((flush E b (-1)).pipeline p).m_currentIndex = 0) := by
  have hfl := flush_page E b s p hs hp
  have hpl : (flush E b (p : Int)).pipeline p = zeroCursors (b.pipeline p) := by
    rw [hfl, flushPage_self E s p b hp, pageAfterFlush_empty E _ _ _ h0]
  have hlog : (flush E b (p : Int)).log = b.log ++ [Event.uploadData p] := by
    rw [hfl, flushPage_log]; simp [flushPageEvents, h0]
  have hall : (flush E b (-1)).pipeline p = zeroCursors (b.pipeline p) := by
    obtain ⟨rm, hrm⟩ := flushLoop_selected E s (-1) b.m_pipelines.length p b hp
      (by simp [selects]) hp
    simp only [flush, hs]
    rw [hrm, pageAfterFlush_empty E _ _ _ h0]
  refine ⟨⟨hlog, ?_, ?_, ?_, ?_, ?_, ?_, ?_, ?_⟩, ⟨_, flush_all_submits E b s hs, ?_⟩, ?_, ?_, ?_,
    ?_, ?_⟩
  · rw [hlog, submits_append]; simp [submits]
  · rw [hlog, leases_append]; simp [leases]
  · rw [hfl, flushPage_eq]; simp [rmAfterFlush, h0]
  · rw [hpl]; rfl
  · rw [hpl]; rfl
  · rw [hpl]; rfl
  · rw [hpl]; rfl
  · rw [hpl]; rfl
  · intro x hx hxp
    have := pendingSubmits_mem b _ x hx
    rw [hxp] at this
    exact this h0
  · rw [hall]; rfl
  · rw [hall]; rfl
  · rw [hall]; rfl
  · rw [hall]; rfl
  · rw [hall]; rfl

/-- Instance of `flush_empty_page`: a page with vertex cursor 3 and index cursor 0. -/
theorem flush_empty_page_witness :
    (verticesOnly.m_skin = some (sampleSkin 1) ∧ 0 < verticesOnly.m_pipelines.length ∧
      (verticesOnly.pipeline 0).m_currentVertex = 3 ∧
      (verticesOnly.pipeline 0).m_currentIndex = 0) ∧
    (flush queueEnv verticesOnly ((0 : Nat) : Int)).log =
      verticesOnly.log ++ [Event.uploadData 0] ∧
    submits (flush queueEnv verticesOnly ((0 : Nat) : Int)).log = submits verticesOnly.log ∧
    ((flush queueEnv verticesOnly ((0 : Nat) : Int)).pipeline 0).m_maxVertices =
      (verticesOnly.pipeline 0).m_maxVertices ∧
    ((flush queueEnv verticesOnly ((0 : Nat) : Int)).pipeline 0).m_currentVertex = 0 ∧
    ((flush queueEnv verticesOnly ((0 : Nat) : Int)).pipeline 0).m_currentIndex = 0 ∧
    ((flush queueEnv verticesOnly (-1)).pipeline 0).m_currentVertex = 0 :=
  ⟨⟨rfl, by decide, by decide, by decide⟩,
   (flush_empty_page queueEnv verticesOnly (sampleSkin 1) 0 rfl (by decide) (by decide)).1.1,
   (flush_empty_page queueEnv verticesOnly (sampleSkin 1) 0 rfl (by decide) (by decide)).1.2.1,
   (flush_empty_page queueEnv verticesOnly (sampleSkin 1) 0 rfl (by decide)
     (by decide)).1.2.2.2.2.2.1,
   (flush_empty_page queueEnv verticesOnly (sampleSkin 1) 0 rfl (by decide)
     (by decide)).1.2.2.2.2.2.2.2.1,
   (flush_empty_page queueEnv verticesOnly (sampleSkin 1) 0 rfl (by decide)
     (by decide)).1.2.2.2.2.2.2.2.2,
   (flush_empty_page queueEnv verticesOnly (sampleSkin 1) 0 rfl (by decide)
     (by decide)).2.2.2.2.2.1⟩

/-- Counterexample to C7 as stated: a quad is added to the page of an attached skin, then a null
skin is attached; `flush(-1)` and `flush(0)` submit nothing, but the cursors of the pipeline stay
at 4 and 6 instead of zero. -/
theorem flush_detached_keeps_cursors :
    (setSkin queueEnv (withQuad (sampleBatcher 1 4 6)) none).m_skin = none ∧
    submits (flush queueEnv (setSkin queueEnv (withQuad (sampleBatcher 1 4 6)) none) (-1)).log =
      submits (setSkin queueEnv (withQuad (sampleBatcher 1 4 6)) none).log ∧
    ((flush queueEnv (setSkin queueEnv (withQuad (sampleBatcher 1 4 6)) none) (-1)).pipeline
      0).m_currentVertex = 4 ∧
    ((flush queueEnv (setSkin queueEnv (withQuad (sampleBatcher 1 4 6)) none) (-1)).pipeline
      0).m_currentIndex = 6 ∧
    ((flush queueEnv (setSkin queueEnv (withQuad (sampleBatcher 1 4 6)) none) 0).pipeline
      0).m_currentVertex = 4 ∧
    ((flush queueEnv (setSkin queueEnv (withQuad (sampleBatcher 1 4 6)) none) 0).pipeline
      0).m_currentIndex = 6 :=
  ⟨rfl, rfl, by decide, by decide, by decide, by decide⟩

/-- C7, amended: with no skin attached, `flush(p)` and `flush(-1)` change nothing: no call
reaches a collaborator (so nothing is submitted) and every pipeline keeps its cursors, its
capacities and its block; the cursors are zero afterwards exactly where they were zero before,
and a batcher that never had a skin has no pipeline at all. -/
theorem flush_detached (E : Env R) (b : GeometryBatcher R) (pid : Int) (hs : b.m_skin = none) :
    flush E b pid = b ∧
    submits (flush E b pid).log = submits b.log ∧
    (∀ q, (flush E b pid).pipeline q = b.pipeline q) ∧
    (∀ q, (b.pipeline q).m_currentVertex = 0 → (b.pipeline q).m_currentIndex = 0 →
      ((flush E b pid).pipeline q).m_currentVertex = 0 ∧
      ((flush E b pid).pipeline q).m_currentIndex = 0) ∧
    (b.m_pipelines = [] → (flush E b pid).m_pipelines = []) := by
  rw [flush_no_skin E b pid hs]
  exact ⟨rfl, rfl, fun _ => rfl, fun _ h1 h2 => ⟨h1, h2⟩, fun h => h⟩

/-- Instance of `flush_detached`: the batcher before any skin is attached. -/
theorem flush_detached_witness :
    (emptyBatcher 1 4 6).m_skin = none ∧
    flush queueEnv (emptyBatcher 1 4 6) (-1) = emptyBatcher 1 4 6 ∧
    flush queueEnv (emptyBatcher 1 4 6) 0 = emptyBatcher 1 4 6 :=
  ⟨rfl, (flush_detached queueEnv (emptyBatcher 1 4 6) (-1) rfl).1,
    (flush_detached queueEnv (emptyBatcher 1 4 6) 0 rfl).1⟩

theorem zeroCursors_of_zero (p : GeometryPipeline) (hv : p.m_currentVertex = 0)
    (hi : p.m_currentIndex = 0) : zeroCursors p = p := by
  cases p
  simp only [zeroCursors] at *
  simp [hv, hi]

theorem set_pipeline_self (b : GeometryBatcher R) (i : Nat) :
    b.m_pipelines.set i (b.pipeline i) = b.m_pipelines := by
  apply List.ext_getElem?
  intro j
  by_cases hij : i = j
  · subst hij
    by_cases hl : i < b.m_pipelines.length
    · rw [List.getElem?_set_self hl, pipeline_of_lt b i hl]
    · rw [List.set_eq_of_length_le (by omega)]
  · rw [List.getElem?_set_ne hij]

theorem flushPage_of_zero (E : Env R) (s : Skin) (i : Nat) (b : GeometryBatcher R)
    (hv : (b.pipeline i).m_currentVertex = 0) (hi : (b.pipeline i).m_currentIndex = 0) :
    flushPage E s i b = { b with log := b.log ++ [Event.uploadData i] } := by
  rw [flushPage_eq, pageAfterFlush_empty E _ _ _ hi, zeroCursors_of_zero _ hv hi,
    set_pipeline_self]
  simp [rmAfterFlush, flushPageEvents, hi]

theorem flushLoop_of_zero (E : Env R) (s : Skin) (pid : Int) (k : Nat) (c : GeometryBatcher R)
    (hz : ∀ q, q < k → selects pid q = true →
      (c.pipeline q).m_currentVertex = 0 ∧ (c.pipeline q).m_currentIndex = 0) :
    (flushLoop E s pid k c).m_pipelines = c.m_pipelines ∧
    (flushLoop E s pid k c).m_resourceManager = c.m_resourceManager ∧
    submits (flushLoop E s pid k c).log = submits c.log ∧
    leases (flushLoop E s pid k c).log = leases c.log := by
  induction k generalizing c with
  | zero => exact ⟨rfl, rfl, rfl, rfl⟩
  | succ k ih =>
    rw [flushLoop_succ]
    by_cases hk : pid = -1 ∨ (k : Int) = pid
    · have hzk := hz k (by omega) (by simpa [selects] using hk)
      simp only [hk, if_true]
      rw [flushPage_of_zero E s k c hzk.1 hzk.2]
      obtain ⟨h1, h2, h3, h4⟩ := ih { c with log := c.log ++ [Event.uploadData k] }
        (fun q hq hsel => hz q (by omega) hsel)
      refine ⟨h1, h2, ?_, ?_⟩
      · rw [h3, submits_append]; simp [submits]
      · rw [h4, leases_append]; simp [leases]
    · simp only [hk, if_false]
      exact ih c (fun q hq hsel => hz q (by omega) hsel)

theorem flushLoop_zeroes (E : Env R) (s : Skin) (pid : Int) (k q : Nat) (b : GeometryBatcher R)
    (hq : q < k) (hsel : selects pid q = true) (hlen : q < b.m_pipelines.length) :
    ((flushLoop E s pid k b).pipeline q).m_currentVertex = 0 ∧
    ((flushLoop E s pid k b).pipeline q).m_currentIndex = 0 := by
  obtain ⟨rm, hrm⟩ := flushLoop_selected E s pid k q b hq hsel hlen
  rw [hrm]
  exact pageAfterFlush_cursors E _ _ rm

theorem flush_eq_loop (E : Env R) (c : GeometryBatcher R) (s : Skin) (pid : Int)
    (h : c.m_skin = some s) : flush E c pid = flushLoop E s pid c.m_pipelines.length c := by
  simp [flush, h]

/-- C8: for every state and every argument `pid` of `flush` (a page index or -1, or any other
integer), a second `flush(pid)` right after the first leaves the pipelines (cursors, capacities,
leased blocks) and the resource manager as the first flush left them, submits nothing and leases
nothing. -/
theorem flush_idempotent (E : Env R) (b : GeometryBatcher R) (pid : Int) :
    (flush E (flush E b pid) pid).m_pipelines = (flush E b pid).m_pipelines ∧
    (flush E (flush E b pid) pid).m_resourceManager = (flush E b pid).m_resourceManager ∧
    submits (flush E (flush E b pid) pid).log = submits (flush E b pid).log ∧
    leases (flush E (flush E b pid) pid).log = leases (flush E b pid).log := by
  cases hs : b.m_skin with
  | none =>
    rw [flush_no_skin E b pid hs, flush_no_skin E b pid hs]
    exact ⟨rfl, rfl, rfl, rfl⟩
  | some s =>
    have hs2 : (flush E b pid).m_skin = some s := by rw [flush_skin, hs]
    have hfl : flush E b pid = flushLoop E s pid b.m_pipelines.length b :=
      flush_eq_loop E b s pid hs
    have h2 : flush E (flush E b pid) pid =
        flushLoop E s pid b.m_pipelines.length (flush E b pid) := by
      rw [flush_eq_loop E (flush E b pid) s pid hs2, flush_length]
    rw [h2]
    apply flushLoop_of_zero
    intro q hq hsel
    rw [hfl]
    exact flushLoop_zeroes E s pid _ q b hq hsel hq

theorem pageAfterFlush_submit (E : Env R) (d : Bool) (p : GeometryPipeline) (rm : R)
    (h : p.m_currentIndex ≠ 0) :
    pageAfterFlush E d p rm = freshPipeline (leasedBlock E d p rm) := by
  simp [pageAfterFlush, h]

/-- C9: when `flush` submits page `p` (skin attached, index cursor nonzero), the old block goes
back to the pool of the page (the normal pool for a dynamic page, the small pool otherwise), the
new block is leased from that same pool, and afterwards the page holds the new block with
`m_maxVertices = verticesSize / sizeof(Vertex)` and `m_maxIndices = indicesSize /
sizeof(unsigned short)` of the new block and both cursors at zero. For `flush(p)` the calls
are exactly upload, submit, return, lease; for `flush(-1)` the same holds at the state `rm` the
resource manager has when the loop reaches page `p`. -/
theorem flush_releases_and_leases (E : Env R) (b : GeometryBatcher R) (s : Skin) (page : SkinPage)
    (p : Nat) (hs : b.m_skin = some s) (hp : p < b.m_pipelines.length)
    (hpg : s.pages[p]? = some page) (h0 : (b.pipeline p).m_currentIndex ≠ 0) :
    ((flush E b (p : Int)).log = b.log ++
        [Event.uploadData p,
         Event.drawGeometry p page.texture (b.pipeline p).m_storage (b.pipeline p).m_currentIndex,
         (if page.isDynamic then Event.freeStorage (b.pipeline p).m_storage
           else Event.freeSmallStorage (b.pipeline p).m_storage),
         (if page.isDynamic then Event.reserveStorage ((flush E b (p : Int)).pipeline p).m_storage
           else Event.reserveSmallStorage ((flush E b (p : Int)).pipeline p).m_storage)] ∧
      (page.isDynamic = true →
        ((flush E b (p : Int)).pipeline p).m_storage =
          (E.reserveStorage (E.freeStorage (b.pipeline p).m_storage b.m_resourceManager)).1 ∧
        (flush E b (p : Int)).m_resourceManager =
          (E.reserveStorage (E.freeStorage (b.pipeline p).m_storage b.m_resourceManager)).2) ∧
      (page.isDynamic = false →
        ((flush E b (p : Int)).pipeline p).m_storage =
          (E.reserveSmallStorage
            (E.freeSmallStorage (b.pipeline p).m_storage b.m_resourceManager)).1 ∧
        (flush E b (p : Int)).m_resourceManager =
          (E.reserveSmallStorage
            (E.freeSmallStorage (b.pipeline p).m_storage b.m_resourceManager)).2) ∧
      ((flush E b (p : Int)).pipeline p).m_maxVertices =
        ((flush E b (p : Int)).pipeline p).m_storage.verticesSize / sizeofVertex ∧
      ((flush E b (p : Int)).pipeline p).m_maxIndices =
        ((flush E b (p : Int)).pipeline p).m_storage.indicesSize / sizeofIndex ∧
      ((flush E b (p : Int)).pipeline p).m_currentVertex = 0 ∧
      ((flush E b (p : Int)).pipeline p).m_currentIndex = 0) ∧
    (∃ rm,
      ((flush E b (-1)).pipeline p).m_storage =
        (if page.isDynamic then (E.reserveStorage (E.freeStorage (b.pipeline p).m_storage rm)).1
          else (E.reserveSmallStorage (E.freeSmallStorage (b.pipeline p).m_storage rm)).1) ∧
      ((flush E b (-1)).pipeline p).m_maxVertices =
        ((flush E b (-1)).pipeline p).m_storage.verticesSize / sizeofVertex ∧
      ((flush E b (-1)).pipeline p).m_maxIndices =
        ((flush E b (-1)).pipeline p).m_storage.indicesSize / sizeofIndex ∧
      ((flush E b (-1)).pipeline p).m_currentVertex = 0 ∧
      ((flush E b (-1)).pipeline p).m_currentIndex = 0) := by
  have hpage : s.pages.getD p default = page := by
    simp [List.getD_eq_getElem?_getD, hpg]
  have hfl := flush_page E b s p hs hp
  have hpl : (flush E b (p : Int)).pipeline p =
      freshPipeline (leasedBlock E page.isDynamic (b.pipeline p) b.m_resourceManager) := by
    rw [hfl, flushPage_self E s p b hp, hpage, pageAfterFlush_submit E _ _ _ h0]
  have hrm : (flush E b (p : Int)).m_resourceManager =
      (reserveFor E page.isDynamic
        (freeFor E page.isDynamic (b.pipeline p).m_storage b.m_resourceManager)).2 := by
    rw [hfl, flushPage_eq, hpage]; simp [rmAfterFlush, h0]
  refine ⟨⟨?_, ?_, ?_, ?_, ?_, ?_, ?_⟩, ?_⟩
  · rw [hpl]
    rw [hfl, flushPage_log, hpage]
    cases hd : page.isDynamic <;>
      simp [flushPageEvents, h0, freeEvent, reserveEvent, freshPipeline, hd]
  · intro hd
    rw [hpl, hrm]
    simp [freshPipeline, leasedBlock, reserveFor, freeFor, hd]
  · intro hd
    rw [hpl, hrm]
    simp [freshPipeline, leasedBlock, reserveFor, freeFor, hd]
  · rw [hpl]; rfl
  · rw [hpl]; rfl
  · rw [hpl]; rfl
  · rw [hpl]; rfl
  · obtain ⟨rm, hrm2⟩ := flushLoop_selected E s (-1) b.m_pipelines.length p b hp
      (by simp [selects]) hp
    rw [hpage, pageAfterFlush_submit E _ _ _ h0] at hrm2
    have hall : (flush E b (-1)).pipeline p =
        freshPipeline (leasedBlock E page.isDynamic (b.pipeline p) rm) := by
      rw [flush_eq_loop E b s (-1) hs]; exact hrm2
    refine ⟨rm, ?_, ?_, ?_, ?_, ?_⟩
    · rw [hall]
      cases hd : page.isDynamic <;> simp [freshPipeline, leasedBlock, reserveFor, freeFor]
    · rw [hall]; rfl
    · rw [hall]; rfl
    · rw [hall]; rfl
    · rw [hall]; rfl

/-- Instance of `flush_releases_and_leases`: the page holds a block for 4 vertices and 6 indices
and a quad; the small pool hands out a block for 8 vertices and 12 indices next, and the
capacities after the flush are 8 and 12. -/
theorem flush_releases_and_leases_witness :
    (variedBlocks.m_skin = some (sampleSkin 1) ∧ 0 < variedBlocks.m_pipelines.length ∧
      (sampleSkin 1).pages[0]? = some default ∧ (variedBlocks.pipeline 0).m_currentIndex ≠ 0 ∧
      (variedBlocks.pipeline 0).m_maxVertices = 4 ∧ (variedBlocks.pipeline 0).m_maxIndices = 6) ∧
    ((flush queueEnv variedBlocks ((0 : Nat) : Int)).pipeline 0).m_maxVertices =
      ((flush queueEnv variedBlocks ((0 : Nat) : Int)).pipeline 0).m_storage.verticesSize /
        sizeofVertex ∧
    ((flush queueEnv variedBlocks ((0 : Nat) : Int)).pipeline 0).m_maxIndices =
      ((flush queueEnv variedBlocks ((0 : Nat) : Int)).pipeline 0).m_storage.indicesSize /
        sizeofIndex ∧
    ((flush queueEnv variedBlocks ((0 : Nat) : Int)).pipeline 0).m_maxVertices = 8 ∧
    ((flush queueEnv variedBlocks ((0 : Nat) : Int)).pipeline 0).m_maxIndices = 12 :=
  ⟨⟨rfl, by decide, rfl, by decide, by decide, by decide⟩,
   (flush_releases_and_leases queueEnv variedBlocks (sampleSkin 1) default 0 rfl (by decide) rfl
     (by decide)).1.2.2.2.1,
   (flush_releases_and_leases queueEnv variedBlocks (sampleSkin 1) default 0 rfl (by decide) rfl
     (by decide)).1.2.2.2.2.1,
   by decide, by decide⟩

theorem drawPathTextImpl_too_long (E : Env R) (b : GeometryBatcher R) (path : List Point)
    (sz fontSize : Nat) (utf8Text : String) (fullLength pathOffset : ℚ) (pos : TextPos)
    (fromMask : Bool) (depth : ℚ) (isFixedFont : Bool) (s : Skin) (glyphs : List ResourceStyle)
    (hpath : (pts_array.create E path sz fullLength pathOffset).isSome = true)
    (hs : b.m_skin = some s)
    (hg : lookupGlyphs s fontSize fromMask isFixedFont (Log2Vis E (E.FromUtf8 utf8Text)) =
      some glyphs)
    (hlen : fullLength < strLengthOf glyphs) :
    drawPathTextImpl E b path sz fontSize utf8Text fullLength pathOffset pos fromMask depth
      isFixedFont = some (false, b) := by
  obtain ⟨⟨arr, po⟩, harr⟩ := Option.isSome_iff_exists.mp hpath
  have hneg : (fullLength - strLengthOf glyphs) / 2 < 0 := by linarith
  simp [drawPathTextImpl, harr, hs, hg, hneg]

/-- C10: for every path accepted by `pts_array`, every font size, vertical position and string
whose glyphs (those of the first pass: masked when `isMasked`, unmasked otherwise) have a total
advance above `fullLength`, `drawPathText` returns `false` and leaves the batcher as it was: no
vertex, no index, no cursor and no call to a collaborator is added on any page. -/
theorem drawPathText_too_long (E : Env R) (b : GeometryBatcher R) (path : List Point)
    (sz fontSize : Nat) (utf8Text : String) (fullLength pathOffset : ℚ) (pos : TextPos)
    (isMasked : Bool) (depth : ℚ) (isFixedFont : Bool) (s : Skin) (glyphs : List ResourceStyle)
    (hpath : (pts_array.create E path sz fullLength pathOffset).isSome = true)
    (hs : b.m_skin = some s)
    (hg : lookupGlyphs s fontSize isMasked isFixedFont (Log2Vis E (E.FromUtf8 utf8Text)) =
      some glyphs)
    (hlen : fullLength < strLengthOf glyphs) :
    drawPathText E b path sz fontSize utf8Text fullLength pathOffset pos isMasked depth
      isFixedFont = some (false, b) := by
  cases isMasked with
  | true =>
    simp [drawPathText, drawPathTextImpl_too_long E b path sz fontSize utf8Text fullLength
      pathOffset pos true depth isFixedFont s glyphs hpath hs hg hlen]
  | false =>
    simp [drawPathText, drawPathTextImpl_too_long E b path sz fontSize utf8Text fullLength
      pathOffset pos false depth isFixedFont s glyphs hpath hs hg hlen]

/-- Instance of `drawPathText_too_long`: a path of full length 100, a string of three glyphs of
advance 50 (total 150) and path offset 0, masked and unmasked. -/
theorem drawPathText_too_long_witness :
    ((pts_array.create queueEnv [⟨0, 0⟩, ⟨100, 0⟩] 2 100 0).isSome = true ∧
      (sampleBatcher 1 4 6).m_skin = some (sampleSkin 1) ∧
      lookupGlyphs (sampleSkin 1) 10 true false (Log2Vis queueEnv (queueEnv.FromUtf8 "abc")) =
        some [sampleGlyph, sampleGlyph, sampleGlyph] ∧
      lookupGlyphs (sampleSkin 1) 10 false false (Log2Vis queueEnv (queueEnv.FromUtf8 "abc")) =
        some [sampleGlyph, sampleGlyph, sampleGlyph] ∧
      strLengthOf [sampleGlyph, sampleGlyph, sampleGlyph] = 150 ∧
      (100 : ℚ) < strLengthOf [sampleGlyph, sampleGlyph, sampleGlyph]) ∧
    drawPathText queueEnv (sampleBatcher 1 4 6) [⟨0, 0⟩, ⟨100, 0⟩] 2 10 "abc" 100 0
      TextPos.middle_line true 0 false = some (false, sampleBatcher 1 4 6) ∧
    drawPathText queueEnv (sampleBatcher 1 4 6) [⟨0, 0⟩, ⟨100, 0⟩] 2 10 "abc" 100 0
      TextPos.middle_line false 0 false = some (false, sampleBatcher 1 4 6) :=
  ⟨⟨by norm_num [pts_array.create, queueEnv], rfl, by decide, by decide, by norm_num [strLengthOf, sampleGlyph],
      by norm_num [strLengthOf, sampleGlyph]⟩,
   drawPathText_too_long queueEnv (sampleBatcher 1 4 6) [⟨0, 0⟩, ⟨100, 0⟩] 2 10 "abc" 100 0
     TextPos.middle_line true 0 false (sampleSkin 1) [sampleGlyph, sampleGlyph, sampleGlyph]
     (by norm_num [pts_array.create, queueEnv]) rfl (by decide)
     (by norm_num [strLengthOf, sampleGlyph]),
   drawPathText_too_long queueEnv (sampleBatcher 1 4 6) [⟨0, 0⟩, ⟨100, 0⟩] 2 10 "abc" 100 0
     TextPos.middle_line false 0 false (sampleSkin 1) [sampleGlyph, sampleGlyph, sampleGlyph]
     (by norm_num [pts_array.create, queueEnv]) rfl (by decide)
     (by norm_num [strLengthOf, sampleGlyph])⟩

theorem leasePipelines_length (E : Env R) (pages : List SkinPage) (rm : R) (log : List Event) :
    (leasePipelines E pages rm log).1.length = pages.length := by
  induction pages generalizing rm log with
  | nil => rfl
  | cons pg rest ih => simp [leasePipelines, ih]

theorem leasePipelines_getElem? (E : Env R) (pages : List SkinPage) (rm : R) (log : List Event)
    (i : Nat) (page : SkinPage) (h : pages[i]? = some page) :
    ∃ rm1, (leasePipelines E pages rm log).1[i]? =
      some (freshPipeline (reserveFor E page.isDynamic rm1).1) := by
  induction pages generalizing rm log i with
  | nil => simp at h
  | cons pg rest ih =>
    cases i with
    | zero =>
      simp only [List.getElem?_cons_zero, Option.some.injEq] at h
      subst h
      exact ⟨rm, by simp [leasePipelines]⟩
    | succ i =>
      simp only [List.getElem?_cons_succ] at h
      obtain ⟨rm1, h1⟩ := ih (reserveFor E pg.isDynamic rm).2
        (log ++ [reserveEvent pg.isDynamic (reserveFor E pg.isDynamic rm).1]) i h
      exact ⟨rm1, by simpa [leasePipelines] using h1⟩

theorem leases_reserveEvent (d : Bool) (s : Storage) : leases [reserveEvent d s] = [s] := by
  cases d <;> simp [reserveEvent, leases]

theorem leasePipelines_leases (E : Env R) (pages : List SkinPage) (rm : R) (log : List Event) :
    leases (leasePipelines E pages rm log).2.2 =
      leases log ++ (leasePipelines E pages rm log).1.map (fun p => p.m_storage) := by
  induction pages generalizing rm log with
  | nil => simp [leasePipelines]
  | cons pg rest ih =>
    simp only [leasePipelines, List.map_cons]
    rw [ih, leases_append, leases_reserveEvent]
    simp [freshPipeline]

/-- C19: after `setSkin` with a non-null skin the skin is attached, there are as many pipelines
as skin pages, and the pipeline of every page has both cursors at zero and holds a block leased
from the normal pool when the page is dynamic and from the small pool otherwise, with
`m_maxVertices = verticesSize / sizeof(Vertex)` and `m_maxIndices = indicesSize /
sizeof(unsigned short)` of that block; the blocks leased by the call are those held by the
pipelines, in page order. -/
theorem setSkin_pipelines (E : Env R) (b : GeometryBatcher R) (s : Skin) :
    (setSkin E b (some s)).m_skin = some s ∧
    (setSkin E b (some s)).m_pipelines.length = s.pages.length ∧
    (∀ i page, s.pages[i]? = some page →
      ((setSkin E b (some s)).pipeline i).m_currentVertex = 0 ∧
      ((setSkin E b (some s)).pipeline i).m_currentIndex = 0 ∧
      ((setSkin E b (some s)).pipeline i).m_maxVertices =
        ((setSkin E b (some s)).pipeline i).m_storage.verticesSize / sizeofVertex ∧
      ((setSkin E b (some s)).pipeline i).m_maxIndices =
        ((setSkin E b (some s)).pipeline i).m_storage.indicesSize / sizeofIndex ∧
      ∃ rm, ((setSkin E b (some s)).pipeline i).m_storage =
        (if page.isDynamic then (E.reserveStorage rm).1 else (E.reserveSmallStorage rm).1)) ∧
    leases (setSkin E b (some s)).log =
      leases b.log ++ (setSkin E b (some s)).m_pipelines.map (fun p => p.m_storage) := by
  refine ⟨rfl, leasePipelines_length E s.pages _ _, ?_, ?_⟩
  · intro i page hpage
    obtain ⟨rm, hrm⟩ := leasePipelines_getElem? E s.pages b.m_resourceManager
      (b.log ++ [Event.addOverflowFn 100, Event.addClearPageFn ClearPageFn.flush 100,
        Event.addClearPageFn ClearPageFn.switchTextures 99]) i page hpage
    have hpl : (setSkin E b (some s)).pipeline i =
        freshPipeline (reserveFor E page.isDynamic rm).1 := by
      simp only [GeometryBatcher.pipeline, setSkin, List.getD_eq_getElem?_getD, hrm,
        Option.getD_some]
    rw [hpl]
    refine ⟨rfl, rfl, rfl, rfl, rm, ?_⟩
    cases hd : page.isDynamic <;> simp [freshPipeline, reserveFor]
  · simp only [setSkin]
    rw [leasePipelines_leases, leases_append]
    simp [leases]

/-- C20: `hasRoom` is a function of the state that returns no state; for cursors, capacities and
counts of a `size_t` with `m` values whose sums do not wrap, the fit check computed in that
arithmetic is true exactly when `currentVertex + v <= maxVertices` and `currentIndex + i <=
maxIndices`, and it agrees with `hasRoom`; when the cursors of the page do not exceed its
capacities this is the same as `v <= verticesLeft` and `i <= indicesLeft`, with the differences
computed in that arithmetic or in the natural numbers alike. -/
theorem hasRoom_iff (m : Nat) (b : GeometryBatcher R) (v i p : Nat)
    (hmv : (b.pipeline p).m_maxVertices < m) (hmi : (b.pipeline p).m_maxIndices < m)
    (hv : (b.pipeline p).m_currentVertex + v < m) (hi : (b.pipeline p).m_currentIndex + i < m)
    (hb : (b.pipeline p).inBounds) :
    (hasRoomWord m b v i p = true ↔
      (b.pipeline p).m_currentVertex + v ≤ (b.pipeline p).m_maxVertices ∧
      (b.pipeline p).m_currentIndex + i ≤ (b.pipeline p).m_maxIndices) ∧
    hasRoomWord m b v i p = hasRoom b v i p ∧
    (hasRoom b v i p = true ↔
      (b.pipeline p).m_currentVertex + v ≤ (b.pipeline p).m_maxVertices ∧
      (b.pipeline p).m_currentIndex + i ≤ (b.pipeline p).m_maxIndices) ∧
    verticesLeftWord m b p = verticesLeft b p ∧
    indicesLeftWord m b p = indicesLeft b p ∧
    (hasRoom b v i p = true ↔ v ≤ verticesLeft b p ∧ i ≤ indicesLeft b p) ∧
    (hasRoomWord m b v i p = true ↔ v ≤ verticesLeftWord m b p ∧ i ≤ indicesLeftWord m b p) := by
  obtain ⟨hb1, hb2⟩ := hb
  have e1 : ((b.pipeline p).m_currentVertex + v) % m = (b.pipeline p).m_currentVertex + v :=
    Nat.mod_eq_of_lt hv
  have e2 : ((b.pipeline p).m_currentIndex + i) % m = (b.pipeline p).m_currentIndex + i :=
    Nat.mod_eq_of_lt hi
  have e3 : (b.pipeline p).m_currentVertex % m = (b.pipeline p).m_currentVertex :=
    Nat.mod_eq_of_lt (by omega)
  have e4 : (b.pipeline p).m_currentIndex % m = (b.pipeline p).m_currentIndex :=
    Nat.mod_eq_of_lt (by omega)
  have e5 : verticesLeftWord m b p = verticesLeft b p := by
    simp only [verticesLeftWord, verticesLeft, e3]
    have : (b.pipeline p).m_maxVertices + m - (b.pipeline p).m_currentVertex =
        ((b.pipeline p).m_maxVertices - (b.pipeline p).m_currentVertex) + m := by omega
    rw [this, Nat.add_mod_right]
    exact Nat.mod_eq_of_lt (by omega)
  have e6 : indicesLeftWord m b p = indicesLeft b p := by
    simp only [indicesLeftWord, indicesLeft, e4]
    have : (b.pipeline p).m_maxIndices + m - (b.pipeline p).m_currentIndex =
        ((b.pipeline p).m_maxIndices - (b.pipeline p).m_currentIndex) + m := by omega
    rw [this, Nat.add_mod_right]
    exact Nat.mod_eq_of_lt (by omega)
  have hw : hasRoomWord m b v i p = hasRoom b v i p := by
    simp only [hasRoomWord, hasRoom, e1, e2]
  have hr : hasRoom b v i p = true ↔
      (b.pipeline p).m_currentVertex + v ≤ (b.pipeline p).m_maxVertices ∧
      (b.pipeline p).m_currentIndex + i ≤ (b.pipeline p).m_maxIndices := by
    simp [hasRoom]
  have hl : hasRoom b v i p = true ↔ v ≤ verticesLeft b p ∧ i ≤ indicesLeft b p := by
    rw [hr]
    simp only [verticesLeft, indicesLeft]
    omega
  refine ⟨by rw [hw]; exact hr, hw, hr, e5, e6, hl, ?_⟩
  rw [hw, e5, e6]
  exact hl

/-- Instance of `hasRoom_iff`: a 64-bit `size_t`, a page for 4 vertices and 6 indices that holds
a quad, and a request for one more quad. -/
theorem hasRoom_iff_witness :
    (((withQuad (sampleBatcher 1 4 6)).pipeline 0).m_maxVertices < 2 ^ 64 ∧
      ((withQuad (sampleBatcher 1 4 6)).pipeline 0).m_maxIndices < 2 ^ 64 ∧
      ((withQuad (sampleBatcher 1 4 6)).pipeline 0).m_currentVertex + 4 < 2 ^ 64 ∧
      ((withQuad (sampleBatcher 1 4 6)).pipeline 0).m_currentIndex + 6 < 2 ^ 64 ∧
      ((withQuad (sampleBatcher 1 4 6)).pipeline 0).inBounds) ∧
    hasRoomWord (2 ^ 64) (withQuad (sampleBatcher 1 4 6)) 4 6 0 =
      hasRoom (withQuad (sampleBatcher 1 4 6)) 4 6 0 ∧
    (hasRoom (withQuad (sampleBatcher 1 4 6)) 4 6 0 = true ↔
      4 ≤ verticesLeft (withQuad (sampleBatcher 1 4 6)) 0 ∧
      6 ≤ indicesLeft (withQuad (sampleBatcher 1 4 6)) 0) :=
  ⟨⟨by decide, by decide, by decide, by decide, by decide⟩,
   (hasRoom_iff (2 ^ 64) (withQuad (sampleBatcher 1 4 6)) 4 6 0 (by decide) (by decide)
     (by decide) (by decide) (by decide)).2.1,
   (hasRoom_iff (2 ^ 64) (withQuad (sampleBatcher 1 4 6)) 4 6 0 (by decide) (by decide)
     (by decide) (by decide) (by decide)).2.2.2.2.2.1⟩

theorem segmentsLength_eq (E : Env R) (arr : List Point) (n : Nat) (h : n + 1 ≤ arr.length) :
    segmentsLength E arr n = some (pathLen E arr n) := by
  induction n with
  | zero => simp [segmentsLength, pathLen]
  | succ n ih =>
    have h1 : n < arr.length := by omega
    have h2 : n + 1 < arr.length := by omega
    simp only [segmentsLength, ih (by omega), List.getElem?_eq_getElem h1,
      List.getElem?_eq_getElem h2, pathLen, List.range_succ, List.map_append, List.sum_append,
      List.map_cons, List.map_nil, List.sum_cons, List.sum_nil, add_zero]
    simp [List.getD_eq_getElem?_getD, List.getElem?_eq_getElem h1, List.getElem?_eq_getElem h2]

/-- C17: for a path of `sz >= 2` points, `pts_array` reads the array reversed when the absolute
angle from the first to the last point exceeds pi / 2 (`get(i)` is `arr[sz - 1 - i]` for every
`i < sz`) and leaves `max(0, fullLength - pathOffset - len)` in `pathOffset`, `len` being the sum
of the segment lengths; otherwise `get(i)` is `arr[i]` and `pathOffset` is unchanged. The
reversed case is stated for calls that pass `ASSERT(pathOffset >= -1.0E-6)`. -/
theorem pts_array_direction (E : Env R) (arr : List Point) (sz : Nat) (fullLength pathOffset : ℚ)
    (hsz : 2 ≤ sz) (hlen : sz ≤ arr.length)
    (hassert : E.pi / 2 < |E.AngleTo (arr.getD 0 default) (arr.getD (sz - 1) default)| →
      -(1 / 1000000) ≤ fullLength - pathOffset - pathLen E arr (sz - 1)) :
    (E.pi / 2 < |E.AngleTo (arr.getD 0 default) (arr.getD (sz - 1) default)| →
      ∃ a, pts_array.create E arr sz fullLength pathOffset =
          some (a, max 0 (fullLength - pathOffset - pathLen E arr (sz - 1))) ∧
        a.size = sz ∧ ∀ i, i < sz → a.get i = arr[sz - 1 - i]?) ∧
    (¬ E.pi / 2 < |E.AngleTo (arr.getD 0 default) (arr.getD (sz - 1) default)| →
      ∃ a, pts_array.create E arr sz fullLength pathOffset = some (a, pathOffset) ∧
        a.size = sz ∧ ∀ i, i < sz → a.get i = arr[i]?) := by
  have h0 : 0 < arr.length := by omega
  have h1 : sz - 1 < arr.length := by omega
  have hsz1 : sz > 1 := by omega
  have e0 : arr.getD 0 default = arr[0] := by
    simp [List.getD_eq_getElem?_getD, List.getElem?_eq_getElem h0]
  have e1 : arr.getD (sz - 1) default = arr[sz - 1] := by
    simp [List.getD_eq_getElem?_getD, List.getElem?_eq_getElem h1]
  rw [e0, e1] at hassert ⊢
  constructor
  · intro hang
    have hpre := hassert hang
    refine ⟨⟨arr, sz, true⟩, ?_, rfl, ?_⟩
    · have hgt : |E.AngleTo arr[0] arr[sz - 1]| > E.pi / 2 := hang
      have hge : fullLength - pathOffset - pathLen E arr (sz - 1) ≥ -(1 / 1000000) := hpre
      simp only [pts_array.create, hsz1, if_true, List.getElem?_eq_getElem h0,
        List.getElem?_eq_getElem h1, hgt, segmentsLength_eq E arr (sz - 1) (by omega), hge]
      by_cases hneg : fullLength - pathOffset - pathLen E arr (sz - 1) < 0
      · simp [hneg, max_eq_left (le_of_lt hneg)]
      · simp [hneg, max_eq_right (not_lt.mp hneg)]
    · intro i hi
      simp only [pts_array.get, hi, if_true]
      have : sz - i - 1 = sz - 1 - i := by omega
      rw [this]
  · intro hang
    refine ⟨⟨arr, sz, false⟩, ?_, rfl, ?_⟩
    · have hgt : ¬ |E.AngleTo arr[0] arr[sz - 1]| > E.pi / 2 := hang
      simp only [pts_array.create, hsz1, if_true, List.getElem?_eq_getElem h0,
        List.getElem?_eq_getElem h1, hgt, if_false]
    · intro i hi
      simp [pts_array.get, hi]

theorem leftward_angle :
    leftwardEnv.pi / 2 < |leftwardEnv.AngleTo
      (([⟨100, 0⟩, ⟨60, 0⟩, ⟨0, 0⟩] : List Point).getD 0 default)
      (([⟨100, 0⟩, ⟨60, 0⟩, ⟨0, 0⟩] : List Point).getD (3 - 1) default)| := by
  norm_num [leftwardEnv, queueEnv]

theorem leftward_pathLen :
    pathLen leftwardEnv [⟨100, 0⟩, ⟨60, 0⟩, ⟨0, 0⟩] (3 - 1) = 100 := by
  norm_num [pathLen, leftwardEnv, queueEnv, List.range_succ]

/-- Instance of `pts_array_direction`: the path (100,0), (60,0), (0,0) of length 100 runs to the
left; with full length 120 and path offset 5 it is read reversed and the offset becomes 15. -/
theorem pts_array_direction_witness :
    (2 ≤ 3 ∧ 3 ≤ ([⟨100, 0⟩, ⟨60, 0⟩, ⟨0, 0⟩] : List Point).length ∧
      leftwardEnv.pi / 2 < |leftwardEnv.AngleTo
        (([⟨100, 0⟩, ⟨60, 0⟩, ⟨0, 0⟩] : List Point).getD 0 default)
        (([⟨100, 0⟩, ⟨60, 0⟩, ⟨0, 0⟩] : List Point).getD (3 - 1) default)| ∧
      -(1 / 1000000) ≤
        (120 : ℚ) - 5 - pathLen leftwardEnv [⟨100, 0⟩, ⟨60, 0⟩, ⟨0, 0⟩] (3 - 1) ∧
      max 0 ((120 : ℚ) - 5 - pathLen leftwardEnv [⟨100, 0⟩, ⟨60, 0⟩, ⟨0, 0⟩] (3 - 1)) = 15) ∧
    ∃ a, pts_array.create leftwardEnv [⟨100, 0⟩, ⟨60, 0⟩, ⟨0, 0⟩] 3 120 5 =
        some (a, max 0 ((120 : ℚ) - 5 -
          pathLen leftwardEnv [⟨100, 0⟩, ⟨60, 0⟩, ⟨0, 0⟩] (3 - 1))) ∧
      a.size = 3 ∧
      ∀ i, i < 3 → a.get i = ([⟨100, 0⟩, ⟨60, 0⟩, ⟨0, 0⟩] : List Point)[3 - 1 - i]? :=
  ⟨⟨by decide, by decide, leftward_angle, by rw [leftward_pathLen]; norm_num,
      by rw [leftward_pathLen]; norm_num⟩,
    (pts_array_direction leftwardEnv [⟨100, 0⟩, ⟨60, 0⟩, ⟨0, 0⟩] 3 120 5 (by decide) (by decide)
      (fun _ => by rw [leftward_pathLen]; norm_num)).1 leftward_angle⟩

/-- Counterexample to C11 as stated: a path of full length 100, two glyphs of advance 50 (total
100, centering offset 0) and path offset 0. `drawPathText` returns `true` and draws both glyphs
(8 vertices, 12 indices on page 0). -/
theorem drawPathText_zero_offset_drawn :
    ((100 : ℚ) - strLengthOf [sampleGlyph, sampleGlyph]) / 2 = 0 ∧
    lookupGlyphs (sampleSkin 1) 10 false false (Log2Vis queueEnv (queueEnv.FromUtf8 "ab")) =
      some [sampleGlyph, sampleGlyph] ∧
    (drawPathText queueEnv (sampleBatcher 1 8 12) [⟨0, 0⟩, ⟨100, 0⟩] 2 10 "ab" 100 0
      TextPos.above_line false 0 false).map
        (fun r => (r.1, (r.2.pipeline 0).m_currentVertex, (r.2.pipeline 0).m_currentIndex)) =
      some (true, 8, 12) :=
  ⟨by decide!, by decide, by decide!⟩

theorem samplePath_create :
    pts_array.create queueEnv [⟨0, 0⟩, ⟨100, 0⟩] 2 100 0 =
      some (⟨[⟨0, 0⟩, ⟨100, 0⟩], 2, false⟩, 0) := by
  norm_num [pts_array.create, queueEnv]

theorem makeRoom_length (E : Env R) (b : GeometryBatcher R) (n k p : Nat) :
    (makeRoom E b n k p).m_pipelines.length = b.m_pipelines.length := by
  unfold makeRoom
  split
  · exact flush_length E b _
  · rfl

theorem makeRoom_skin (E : Env R) (b : GeometryBatcher R) (n k p : Nat) :
    (makeRoom E b n k p).m_skin = b.m_skin := by
  unfold makeRoom
  split
  · exact flush_skin E b _
  · rfl

theorem makeRoom_of_room (E : Env R) (b : GeometryBatcher R) (n k p : Nat)
    (h : hasRoom b n k p = true) : makeRoom E b n k p = b := by
  simp [makeRoom, h]

theorem flush_page_cursors (E : Env R) (b : GeometryBatcher R) (s : Skin) (p : Nat)
    (hs : b.m_skin = some s) (hp : p < b.m_pipelines.length) :
    ((flush E b (p : Int)).pipeline p).m_currentVertex = 0 ∧
    ((flush E b (p : Int)).pipeline p).m_currentIndex = 0 := by
  rw [flush_page E b s p hs hp, flushPage_self E s p b hp]
  exact pageAfterFlush_cursors E _ _ _

theorem makeRoom_cursors (E : Env R) (b : GeometryBatcher R) (s : Skin) (n k p : Nat)
    (hs : b.m_skin = some s) (hp : p < b.m_pipelines.length)
    (h : hasRoom b n k p = false) :
    ((makeRoom E b n k p).pipeline p).m_currentVertex = 0 ∧
    ((makeRoom E b n k p).pipeline p).m_currentIndex = 0 := by
  simp only [makeRoom, h, Bool.not_false, if_true]
  exact flush_page_cursors E b s p hs hp

theorem makeRoom_keeps_zero (E : Env R) (b : GeometryBatcher R) (s : Skin) (n k p : Nat)
    (hs : b.m_skin = some s) (hp : p < b.m_pipelines.length)
    (h : (b.pipeline p).m_currentVertex = 0 ∧ (b.pipeline p).m_currentIndex = 0) :
    ((makeRoom E b n k p).pipeline p).m_currentVertex = 0 ∧
    ((makeRoom E b n k p).pipeline p).m_currentIndex = 0 := by
  unfold makeRoom
  split
  · exact flush_page_cursors E b s p hs hp
  · exact h

theorem addTexturedFan_eq (E : Env R) (b : GeometryBatcher R) (coords texCoords : List Point)
    (n : Nat) (depth : ℚ) (p : Nat) (hp : p < b.m_pipelines.length) (hn : n > 2) :
    addTexturedFan E b coords texCoords n depth p =
      some ((makeRoom E b n ((n - 2) * 3) p).setPipeline p
        (writeFan ((makeRoom E b n ((n - 2) * 3) p).pipeline p) coords texCoords n depth)) := by
  simp only [addTexturedFan, hp, hn, if_true, makeRoom]

theorem drawTexturedPolygon_eq (E : Env R) (b : GeometryBatcher R) (s : Skin) (page : SkinPage)
    (ptShift : Point) (angle tx0 ty0 tx1 ty1 x0 y0 x1 y1 depth : ℚ) (p : Nat)
    (hs : b.m_skin = some s) (hp : p < b.m_pipelines.length) (hpg : s.pages[p]? = some page) :
    drawTexturedPolygon E b ptShift angle tx0 ty0 tx1 ty1 x0 y0 x1 y1 depth p =
      addTexturedFan E (makeRoom E b 4 6 p) (polygonCoords E ptShift angle x0 y0 x1 y1)
        (polygonTexCoords page tx0 ty0 tx1 ty1) 4 depth p := by
  have hs1 : (makeRoom E b 4 6 p).m_skin = some s := by rw [makeRoom_skin, hs]
  unfold drawTexturedPolygon
  simp only [hp, if_true]
  change (match (makeRoom E b 4 6 p).m_skin with
    | none => none
    | some skin => _) = _
  rw [hs1]
  simp only [hpg]
  rfl

theorem storeVertices_get (coords texCoords : List Point) (depth : ℚ) (v n k : Nat)
    (mem : Nat → Vertex) (hk : k < n) :
    storeVertices coords texCoords depth v n mem (v + k) =
      { pt := coords.getD k default, tex := texCoords.getD k default, depth := depth } := by
  induction n with
  | zero => omega
  | succ n ih =>
    simp only [storeVertices]
    by_cases hkn : k = n
    · subst hkn
      simp
    · have hne : v + k ≠ v + n := by omega
      rw [Function.update_noteq hne]
      exact ih (by omega)

theorem writeFan_vertex (pl : GeometryPipeline) (coords texCoords : List Point) (n : Nat)
    (depth : ℚ) (k : Nat) (hk : k < n) :
    (writeFan pl coords texCoords n depth).m_storage.vertices (pl.m_currentVertex + k) =
      { pt := coords.getD k default, tex := texCoords.getD k default, depth := depth } := by
  simp only [writeFan]
  exact storeVertices_get coords texCoords depth pl.m_currentVertex n k _ hk

theorem drawTexturedPolygon_result (E : Env R) (b : GeometryBatcher R) (s : Skin)
    (page : SkinPage) (ptShift : Point) (angle tx0 ty0 tx1 ty1 x0 y0 x1 y1 depth : ℚ) (p : Nat)
    (hs : b.m_skin = some s) (hp : p < b.m_pipelines.length) (hpg : s.pages[p]? = some page) :
    ∃ b1 v i, drawTexturedPolygon E b ptShift angle tx0 ty0 tx1 ty1 x0 y0 x1 y1 depth p = some b1 ∧
      v = ((makeRoom E (makeRoom E b 4 6 p) 4 6 p).pipeline p).m_currentVertex ∧
      i = ((makeRoom E (makeRoom E b 4 6 p) 4 6 p).pipeline p).m_currentIndex ∧
      (b1.pipeline p).m_currentVertex = v + 4 ∧ (b1.pipeline p).m_currentIndex = i + 6 ∧
      ∀ k, k < 4 → (b1.pipeline p).m_storage.vertices (v + k) =
        { pt := (polygonCoords E ptShift angle x0 y0 x1 y1).getD k default,
          tex := (polygonTexCoords page tx0 ty0 tx1 ty1).getD k default, depth := depth } := by
  have hp1 : p < (makeRoom E b 4 6 p).m_pipelines.length := by rw [makeRoom_length]; exact hp
  have hp2 : p < (makeRoom E (makeRoom E b 4 6 p) 4 6 p).m_pipelines.length := by
    rw [makeRoom_length]; exact hp1
  have hrun := drawTexturedPolygon_eq E b s page ptShift angle tx0 ty0 tx1 ty1 x0 y0 x1 y1 depth p
    hs hp hpg
  rw [addTexturedFan_eq E _ _ _ 4 depth p hp1 (by decide)] at hrun
  refine ⟨_, _, _, hrun, rfl, rfl, ?_, ?_, ?_⟩
  · rw [setPipeline_self _ _ _ hp2]; rfl
  · rw [setPipeline_self _ _ _ hp2]; rfl
  · intro k hk
    rw [setPipeline_self _ _ _ hp2]
    exact writeFan_vertex _ _ _ 4 depth k hk

theorem polygonCoords_zero (E : Env R) (ptShift : Point) (x0 y0 x1 y1 : ℚ)
    (hsin : E.sin 0 = 0) (hcos : E.cos 0 = 1) :
    polygonCoords E ptShift 0 x0 y0 x1 y1 =
      [⟨(Int.ceil (x0 + ptShift.x) : ℚ), (Int.ceil (y0 + ptShift.y) : ℚ)⟩,
       ⟨(Int.ceil (x0 + ptShift.x) : ℚ), (Int.ceil (y0 + ptShift.y) : ℚ) + (y1 - y0)⟩,
       ⟨(Int.ceil (x0 + ptShift.x) : ℚ) + (x1 - x0), (Int.ceil (y0 + ptShift.y) : ℚ) + (y1 - y0)⟩,
       ⟨(Int.ceil (x0 + ptShift.x) : ℚ) + (x1 - x0), (Int.ceil (y0 + ptShift.y) : ℚ)⟩] := by
  simp only [polygonCoords, hsin, hcos, if_true, mul_one, mul_zero, sub_zero, zero_add]
  simp only [List.cons.injEq, Point.mk.injEq, and_true]
  refine ⟨⟨by ring, by ring⟩, ⟨by ring, by ring⟩, ⟨by ring, by ring⟩, ⟨by ring, by ring⟩⟩

theorem polygonCoords_rotated (E : Env R) (ptShift : Point) (angle x0 y0 x1 y1 : ℚ)
    (h : angle ≠ 0) :
    polygonCoords E ptShift angle x0 y0 x1 y1 =
      [⟨x0 * E.cos angle - y0 * E.sin angle + ptShift.x,
        x0 * E.sin angle + y0 * E.cos angle + ptShift.y⟩,
       ⟨x0 * E.cos angle - y1 * E.sin angle + ptShift.x,
        x0 * E.sin angle + y1 * E.cos angle + ptShift.y⟩,
       ⟨x1 * E.cos angle - y1 * E.sin angle + ptShift.x,
        x1 * E.sin angle + y1 * E.cos angle + ptShift.y⟩,
       ⟨x1 * E.cos angle - y0 * E.sin angle + ptShift.x,
        x1 * E.sin angle + y0 * E.cos angle + ptShift.y⟩] := by
  simp [polygonCoords, h]

/-- Counterexample to C16 as stated: with angle 0 and an unsnapped first corner at (1/10, 1/10)
the first emitted corner is (1, 1), while the nearest integer coordinates are (0, 0). -/
theorem drawTexturedPolygon_snaps_up :
    (drawTexturedPolygon queueEnv (sampleBatcher 1 4 6) ⟨1 / 10, 1 / 10⟩ 0 0 0 1 1 0 0 4 4 0
      0).map (fun b1 => ((b1.pipeline 0).m_storage.vertices 0).pt) = some ⟨1, 1⟩ ∧
    round ((0 : ℚ) + 1 / 10) = 0 :=
  ⟨by decide!, by decide!⟩

/-- C16, amended: in `drawTexturedPolygon` with `angle == 0` the first emitted corner is the
unsnapped first corner `(x0 + ptShift.x, y0 + ptShift.y)` moved up to the next integer pixel
coordinates (its ceiling, less than one pixel away) and all four corners are translated by that
same delta, so the quad keeps its width `x1 - x0` and height `y1 - y0`; for a nonzero angle the
four rotated and translated corners are emitted without any snapping. -/
theorem drawTexturedPolygon_snap (E : Env R) (b : GeometryBatcher R) (s : Skin) (page : SkinPage)
    (ptShift : Point) (angle tx0 ty0 tx1 ty1 x0 y0 x1 y1 depth : ℚ) (p : Nat)
    (hs : b.m_skin = some s) (hp : p < b.m_pipelines.length) (hpg : s.pages[p]? = some page)
    (hsin : E.sin 0 = 0) (hcos : E.cos 0 = 1) :
    ∃ b1 v, drawTexturedPolygon E b ptShift angle tx0 ty0 tx1 ty1 x0 y0 x1 y1 depth p = some b1 ∧
      (b1.pipeline p).m_currentVertex = v + 4 ∧
      (angle = 0 →
        ((b1.pipeline p).m_storage.vertices v).pt =
          ⟨(Int.ceil (x0 + ptShift.x) : ℚ), (Int.ceil (y0 + ptShift.y) : ℚ)⟩ ∧
        ((b1.pipeline p).m_storage.vertices (v + 1)).pt =
          ⟨(Int.ceil (x0 + ptShift.x) : ℚ), (Int.ceil (y0 + ptShift.y) : ℚ) + (y1 - y0)⟩ ∧
        ((b1.pipeline p).m_storage.vertices (v + 2)).pt =
          ⟨(Int.ceil (x0 + ptShift.x) : ℚ) + (x1 - x0),
            (Int.ceil (y0 + ptShift.y) : ℚ) + (y1 - y0)⟩ ∧
        ((b1.pipeline p).m_storage.vertices (v + 3)).pt =
          ⟨(Int.ceil (x0 + ptShift.x) : ℚ) + (x1 - x0), (Int.ceil (y0 + ptShift.y) : ℚ)⟩ ∧
        x0 + ptShift.x ≤ (Int.ceil (x0 + ptShift.x) : ℚ) ∧
        (Int.ceil (x0 + ptShift.x) : ℚ) < x0 + ptShift.x + 1 ∧
        y0 + ptShift.y ≤ (Int.ceil (y0 + ptShift.y) : ℚ) ∧
        (Int.ceil (y0 + ptShift.y) : ℚ) < y0 + ptShift.y + 1) ∧
      (angle ≠ 0 →
        ((b1.pipeline p).m_storage.vertices v).pt =
          ⟨x0 * E.cos angle - y0 * E.sin angle + ptShift.x,
            x0 * E.sin angle + y0 * E.cos angle + ptShift.y⟩ ∧
        ((b1.pipeline p).m_storage.vertices (v + 1)).pt =
          ⟨x0 * E.cos angle - y1 * E.sin angle + ptShift.x,
            x0 * E.sin angle + y1 * E.cos angle + ptShift.y⟩ ∧
        ((b1.pipeline p).m_storage.vertices (v + 2)).pt =
          ⟨x1 * E.cos angle - y1 * E.sin angle + ptShift.x,
            x1 * E.sin angle + y1 * E.cos angle + ptShift.y⟩ ∧
        ((b1.pipeline p).m_storage.vertices (v + 3)).pt =
          ⟨x1 * E.cos angle - y0 * E.sin angle + ptShift.x,
            x1 * E.sin angle + y0 * E.cos angle + ptShift.y⟩) := by
  obtain ⟨b1, v, i, hrun, _, _, hv, _, hvert⟩ := drawTexturedPolygon_result E b s page ptShift
    angle tx0 ty0 tx1 ty1 x0 y0 x1 y1 depth p hs hp hpg
  have h0 := hvert 0 (by decide)
  have h1 := hvert 1 (by decide)
  have h2 := hvert 2 (by decide)
  have h3 := hvert 3 (by decide)
  rw [Nat.add_zero] at h0
  refine ⟨b1, v, hrun, hv, ?_, ?_⟩
  · intro ha
    subst ha
    rw [polygonCoords_zero E ptShift x0 y0 x1 y1 hsin hcos] at h0 h1 h2 h3
    refine ⟨by rw [h0]; rfl, by rw [h1]; rfl, by rw [h2]; rfl, by rw [h3]; rfl,
      Int.le_ceil _, Int.ceil_lt_add_one _, Int.le_ceil _, Int.ceil_lt_add_one _⟩
  · intro ha
    rw [polygonCoords_rotated E ptShift angle x0 y0 x1 y1 ha] at h0 h1 h2 h3
    exact ⟨by rw [h0]; rfl, by rw [h1]; rfl, by rw [h2]; rfl, by rw [h3]; rfl⟩

/-- Instance of `drawTexturedPolygon_snap`: angle 0, the quad (0,0)-(4,4) shifted by
(1/10, 1/10) on an empty page; the first corner is emitted at (1, 1). -/
theorem drawTexturedPolygon_snap_witness :
    ((sampleBatcher 1 4 6).m_skin = some (sampleSkin 1) ∧
      0 < (sampleBatcher 1 4 6).m_pipelines.length ∧
      (sampleSkin 1).pages[0]? = some default ∧
      queueEnv.sin 0 = 0 ∧ queueEnv.cos 0 = 1 ∧
      ((Int.ceil ((0 : ℚ) + (⟨1 / 10, 1 / 10⟩ : Point).x) : Int) : ℚ) = 1) ∧
    ∃ b1 v, drawTexturedPolygon queueEnv (sampleBatcher 1 4 6) ⟨1 / 10, 1 / 10⟩ 0 0 0 1 1 0 0 4 4
        0 0 = some b1 ∧
      (b1.pipeline 0).m_currentVertex = v + 4 ∧
      ((b1.pipeline 0).m_storage.vertices v).pt =
        ⟨(Int.ceil ((0 : ℚ) + (⟨1 / 10, 1 / 10⟩ : Point).x) : ℚ),
          (Int.ceil ((0 : ℚ) + (⟨1 / 10, 1 / 10⟩ : Point).y) : ℚ)⟩ :=
  ⟨⟨rfl, by decide, rfl, rfl, rfl, by decide!⟩,
    (drawTexturedPolygon_snap queueEnv (sampleBatcher 1 4 6) (sampleSkin 1) default
      ⟨1 / 10, 1 / 10⟩ 0 0 0 1 1 0 0 4 4 0 0 rfl (by decide) rfl rfl rfl).imp
      (fun _ h => h.imp (fun _ h2 => ⟨h2.1, h2.2.1, (h2.2.2.1 rfl).1⟩))⟩

theorem usub_eq (a c : Nat) (ha : a < unsignedModulus) (hc : c ≤ a) : usub a c = a - c := by
  have hc2 : c < unsignedModulus := by omega
  simp only [usub, Nat.mod_eq_of_lt ha, Nat.mod_eq_of_lt hc2]
  have : a + unsignedModulus - c = (a - c) + unsignedModulus := by omega
  rw [this, Nat.add_mod_right]
  exact Nat.mod_eq_of_lt (by omega)

theorem uadd_eq (a c : Nat) (h : a + c < unsignedModulus) : uadd a c = a + c := by
  simp only [uadd, Nat.mod_eq_of_lt h]

theorem drawPoint_eq (E : Env R) (b : GeometryBatcher R) (s : Skin) (st : ResourceStyle)
    (pt : Point) (styleID : Nat) (depth : ℚ)
    (hs : b.m_skin = some s) (hst : s.fromID styleID = some st)
    (hp : st.m_pageID < b.m_pipelines.length) :
    drawPoint E b pt styleID depth =
      drawTexturedPolygon E (makeRoom E b 4 6 st.m_pageID) ⟨0, 0⟩ 0
        (uadd st.m_texRect.minX 1) (uadd st.m_texRect.minY 1)
        (usub st.m_texRect.maxX 1) (usub st.m_texRect.maxY 1)
        (E.rounds (pt.x - (usub st.m_texRect.SizeX 2 : ℚ) / 2))
        (E.rounds (pt.y - (usub st.m_texRect.SizeY 2 : ℚ) / 2))
        ((E.rounds (pt.x - (usub st.m_texRect.SizeX 2 : ℚ) / 2) : ℚ) +
          (usub st.m_texRect.SizeX 2 : ℚ))
        ((E.rounds (pt.y - (usub st.m_texRect.SizeY 2 : ℚ) / 2) : ℚ) +
          (usub st.m_texRect.SizeY 2 : ℚ))
        depth st.m_pageID := by
  simp only [drawPoint, hs, hst, hp, if_true, makeRoom]

theorem makeRoom3_cursors (E : Env R) (b : GeometryBatcher R) (s : Skin) (n k p : Nat)
    (hs : b.m_skin = some s) (hp : p < b.m_pipelines.length) :
    (hasRoom b n k p = true →
      makeRoom E (makeRoom E (makeRoom E b n k p) n k p) n k p = b) ∧
    (hasRoom b n k p = false →
      ((makeRoom E (makeRoom E (makeRoom E b n k p) n k p) n k p).pipeline p).m_currentVertex = 0 ∧
      ((makeRoom E (makeRoom E (makeRoom E b n k p) n k p) n k p).pipeline p).m_currentIndex = 0) := by
  constructor
  · intro h
    rw [makeRoom_of_room E b n k p h, makeRoom_of_room E b n k p h, makeRoom_of_room E b n k p h]
  · intro h
    have h1 := makeRoom_cursors E b s n k p hs hp h
    have hs1 : (makeRoom E b n k p).m_skin = some s := by rw [makeRoom_skin, hs]
    have hp1 : p < (makeRoom E b n k p).m_pipelines.length := by rw [makeRoom_length]; exact hp
    have h2 := makeRoom_keeps_zero E _ s n k p hs1 hp1 h1
    have hs2 : (makeRoom E (makeRoom E b n k p) n k p).m_skin = some s := by
      rw [makeRoom_skin, hs1]
    have hp2 : p < (makeRoom E (makeRoom E b n k p) n k p).m_pipelines.length := by
      rw [makeRoom_length]; exact hp1
    exact makeRoom_keeps_zero E _ s n k p hs2 hp2 h2

/-- C15: for a point style whose texture rectangle is at least 2 pixels wide and high,
`drawPoint` appends one fan of 4 vertices and 6 indices to the page of the style (after the
cursors of the call when it has room, after a flush otherwise). The quad has the minimum corner
`(rounds(pt.x - (SizeX - 2) / 2), rounds(pt.y - (SizeY - 2) / 2))`, the width `SizeX - 2` and the
height `SizeY - 2`, and its texture coordinates are the pixel mapping of the rectangle of the
style shrunk by 1 pixel on each side. -/
theorem drawPoint_quad (E : Env R) (b : GeometryBatcher R) (s : Skin) (st : ResourceStyle)
    (page : SkinPage) (pt : Point) (styleID : Nat) (depth : ℚ)
    (hs : b.m_skin = some s) (hst : s.fromID styleID = some st)
    (hp : st.m_pageID < b.m_pipelines.length) (hpg : s.pages[st.m_pageID]? = some page)
    (hsin : E.sin 0 = 0) (hcos : E.cos 0 = 1)
    (hX : st.m_texRect.minX + 2 ≤ st.m_texRect.maxX)
    (hY : st.m_texRect.minY + 2 ≤ st.m_texRect.maxY)
    (hmaxX : st.m_texRect.maxX < unsignedModulus) (hmaxY : st.m_texRect.maxY < unsignedModulus) :
    st.m_texRect.SizeX = st.m_texRect.maxX - st.m_texRect.minX ∧
    st.m_texRect.SizeY = st.m_texRect.maxY - st.m_texRect.minY ∧
    ∃ b1 v i, drawPoint E b pt styleID depth = some b1 ∧
      (b1.pipeline st.m_pageID).m_currentVertex = v + 4 ∧
      (b1.pipeline st.m_pageID).m_currentIndex = i + 6 ∧
      (hasRoom b 4 6 st.m_pageID = true →
        v = (b.pipeline st.m_pageID).m_currentVertex ∧
        i = (b.pipeline st.m_pageID).m_currentIndex) ∧
      (hasRoom b 4 6 st.m_pageID = false → v = 0 ∧ i = 0) ∧
      (b1.pipeline st.m_pageID).m_storage.vertices v =
        { pt := ⟨(E.rounds (pt.x - ((st.m_texRect.SizeX - 2 : Nat) : ℚ) / 2) : ℚ),
                 (E.rounds (pt.y - ((st.m_texRect.SizeY - 2 : Nat) : ℚ) / 2) : ℚ)⟩,
          tex := ⟨(page.mapPixel ⟨((st.m_texRect.minX + 1 : Nat) : ℚ),
                    ((st.m_texRect.minY + 1 : Nat) : ℚ)⟩).x,
                  (page.mapPixel ⟨((st.m_texRect.minX + 1 : Nat) : ℚ),
                    ((st.m_texRect.minY + 1 : Nat) : ℚ)⟩).y⟩,
          depth := depth } ∧
      (b1.pipeline st.m_pageID).m_storage.vertices (v + 1) =
        { pt := ⟨(E.rounds (pt.x - ((st.m_texRect.SizeX - 2 : Nat) : ℚ) / 2) : ℚ),
                 (E.rounds (pt.y - ((st.m_texRect.SizeY - 2 : Nat) : ℚ) / 2) : ℚ) +
                   ((st.m_texRect.SizeY - 2 : Nat) : ℚ)⟩,
          tex := ⟨(page.mapPixel ⟨((st.m_texRect.minX + 1 : Nat) : ℚ),
                    ((st.m_texRect.minY + 1 : Nat) : ℚ)⟩).x,
                  (page.mapPixel ⟨((st.m_texRect.maxX - 1 : Nat) : ℚ),
                    ((st.m_texRect.maxY - 1 : Nat) : ℚ)⟩).y⟩,
          depth := depth } ∧
      (b1.pipeline st.m_pageID).m_storage.vertices (v + 2) =
        { pt := ⟨(E.rounds (pt.x - ((st.m_texRect.SizeX - 2 : Nat) : ℚ) / 2) : ℚ) +
                   ((st.m_texRect.SizeX - 2 : Nat) : ℚ),
                 (E.rounds (pt.y - ((st.m_texRect.SizeY - 2 : Nat) : ℚ) / 2) : ℚ) +
                   ((st.m_texRect.SizeY - 2 : Nat) : ℚ)⟩,
          tex := ⟨(page.mapPixel ⟨((st.m_texRect.maxX - 1 : Nat) : ℚ),
                    ((st.m_texRect.maxY - 1 : Nat) : ℚ)⟩).x,
                  (page.mapPixel ⟨((st.m_texRect.maxX - 1 : Nat) : ℚ),
                    ((st.m_texRect.maxY - 1 : Nat) : ℚ)⟩).y⟩,
          depth := depth } ∧
      (b1.pipeline st.m_pageID).m_storage.vertices (v + 3) =
        { pt := ⟨(E.rounds (pt.x - ((st.m_texRect.SizeX - 2 : Nat) : ℚ) / 2) : ℚ) +
                   ((st.m_texRect.SizeX - 2 : Nat) : ℚ),
                 (E.rounds (pt.y - ((st.m_texRect.SizeY - 2 : Nat) : ℚ) / 2) : ℚ)⟩,
          tex := ⟨(page.mapPixel ⟨((st.m_texRect.maxX - 1 : Nat) : ℚ),
                    ((st.m_texRect.maxY - 1 : Nat) : ℚ)⟩).x,
                  (page.mapPixel ⟨((st.m_texRect.minX + 1 : Nat) : ℚ),
                    ((st.m_texRect.minY + 1 : Nat) : ℚ)⟩).y⟩,
          depth := depth } := by
  have eSX : st.m_texRect.SizeX = st.m_texRect.maxX - st.m_texRect.minX :=
    usub_eq _ _ hmaxX (by omega)
  have eSY : st.m_texRect.SizeY = st.m_texRect.maxY - st.m_texRect.minY :=
    usub_eq _ _ hmaxY (by omega)
  have eW : usub st.m_texRect.SizeX 2 = st.m_texRect.SizeX - 2 :=
    usub_eq _ _ (by rw [eSX]; omega) (by rw [eSX]; omega)
  have eH : usub st.m_texRect.SizeY 2 = st.m_texRect.SizeY - 2 :=
    usub_eq _ _ (by rw [eSY]; omega) (by rw [eSY]; omega)
  have e1 : uadd st.m_texRect.minX 1 = st.m_texRect.minX + 1 := uadd_eq _ _ (by omega)
  have e2 : uadd st.m_texRect.minY 1 = st.m_texRect.minY + 1 := uadd_eq _ _ (by omega)
  have e3 : usub st.m_texRect.maxX 1 = st.m_texRect.maxX - 1 := usub_eq _ _ hmaxX (by omega)
  have e4 : usub st.m_texRect.maxY 1 = st.m_texRect.maxY - 1 := usub_eq _ _ hmaxY (by omega)
  refine ⟨eSX, eSY, ?_⟩
  have hs1 : (makeRoom E b 4 6 st.m_pageID).m_skin = some s := by rw [makeRoom_skin, hs]
  have hp1 : st.m_pageID < (makeRoom E b 4 6 st.m_pageID).m_pipelines.length := by
    rw [makeRoom_length]; exact hp
  obtain ⟨b1, v, i, hrun, hv, hi, hcv, hci, hvert⟩ :=
    drawTexturedPolygon_result E (makeRoom E b 4 6 st.m_pageID) s page ⟨0, 0⟩ 0
      (uadd st.m_texRect.minX 1) (uadd st.m_texRect.minY 1)
      (usub st.m_texRect.maxX 1) (usub st.m_texRect.maxY 1)
      (E.rounds (pt.x - (usub st.m_texRect.SizeX 2 : ℚ) / 2))
      (E.rounds (pt.y - (usub st.m_texRect.SizeY 2 : ℚ) / 2))
      ((E.rounds (pt.x - (usub st.m_texRect.SizeX 2 : ℚ) / 2) : ℚ) +
        (usub st.m_texRect.SizeX 2 : ℚ))
      ((E.rounds (pt.y - (usub st.m_texRect.SizeY 2 : ℚ) / 2) : ℚ) +
        (usub st.m_texRect.SizeY 2 : ℚ))
      depth st.m_pageID hs1 hp1 hpg
  rw [← drawPoint_eq E b s st pt styleID depth hs hst hp] at hrun
  have h3 := makeRoom3_cursors E b s 4 6 st.m_pageID hs hp
  have h0 := hvert 0 (by decide)
  have h1 := hvert 1 (by decide)
  have h2 := hvert 2 (by decide)
  have h3v := hvert 3 (by decide)
  rw [Nat.add_zero] at h0
  rw [polygonCoords_zero E ⟨0, 0⟩ _ _ _ _ hsin hcos] at h0 h1 h2 h3v
  simp only [add_zero, Int.ceil_intCast, add_sub_cancel_left, eW, eH, e1, e2, e3, e4,
    polygonTexCoords, List.getD_cons_zero, List.getD_cons_succ] at h0 h1 h2 h3v
  refine ⟨b1, v, i, hrun, hcv, hci, ?_, ?_, h0, h1, h2, h3v⟩
  · intro hroom
    rw [hv, hi, h3.1 hroom]
    exact ⟨rfl, rfl⟩
  · intro hroom
    rw [hv, hi]
    exact h3.2 hroom

/-- Instance of `drawPoint_quad`: a marker of 10 by 8 texture pixels drawn at (20, 30) on an
empty page. -/
theorem drawPoint_quad_witness :
    (markerBatcher.m_skin = some markerSkin ∧ markerSkin.fromID 0 = some markerStyle ∧
      markerStyle.m_pageID < markerBatcher.m_pipelines.length ∧
      markerSkin.pages[markerStyle.m_pageID]? = some default ∧
      queueEnv.sin 0 = 0 ∧ queueEnv.cos 0 = 1 ∧
      markerStyle.m_texRect.minX + 2 ≤ markerStyle.m_texRect.maxX ∧
      markerStyle.m_texRect.minY + 2 ≤ markerStyle.m_texRect.maxY ∧
      markerStyle.m_texRect.maxX < unsignedModulus ∧
      markerStyle.m_texRect.maxY < unsignedModulus) ∧
    markerStyle.m_texRect.SizeX = markerStyle.m_texRect.maxX - markerStyle.m_texRect.minX ∧
    (drawPoint queueEnv markerBatcher ⟨20, 30⟩ 0 0).map
      (fun b1 => ((b1.pipeline 0).m_currentVertex, (b1.pipeline 0).m_currentIndex,
        ((b1.pipeline 0).m_storage.vertices 0).pt, ((b1.pipeline 0).m_storage.vertices 2).pt)) =
      some (4, 6, ⟨16, 27⟩, ⟨24, 33⟩) :=
  ⟨⟨rfl, rfl, by decide, rfl, rfl, rfl, by decide, by decide, by decide, by decide⟩,
    (drawPoint_quad queueEnv markerBatcher markerSkin markerStyle default ⟨20, 30⟩ 0 0 rfl rfl
      (by decide) rfl rfl rfl (by decide) (by decide) (by decide) (by decide)).1,
    by decide!⟩

theorem Log2Vis_nil (E : Env R) : Log2Vis E [] = [] := by
  simp [Log2Vis]

/-- Counterexample to C18 as stated: with a default rectangle that is empty in the way of a
bounding-box accumulator, `textRect` of the empty string is that empty rectangle inflated by 2,
not the rectangle from -2 to 2 around the origin. -/
theorem textRect_empty_not_origin :
    queueEnv.FromUtf8 "" = [] ∧
    textRect queueEnv boundingEnv "" 10 true =
      ⟨doubleMax - 2, doubleMax - 2, -doubleMax + 2, -doubleMax + 2⟩ ∧
    textRect queueEnv boundingEnv "" 10 true ≠ ⟨-2, -2, 2, 2⟩ ∧
    textRect queueEnv boundingEnv "" 10 false ≠ ⟨-2, -2, 2, 2⟩ :=
  ⟨rfl, by decide!, by decide!, by decide!⟩

/-- C18, amended: for the empty string (no character after conversion) `textRect` returns the
default-constructed rectangle inflated by the fixed margin of 2 on every side, with or without
reordering; no point is added to the rectangle, so the result is the rectangle from -2 to 2
around the origin exactly when the default rectangle is the origin point. No assertion is
involved: the function is total. -/
theorem textRect_empty (E : Env R) (T : TextEnv) (utf8Text : String) (fontSize : Nat)
    (log2vis : Bool) (hempty : E.FromUtf8 utf8Text = []) :
    textRect E T utf8Text fontSize log2vis =
      ⟨T.emptyRect.minX - 2, T.emptyRect.minY - 2, T.emptyRect.maxX + 2, T.emptyRect.maxY + 2⟩ ∧
    (textRect E T utf8Text fontSize log2vis = ⟨-2, -2, 2, 2⟩ ↔ T.emptyRect = ⟨0, 0, 0, 0⟩) := by
  have h : textRect E T utf8Text fontSize log2vis = T.emptyRect.Inflate 2 2 := by
    cases log2vis <;> simp [textRect, hempty, Log2Vis_nil, textRectLoop]
  rw [h]
  refine ⟨rfl, ?_⟩
  cases hr : T.emptyRect with
  | mk a c d e =>
    simp only [RectD.Inflate, RectD.mk.injEq]
    constructor
    · rintro ⟨h1, h2, h3, h4⟩
      exact ⟨by linarith, by linarith, by linarith, by linarith⟩
    · rintro ⟨h1, h2, h3, h4⟩
      subst h1 h2 h3 h4
      norm_num

/-- Instance of `textRect_empty`: the empty string in `queueEnv` and `boundingEnv`. -/
theorem textRect_empty_witness :
    queueEnv.FromUtf8 "" = [] ∧
    textRect queueEnv boundingEnv "" 10 true =
      ⟨boundingEnv.emptyRect.minX - 2, boundingEnv.emptyRect.minY - 2,
        boundingEnv.emptyRect.maxX + 2, boundingEnv.emptyRect.maxY + 2⟩ :=
  ⟨rfl, (textRect_empty queueEnv boundingEnv "" 10 true rfl).1⟩

theorem storePoints_get (points : List Point) (tex : Point) (depth : ℚ) (v off n k : Nat)
    (mem : Nat → Vertex) (hk : k < n) :
    storePoints points tex depth v off n mem (v + k) =
      { pt := points.getD (off + k) default, tex := tex, depth := depth } := by
  induction n with
  | zero => omega
  | succ n ih =>
    simp only [storePoints]
    by_cases hkn : k = n
    · subst hkn
      simp
    · have hne : v + k ≠ v + n := by omega
      rw [Function.update_noteq hne]
      exact ih (by omega)

theorem storeListIndices_get (v i n k : Nat) (mem : Nat → Nat) (hk : k < n) :
    storeListIndices v i n mem (i + k) = (v + k) % indexModulus := by
  induction n with
  | zero => omega
  | succ n ih =>
    simp only [storeListIndices]
    by_cases hkn : k = n
    · subst hkn
      simp
    · have hne : i + k ≠ i + n := by omega
      rw [Function.update_noteq hne]
      exact ih (by omega)

theorem writeBatch_stored (pl : GeometryPipeline) (points : List Point) (tex : Point)
    (depth : ℚ) (off n : Nat) (fl : Bool) :
    (Chunk.mk off n pl.m_currentVertex pl.m_currentIndex fl
      (writeBatch pl points tex depth off n)).stored points tex depth := by
  intro k hk
  exact ⟨storePoints_get points tex depth _ off n k _ hk, storeListIndices_get _ _ n k _ hk⟩

theorem drawTrianglesListTraceLoop_fst (E : Env R) (points : List Point) (tex : Point)
    (depth : ℚ) (p fuel pointsLeft off : Nat) (b : GeometryBatcher R) :
    (drawTrianglesListTraceLoop E points tex depth p fuel pointsLeft off b).map Prod.fst =
      drawTrianglesListLoop E points tex depth p fuel pointsLeft off b := by
  induction fuel generalizing pointsLeft off b with
  | zero => rfl
  | succ fuel ih =>
    simp only [drawTrianglesListTraceLoop, drawTrianglesListLoop]
    split
    · rfl
    · rw [← ih]
      cases drawTrianglesListTraceLoop E points tex depth p fuel
        (pointsLeft - batchSizeOf b p pointsLeft) (off + batchSizeOf b p pointsLeft)
        (if decide (batchSizeOf b p pointsLeft < pointsLeft) = true then
          flush E (b.setPipeline p
            (writeBatch (b.pipeline p) points tex depth off (batchSizeOf b p pointsLeft))) (p : Int)
          else b.setPipeline p
            (writeBatch (b.pipeline p) points tex depth off (batchSizeOf b p pointsLeft))) <;> rfl

theorem drawTrianglesListTrace_fst (E : Env R) (fuel : Nat) (b : GeometryBatcher R)
    (points : List Point) (pointsCount styleID : Nat) (depth : ℚ) :
    (drawTrianglesListTrace E fuel b points pointsCount styleID depth).map Prod.fst =
      drawTrianglesList E fuel b points pointsCount styleID depth := by
  cases hs : b.m_skin with
  | none => simp [drawTrianglesListTrace, drawTrianglesList, hs]
  | some s =>
    cases hst : s.fromID styleID with
    | none => simp [drawTrianglesListTrace, drawTrianglesList, hs, hst]
    | some st =>
      by_cases hp : st.m_pageID < b.m_pipelines.length
      · by_cases hpc : pointsCount ≥ 2
        · cases hpg : s.pages[st.m_pageID]? with
          | none => simp [drawTrianglesListTrace, drawTrianglesList, hs, hst, hp, hpc, hpg]
          | some page =>
            simp only [drawTrianglesListTrace, drawTrianglesList, hs, hst, hp, hpc, hpg, if_true,
              drawTrianglesListTraceLoop_fst, makeRoom]
        · simp [drawTrianglesListTrace, drawTrianglesList, hs, hst, hp, hpc]
      · simp [drawTrianglesListTrace, drawTrianglesList, hs, hst, hp]

theorem batchSizeOf_props (b : GeometryBatcher R) (p n : Nat) :
    batchSizeOf b p n ≤ n ∧ (batchSizeOf b p n < n → 3 ∣ batchSizeOf b p n) ∧
    (0 < n → 3 ≤ verticesLeft b p → 3 ≤ indicesLeft b p → 0 < batchSizeOf b p n) := by
  unfold batchSizeOf
  simp only
  refine ⟨?_, ?_, ?_⟩
  · split <;> split <;> omega
  · split <;> split <;> intro h <;> omega
  · intro h0 hv hi
    split <;> split <;> omega

theorem flush_page_visits (E : Env R) (b : GeometryBatcher R) (s : Skin) (p : Nat)
    (hs : b.m_skin = some s) (hp : p < b.m_pipelines.length) :
    flushVisits p (flush E b (p : Int)).log = flushVisits p b.log + 1 := by
  rw [flush_page E b s p hs hp, flushPage_log, flushVisits_append, flushVisits_flushPageEvents]
  simp

theorem setPipeline_skin (b : GeometryBatcher R) (p : Nat) (x : GeometryPipeline) :
    (b.setPipeline p x).m_skin = b.m_skin := rfl

theorem setPipeline_log (b : GeometryBatcher R) (p : Nat) (x : GeometryPipeline) :
    (b.setPipeline p x).log = b.log := rfl

theorem flush_after_write (E : Env R) (b : GeometryBatcher R) (s : Skin) (p : Nat)
    (x : GeometryPipeline) (hs : b.m_skin = some s) (hp : p < b.m_pipelines.length)
    (hx : x.m_currentIndex ≠ 0)
    (hpool : ∀ d rm, 3 ≤ (reserveFor E d rm).1.verticesSize / sizeofVertex ∧
      3 ≤ (reserveFor E d rm).1.indicesSize / sizeofIndex) :
    3 ≤ verticesLeft (flush E (b.setPipeline p x) (p : Int)) p ∧
    3 ≤ indicesLeft (flush E (b.setPipeline p x) (p : Int)) p := by
  have hp1 : p < (b.setPipeline p x).m_pipelines.length := by rw [setPipeline_length]; exact hp
  have hpl : (flush E (b.setPipeline p x) (p : Int)).pipeline p =
      freshPipeline (leasedBlock E (s.pages.getD p default).isDynamic x
        (b.setPipeline p x).m_resourceManager) := by
    rw [flush_page E (b.setPipeline p x) s p hs hp1, flushPage_self E s p _ hp1,
      setPipeline_self _ _ _ hp,
      pageAfterFlush_submit E _ _ _ hx]
  have h := hpool (s.pages.getD p default).isDynamic
    (freeFor E (s.pages.getD p default).isDynamic x.m_storage
      (b.setPipeline p x).m_resourceManager)
  simp only [verticesLeft, indicesLeft, hpl, freshPipeline, leasedBlock, Nat.sub_zero]
  exact h

theorem drawTrianglesListTraceLoop_spec (E : Env R) (s : Skin) (points : List Point)
    (tex : Point) (depth : ℚ) (p : Nat)
    (hpool : ∀ d rm, 3 ≤ (reserveFor E d rm).1.verticesSize / sizeofVertex ∧
      3 ≤ (reserveFor E d rm).1.indicesSize / sizeofIndex)
    (fuel pointsLeft off : Nat) (b : GeometryBatcher R)
    (hs : b.m_skin = some s) (hp : p < b.m_pipelines.length) (hpos : 0 < pointsLeft)
    (hfuel : pointsLeft ≤ fuel)
    (hinv : (pointsLeft ≤ verticesLeft b p ∧ pointsLeft ≤ indicesLeft b p) ∨
      (3 ≤ verticesLeft b p ∧ 3 ≤ indicesLeft b p)) :
    ∃ b1 chunks, drawTrianglesListTraceLoop E points tex depth p fuel pointsLeft off b =
        some (b1, chunks) ∧
      chunksOk points tex depth off pointsLeft chunks ∧
      flushVisits p b1.log = flushVisits p b.log + (chunks.length - 1) := by
  induction fuel generalizing pointsLeft off b with
  | zero => omega
  | succ fuel ih =>
    obtain ⟨hle, hdvd, hposb⟩ := batchSizeOf_props b p pointsLeft
    simp only [drawTrianglesListTraceLoop]
    by_cases hlt : batchSizeOf b p pointsLeft < pointsLeft
    · have hroom : 3 ≤ verticesLeft b p ∧ 3 ≤ indicesLeft b p := by
        rcases hinv with h | h
        · have := batchSizeOf_fits b p pointsLeft h.1 h.2
          omega
        · exact h
      have hb0 : 0 < batchSizeOf b p pointsLeft := hposb hpos hroom.1 hroom.2
      have hne : ¬ (pointsLeft - batchSizeOf b p pointsLeft = 0) := by omega
      have hx : (writeBatch (b.pipeline p) points tex depth off
          (batchSizeOf b p pointsLeft)).m_currentIndex ≠ 0 := by
        simp only [writeBatch]; omega
      have hp1 : p < (b.setPipeline p (writeBatch (b.pipeline p) points tex depth off
          (batchSizeOf b p pointsLeft))).m_pipelines.length := by
        rw [setPipeline_length]; exact hp
      obtain ⟨b3, cs, hrun, hok, hvis⟩ := ih (pointsLeft - batchSizeOf b p pointsLeft)
        (off + batchSizeOf b p pointsLeft)
        (flush E (b.setPipeline p (writeBatch (b.pipeline p) points tex depth off
          (batchSizeOf b p pointsLeft))) (p : Int))
        (by rw [flush_skin, setPipeline_skin, hs])
        (by rw [flush_length, setPipeline_length]; exact hp)
        (by omega) (by omega)
        (Or.inr (flush_after_write E b s p _ hs hp hx hpool))
      simp only [hlt, decide_True, if_true, hne, if_false, hrun]
      refine ⟨b3, _, rfl, ?_, ?_⟩
      · cases cs with
        | nil => exact absurd hok (by simp [chunksOk])
        | cons c1 cs1 =>
          exact ⟨rfl, hlt, hdvd hlt, rfl, writeBatch_stored _ _ _ _ _ _ _, hok⟩
      · rw [hvis, flush_page_visits E _ s p (by rw [setPipeline_skin, hs]) hp1, setPipeline_log]
        cases cs with
        | nil => exact absurd hok (by simp [chunksOk])
        | cons c1 cs1 => simp only [List.length_cons]; omega
    · have heq : batchSizeOf b p pointsLeft = pointsLeft := by omega
      have hz : pointsLeft - batchSizeOf b p pointsLeft = 0 := by omega
      simp only [hlt, decide_False, Bool.false_eq_true, if_false, hz, if_true]
      refine ⟨_, _, rfl, ⟨rfl, heq, rfl, writeBatch_stored _ _ _ _ _ _ _⟩, ?_⟩
      simp [setPipeline_log]

theorem chunksOk_sum (points : List Point) (tex : Point) (depth : ℚ) (off left : Nat)
    (cs : List Chunk) (h : chunksOk points tex depth off left cs) :
    (cs.map (fun c => c.size)).sum = left := by
  induction cs generalizing off left with
  | nil => exact absurd h (by simp [chunksOk])
  | cons c rest ih =>
    cases rest with
    | nil =>
      simp only [chunksOk] at h
      simp [h.2.1]
    | cons c1 rest1 =>
      simp only [chunksOk] at h
      have := ih _ _ h.2.2.2.2.2
      simp only [List.map_cons, List.sum_cons] at this ⊢
      omega

theorem chunksOk_split (points : List Point) (tex : Point) (depth : ℚ) (off left : Nat)
    (cs pre : List Chunk) (c : Chunk) (post : List Chunk)
    (h : chunksOk points tex depth off left cs) (hcs : cs = pre ++ c :: post) :
    c.batchOffset = off + (pre.map (fun c => c.size)).sum ∧
    (post ≠ [] → 3 ∣ c.size ∧ c.flushed = true) ∧ (post = [] → c.flushed = false) ∧
    c.stored points tex depth := by
  induction pre generalizing off left cs with
  | nil =>
    subst hcs
    cases post with
    | nil =>
      simp only [List.nil_append, chunksOk] at h
      exact ⟨by simp [h.1], fun hne => absurd rfl hne, fun _ => h.2.2.1, h.2.2.2⟩
    | cons c1 rest =>
      simp only [List.nil_append, chunksOk] at h
      exact ⟨by simp [h.1], fun _ => ⟨h.2.2.1, h.2.2.2.1⟩, fun he => by simp at he, h.2.2.2.2.1⟩
  | cons x pre1 ih =>
    subst hcs
    have hform : ∃ c1 rest, pre1 ++ c :: post = c1 :: rest := by
      cases pre1 with
      | nil => exact ⟨c, post, rfl⟩
      | cons y ys => exact ⟨y, ys ++ c :: post, rfl⟩
    obtain ⟨c1, rest, hrest⟩ := hform
    rw [List.cons_append, hrest] at h
    simp only [chunksOk] at h
    obtain ⟨hx, _, _, _, _, htail⟩ := h
    have := ih (off + x.size) (left - x.size) (c1 :: rest) htail hrest.symm
    refine ⟨?_, this.2.1, this.2.2.1, this.2.2.2⟩
    rw [this.1]
    simp only [List.map_cons, List.sum_cons]
    omega

theorem makeRoom_list_invariant (E : Env R) (b : GeometryBatcher R) (s : Skin) (n p : Nat)
    (hs : b.m_skin = some s) (hp : p < b.m_pipelines.length)
    (hcur : 3 ≤ (b.pipeline p).m_maxVertices ∧ 3 ≤ (b.pipeline p).m_maxIndices)
    (hpool : ∀ d rm, 3 ≤ (reserveFor E d rm).1.verticesSize / sizeofVertex ∧
      3 ≤ (reserveFor E d rm).1.indicesSize / sizeofIndex) :
    (n ≤ verticesLeft (makeRoom E b n n p) p ∧ n ≤ indicesLeft (makeRoom E b n n p) p) ∨
    (3 ≤ verticesLeft (makeRoom E b n n p) p ∧ 3 ≤ indicesLeft (makeRoom E b n n p) p) := by
  by_cases hroom : hasRoom b n n p = true
  · left
    rw [makeRoom_of_room E b n n p hroom]
    simp only [hasRoom, Bool.and_eq_true, decide_eq_true_eq] at hroom
    simp only [verticesLeft, indicesLeft]
    omega
  · right
    have hroom2 : hasRoom b n n p = false := by simpa using hroom
    have hpl : (makeRoom E b n n p).pipeline p =
        pageAfterFlush E (s.pages.getD p default).isDynamic (b.pipeline p)
          b.m_resourceManager := by
      simp only [makeRoom, hroom2, Bool.not_false, if_true]
      rw [flush_page E b s p hs hp, flushPage_self E s p b hp]
    simp only [verticesLeft, indicesLeft, hpl, pageAfterFlush]
    split
    · have h := hpool (s.pages.getD p default).isDynamic
        (freeFor E (s.pages.getD p default).isDynamic (b.pipeline p).m_storage
          b.m_resourceManager)
      simp only [freshPipeline, leasedBlock, Nat.sub_zero]
      exact h
    · simp only [zeroCursors, Nat.sub_zero]
      exact hcur

theorem makeRoom_visits (E : Env R) (b : GeometryBatcher R) (s : Skin) (n k p : Nat)
    (hs : b.m_skin = some s) (hp : p < b.m_pipelines.length) :
    flushVisits p (makeRoom E b n k p).log =
      flushVisits p b.log + (if hasRoom b n k p = true then 0 else 1) := by
  by_cases hroom : hasRoom b n k p = true
  · simp [makeRoom, hroom]
  · have hroom2 : hasRoom b n k p = false := by simpa using hroom
    simp only [makeRoom, hroom2, Bool.not_false, if_true, Bool.false_eq_true, if_false]
    exact flush_page_visits E b s p hs hp

/-- Counterexample to C14 as stated: on a page for 65540 vertices that holds 65535 of them, a
list of 3 points is written as one batch at vertex offset 65535 and index offset 65535; the
second point becomes vertex 65536, and index slot 65536 holds 0, not 65536. -/
theorem drawTrianglesList_index_wraps :
    hasRoom manyVertices 3 3 0 = true ∧
    (drawTrianglesList queueEnv 3 manyVertices [] 3 0 0).map
      (fun b1 => ((b1.pipeline 0).m_currentVertex, (b1.pipeline 0).m_storage.indices (65535 + 1)))
      = some (65538, 0) :=
  ⟨by decide, by decide!⟩

/-- C14, amended: for a list of `pointsCount >= 2` points on a page whose blocks (the one it
holds and every leased one) have room for at least 3 vertices and 3 indices, `drawTrianglesList`
returns, and it writes the points in order in consecutive batches whose sizes sum to
`pointsCount`; every batch but the last has a size that is a multiple of 3 and is followed by a
flush of the page, the last one is not; within a batch written at vertex offset `v` and index
offset `i` the `k`-th point becomes vertex `v + k` and index slot `i + k` holds `v + k` reduced
to an `unsigned short`, that is `v + k` itself whenever `v + k < 65536`. -/
theorem drawTrianglesList_chunks (E : Env R) (b : GeometryBatcher R) (s : Skin)
    (st : ResourceStyle) (page : SkinPage) (fuel : Nat) (points : List Point)
    (pointsCount styleID : Nat) (depth : ℚ)
    (hs : b.m_skin = some s) (hst : s.fromID styleID = some st)
    (hp : st.m_pageID < b.m_pipelines.length) (hpg : s.pages[st.m_pageID]? = some page)
    (hpc : 2 ≤ pointsCount) (hfuel : pointsCount ≤ fuel)
    (hcur : 3 ≤ (b.pipeline st.m_pageID).m_maxVertices ∧
      3 ≤ (b.pipeline st.m_pageID).m_maxIndices)
    (hpool : ∀ d rm, 3 ≤ (reserveFor E d rm).1.verticesSize / sizeofVertex ∧
      3 ≤ (reserveFor E d rm).1.indicesSize / sizeofIndex) :
    ∃ b1 chunks,
      drawTrianglesListTrace E fuel b points pointsCount styleID depth = some (b1, chunks) ∧
      drawTrianglesList E fuel b points pointsCount styleID depth = some b1 ∧
      (chunks.map (fun c => c.size)).sum = pointsCount ∧
      flushVisits st.m_pageID b1.log = flushVisits st.m_pageID b.log +
        (if hasRoom b pointsCount pointsCount st.m_pageID = true then 0 else 1) +
        (chunks.length - 1) ∧
      ∀ pre c post, chunks = pre ++ c :: post →
        c.batchOffset = (pre.map (fun c => c.size)).sum ∧
        (post ≠ [] → 3 ∣ c.size ∧ c.flushed = true) ∧
        (post = [] → c.flushed = false) ∧
        ∀ k, k < c.size →
          c.written.m_storage.vertices (c.vOffset + k) =
            { pt := points.getD (c.batchOffset + k) default,
              tex := page.mapPixel
                ⟨(st.m_texRect.minX : ℚ) + 1, (st.m_texRect.minY : ℚ) + 1⟩,
              depth := depth } ∧
          c.written.m_storage.indices (c.iOffset + k) = (c.vOffset + k) % indexModulus ∧
          (c.vOffset + k < 65536 → c.written.m_storage.indices (c.iOffset + k) = c.vOffset + k) := by
  have hs1 : (makeRoom E b pointsCount pointsCount st.m_pageID).m_skin = some s := by
    rw [makeRoom_skin, hs]
  have hp1 : st.m_pageID <
      (makeRoom E b pointsCount pointsCount st.m_pageID).m_pipelines.length := by
    rw [makeRoom_length]; exact hp
  obtain ⟨b1, chunks, hrun, hok, hvis⟩ := drawTrianglesListTraceLoop_spec E s points
    (page.mapPixel ⟨(st.m_texRect.minX : ℚ) + 1, (st.m_texRect.minY : ℚ) + 1⟩) depth
    st.m_pageID hpool fuel pointsCount 0
    (makeRoom E b pointsCount pointsCount st.m_pageID) hs1 hp1 (by omega) hfuel
    (makeRoom_list_invariant E b s pointsCount st.m_pageID hs hp hcur hpool)
  have hpc2 : pointsCount ≥ 2 := hpc
  have htrace : drawTrianglesListTrace E fuel b points pointsCount styleID depth =
      some (b1, chunks) := by
    simp only [drawTrianglesListTrace, hs, hst, hp, hpc2, hpg, if_true]
    exact hrun
  have hlist : drawTrianglesList E fuel b points pointsCount styleID depth = some b1 := by
    rw [← drawTrianglesListTrace_fst, htrace]; rfl
  refine ⟨b1, chunks, htrace, hlist, chunksOk_sum _ _ _ _ _ _ hok, ?_, ?_⟩
  · rw [hvis, makeRoom_visits E b s _ _ _ hs hp]
  · intro pre c post hcs
    obtain ⟨h1, h2, h3, h4⟩ := chunksOk_split _ _ _ _ _ chunks pre c post hok hcs
    refine ⟨by simpa using h1, h2, h3, ?_⟩
    intro k hk
    obtain ⟨hv, hi⟩ := h4 k hk
    refine ⟨hv, hi, ?_⟩
    intro hsmall
    rw [hi]
    exact Nat.mod_eq_of_lt hsmall

theorem constEnv_pool :
    ∀ (d : Bool) (rm : Unit),
      3 ≤ (reserveFor (constEnv 6 6) d rm).1.verticesSize / sizeofVertex ∧
      3 ≤ (reserveFor (constEnv 6 6) d rm).1.indicesSize / sizeofIndex := by
  intro d rm
  cases rm
  cases d <;> decide

/-- Instance of `drawTrianglesList_chunks`: 9 points on a page whose blocks hold 6 vertices and
6 indices are written as a batch of 6 followed by a flush and a batch of 3. -/
theorem drawTrianglesList_chunks_witness :
    ((constBatcher 1 6 6).m_skin = some (sampleSkin 1) ∧
      (sampleSkin 1).fromID 0 = some sampleGlyph ∧
      sampleGlyph.m_pageID < (constBatcher 1 6 6).m_pipelines.length ∧
      (sampleSkin 1).pages[sampleGlyph.m_pageID]? = some default ∧ 2 ≤ 9 ∧ 9 ≤ 9 ∧
      (3 ≤ ((constBatcher 1 6 6).pipeline sampleGlyph.m_pageID).m_maxVertices ∧
        3 ≤ ((constBatcher 1 6 6).pipeline sampleGlyph.m_pageID).m_maxIndices)) ∧
    (∃ b1 chunks,
      drawTrianglesListTrace (constEnv 6 6) 9 (constBatcher 1 6 6) [] 9 0 0 = some (b1, chunks) ∧
      drawTrianglesList (constEnv 6 6) 9 (constBatcher 1 6 6) [] 9 0 0 = some b1 ∧
      (chunks.map (fun c => c.size)).sum = 9) ∧
    (drawTrianglesListTrace (constEnv 6 6) 9 (constBatcher 1 6 6) [] 9 0 0).map
      (fun r => r.2.map (fun c => (c.batchOffset, c.size, c.vOffset, c.iOffset, c.flushed))) =
      some [(0, 6, 0, 0, true), (6, 3, 0, 0, false)] :=
  ⟨⟨rfl, rfl, by decide, rfl, by decide, by decide, by decide⟩,
    (drawTrianglesList_chunks (constEnv 6 6) (constBatcher 1 6 6) (sampleSkin 1) sampleGlyph
      default 9 [] 9 0 0 rfl rfl (by decide) rfl (by decide) (by decide) (by decide)
      constEnv_pool).imp
      (fun _ h => h.imp (fun _ h2 => ⟨h2.1, h2.2.1, h2.2.2.1⟩)),
    by decide!⟩

theorem flushLoop_aaShift (E : Env R) (s : Skin) (pid : Int) (k : Nat) (b : GeometryBatcher R) :
    (flushLoop E s pid k b).m_aaShift = b.m_aaShift := by
  induction k generalizing b with
  | zero => rfl
  | succ k ih =>
    rw [flushLoop_succ, ih]
    split
    · rw [flushPage_eq]
    · rfl

theorem flush_aaShift (E : Env R) (b : GeometryBatcher R) (pid : Int) :
    (flush E b pid).m_aaShift = b.m_aaShift := by
  unfold flush
  split
  · rfl
  · rw [flushLoop_aaShift]

theorem makeRoom_aaShift (E : Env R) (b : GeometryBatcher R) (n k p : Nat) :
    (makeRoom E b n k p).m_aaShift = b.m_aaShift := by
  unfold makeRoom
  split
  · exact flush_aaShift E b _
  · rfl

theorem addTexturedFan_facts (E : Env R) (b : GeometryBatcher R) (coords texCoords : List Point)
    (n : Nat) (depth : ℚ) (p : Nat) (hp : p < b.m_pipelines.length) (hn : n > 2) :
    ∃ b1, addTexturedFan E b coords texCoords n depth p = some b1 ∧ b1.m_skin = b.m_skin ∧
      b1.m_pipelines.length = b.m_pipelines.length ∧ b1.m_aaShift = b.m_aaShift := by
  refine ⟨_, addTexturedFan_eq E b coords texCoords n depth p hp hn, ?_, ?_, ?_⟩
  · rw [setPipeline_skin, makeRoom_skin]
  · rw [setPipeline_length, makeRoom_length]
  · exact makeRoom_aaShift E b n ((n - 2) * 3) p

theorem drawPathTiles_exit (E : Env R) (st : ResourceStyle) (depth : ℚ) (dir norm : Point)
    (segLen ghw : ℚ) (fuel : Nat) (remain : ℚ) (startPt : Point) (startLen lastLen : ℚ)
    (acc : List ℚ) (b : GeometryBatcher R) (hrem : ¬ remain > 0) :
    drawPathTiles E st depth dir norm segLen ghw (fuel + 1) remain startPt startLen lastLen acc b
      = some ⟨b, startLen, lastLen, acc⟩ := by
  simp only [drawPathTiles, hrem, if_false]

theorem drawPathTiles_step (E : Env R) (st : ResourceStyle) (depth : ℚ) (dir norm : Point)
    (segLen ghw : ℚ) (fuel : Nat) (remain : ℚ) (startPt : Point) (startLen lastLen : ℚ)
    (acc : List ℚ) (b : GeometryBatcher R) (skin : Skin) (page : SkinPage)
    (hrem : remain > 0) (hs : b.m_skin = some skin)
    (hpg : skin.pages[st.m_pageID]? = some page) (hp : st.m_pageID < b.m_pipelines.length)
    (hass : nextStartLen st startLen (tileLen st segLen startLen remain) < st.rawTileLen) :
    ∃ b1,
      addTexturedFan E b (tileCoords dir norm startPt (tileLen st segLen startLen remain) ghw)
        (tileTexCoords b.m_aaShift st page startLen (tileLen st segLen startLen remain))
        4 depth st.m_pageID = some b1 ∧
      b1.m_skin = some skin ∧ b1.m_pipelines.length = b.m_pipelines.length ∧
      b1.m_aaShift = b.m_aaShift ∧
      drawPathTiles E st depth dir norm segLen ghw (fuel + 1) remain startPt startLen lastLen acc
          b =
        drawPathTiles E st depth dir norm segLen ghw fuel
          (remain - tileLen st segLen startLen remain)
          (tileEndPt dir startPt (tileLen st segLen startLen remain))
          (nextStartLen st startLen (tileLen st segLen startLen remain))
          (tileLen st segLen startLen remain)
          (acc ++ [tileLen st segLen startLen remain]) b1 := by
  obtain ⟨b1, hb1, h1, h2, h3⟩ := addTexturedFan_facts E b
    (tileCoords dir norm startPt (tileLen st segLen startLen remain) ghw)
    (tileTexCoords b.m_aaShift st page startLen (tileLen st segLen startLen remain))
    4 depth st.m_pageID hp (by decide)
  refine ⟨b1, hb1, by rw [h1, hs], h2, h3, ?_⟩
  simp only [drawPathTiles, hrem, if_true, hass, hs, hpg, hb1]

theorem drawPathTiles_dashed (E : Env R) (st : ResourceStyle) (depth : ℚ) (dir norm : Point)
    (segLen ghw : ℚ) (skin : Skin) (page : SkinPage)
    (hsolid : st.m_isSolid = false) (hwrapped : st.m_isWrapped = false)
    (hL : 0 < st.rawTileLen) (hpg : skin.pages[st.m_pageID]? = some page)
    (f : ℚ) (hf0 : 0 ≤ f) (hfL : f < st.rawTileLen) (n : Nat) :
    ∀ (fuel : Nat) (startPt : Point) (lastLen : ℚ) (acc : List ℚ) (b : GeometryBatcher R),
      n + 2 ≤ fuel → b.m_skin = some skin → st.m_pageID < b.m_pipelines.length →
      ∃ ts, drawPathTiles E st depth dir norm segLen ghw fuel ((n : ℚ) * st.rawTileLen + f)
          startPt 0 lastLen acc b = some ts ∧
        ts.tiles = acc ++ List.replicate n st.rawTileLen ++ (if f = 0 then [] else [f]) ∧
        ts.rawTileStartLen = f ∧ ts.b.m_skin = some skin ∧
        ts.b.m_pipelines.length = b.m_pipelines.length ∧
        addTexturedFans E st.m_pageID
          (tileFans st page b.m_aaShift depth dir norm ghw
            (List.replicate n st.rawTileLen ++ (if f = 0 then [] else [f])) startPt) b =
          some ts.b := by
  induction n with
  | zero =>
    intro fuel startPt lastLen acc b hfuel hs hp
    obtain ⟨fuel, rfl⟩ : ∃ k, fuel = k + 1 := ⟨fuel - 1, by omega⟩
    simp only [Nat.cast_zero, zero_mul, zero_add, List.replicate_zero, List.append_nil,
      List.nil_append]
    by_cases hf : f = 0
    · subst hf
      rw [drawPathTiles_exit E st depth dir norm segLen ghw fuel 0 startPt 0 lastLen acc b
        (lt_irrefl 0)]
      exact ⟨_, rfl, by simp, rfl, hs, rfl, by simp [tileFans, addTexturedFans]⟩
    · have hpos : f > 0 := lt_of_le_of_ne hf0 (Ne.symm hf)
      have hlen : tileLen st segLen 0 f = f := by
        simp only [tileLen, hsolid, hwrapped, Bool.or_self, Bool.false_eq_true, if_false,
          sub_zero]
        exact min_eq_right (le_of_lt hfL)
      have hnext : nextStartLen st 0 f = f := by
        simp only [nextStartLen, zero_add, ge_iff_le, not_le.mpr hfL, if_false]
      obtain ⟨b1, hb1, hs1, hl1, _, hstep⟩ := drawPathTiles_step E st depth dir norm segLen ghw
        fuel f startPt 0 lastLen acc b skin page hpos hs hpg hp (by rw [hlen, hnext]; exact hfL)
      rw [hlen] at hb1
      rw [hstep, hlen, hnext, sub_self]
      obtain ⟨fuel, rfl⟩ : ∃ k, fuel = k + 1 := ⟨fuel - 1, by omega⟩
      rw [drawPathTiles_exit E st depth dir norm segLen ghw fuel 0 _ f f _ b1 (lt_irrefl 0)]
      exact ⟨_, rfl, by simp [hf], rfl, hs1, hl1, by simp [hf, tileFans, addTexturedFans, hb1]⟩
  | succ n ih =>
    intro fuel startPt lastLen acc b hfuel hs hp
    obtain ⟨fuel, rfl⟩ : ∃ k, fuel = k + 1 := ⟨fuel - 1, by omega⟩
    have hn0 : (0 : ℚ) ≤ (n : ℚ) * st.rawTileLen := mul_nonneg (Nat.cast_nonneg n) (le_of_lt hL)
    have hrem : ((n + 1 : Nat) : ℚ) * st.rawTileLen + f > 0 := by
      push_cast
      nlinarith
    have hge : st.rawTileLen ≤ ((n + 1 : Nat) : ℚ) * st.rawTileLen + f := by
      push_cast
      nlinarith
    have hlen : tileLen st segLen 0 (((n + 1 : Nat) : ℚ) * st.rawTileLen + f) =
        st.rawTileLen := by
      simp only [tileLen, hsolid, hwrapped, Bool.or_self, Bool.false_eq_true, if_false,
        sub_zero]
      exact min_eq_left hge
    have hnext : nextStartLen st 0 st.rawTileLen = 0 := by
      simp [nextStartLen]
    obtain ⟨b1, hb1, hs1, hl1, ha1, hstep⟩ := drawPathTiles_step E st depth dir norm segLen ghw
      fuel (((n + 1 : Nat) : ℚ) * st.rawTileLen + f) startPt 0 lastLen acc b skin page hrem hs
      hpg hp (by rw [hlen, hnext]; exact hL)
    rw [hlen] at hb1
    rw [hstep, hlen, hnext]
    have hsub : ((n + 1 : Nat) : ℚ) * st.rawTileLen + f - st.rawTileLen =
        (n : ℚ) * st.rawTileLen + f := by
      push_cast
      ring
    rw [hsub]
    obtain ⟨ts, hrun, htiles, hstart, hskin, hlength, hfans⟩ := ih fuel
      (tileEndPt dir startPt st.rawTileLen) st.rawTileLen (acc ++ [st.rawTileLen]) b1
      (by omega) hs1 (by rw [hl1]; exact hp)
    rw [ha1] at hfans
    refine ⟨ts, hrun, ?_, hstart, hskin, by rw [hlength, hl1], ?_⟩
    · rw [htiles, List.replicate_succ]
      simp
    · rw [List.replicate_succ, List.cons_append]
      simp only [tileFans, addTexturedFans, hb1]
      exact hfans

theorem drawPathJoinLoop_total (E : Env R) (L : LineEnv) (st : ResourceStyle) (depth : ℚ)
    (corner : Point) (joinSegTex : List Point) (angleStep ghw : ℚ) (n : Nat) :
    ∀ (startVec prevStartVec : Point) (b : GeometryBatcher R),
      st.m_pageID < b.m_pipelines.length →
      ∃ b1, drawPathJoinLoop E L st depth corner joinSegTex angleStep ghw n startVec prevStartVec
          b = some b1 ∧
        b1.m_skin = b.m_skin ∧ b1.m_pipelines.length = b.m_pipelines.length := by
  induction n with
  | zero =>
    intro startVec prevStartVec b _
    exact ⟨b, rfl, rfl, rfl⟩
  | succ n ih =>
    intro startVec prevStartVec b hp
    obtain ⟨b1, hb1, h1, h2, _⟩ := addTexturedFan_facts E b
      [corner,
       ⟨corner.x + (L.Rotate startVec angleStep).x * ghw,
        corner.y + (L.Rotate startVec angleStep).y * ghw⟩,
       ⟨corner.x + prevStartVec.x * ghw, corner.y + prevStartVec.y * ghw⟩]
      joinSegTex 3 depth st.m_pageID hp (by decide)
    obtain ⟨b2, hb2, h3, h4⟩ := ih (L.Rotate startVec angleStep) (L.Rotate startVec angleStep) b1
      (by rw [h2]; exact hp)
    refine ⟨b2, ?_, by rw [h3, h1], by rw [h4, h2]⟩
    simp only [drawPathJoinLoop, hb1, hb2]

theorem drawPathJoin_total (E : Env R) (L : LineEnv) (st : ResourceStyle) (depth : ℚ)
    (dir norm corner next : Point) (ghw : ℚ) (b : GeometryBatcher R) (skin : Skin)
    (page : SkinPage) (hs : b.m_skin = some skin) (hpg : skin.pages[st.m_pageID]? = some page)
    (hp : st.m_pageID < b.m_pipelines.length) :
    ∃ b1, drawPathJoin E L st depth dir norm corner next ghw b = some b1 ∧
      b1.m_skin = some skin ∧ b1.m_pipelines.length = b.m_pipelines.length := by
  simp only [drawPathJoin, hs, hpg]
  obtain ⟨b1, hb1, h1, h2⟩ := drawPathJoinLoop_total E L st depth corner
    [page.mapPixel st.m_centerColorPixel, page.mapPixel st.m_borderColorPixel,
     page.mapPixel st.m_borderColorPixel]
    (L.atan2 (dir.x * (direction E corner next).y - dir.y * (direction E corner next).x)
        (dir.x * (direction E corner next).x + dir.y * (direction E corner next).y) /
      (angleSegCount E
        (L.atan2 (dir.x * (direction E corner next).y - dir.y * (direction E corner next).x)
          (dir.x * (direction E corner next).x + dir.y * (direction E corner next).y)) : ℚ))
    ghw
    (angleSegCount E
      (L.atan2 (dir.x * (direction E corner next).y - dir.y * (direction E corner next).x)
        (dir.x * (direction E corner next).x + dir.y * (direction E corner next).y))).toNat
    (if L.atan2 (dir.x * (direction E corner next).y - dir.y * (direction E corner next).x)
        (dir.x * (direction E corner next).x + dir.y * (direction E corner next).y) > 0
      then ⟨-norm.x, -norm.y⟩ else norm)
    (if L.atan2 (dir.x * (direction E corner next).y - dir.y * (direction E corner next).x)
        (dir.x * (direction E corner next).x + dir.y * (direction E corner next).y) > 0
      then ⟨-norm.x, -norm.y⟩ else norm) b hp
  exact ⟨b1, hb1, by rw [h1, hs], h2⟩

theorem drawPathSegment_of_tiles (E : Env R) (L : LineEnv) (st : ResourceStyle) (styleID : Nat)
    (depth : ℚ) (fuel : Nat) (points : List Point) (p q : Point) (start : ℚ)
    (b : GeometryBatcher R) (skin : Skin) (page : SkinPage) (ts : TileState R)
    (hp0 : points[0]? = some p) (hp1 : points[1]? = some q)
    (hpg : skin.pages[st.m_pageID]? = some page)
    (hrun : drawPathTiles E st depth (direction E p q) ⟨-(direction E p q).y, (direction E p q).x⟩
      (E.Length q p) ((geomWidth b st : ℚ) / 2) fuel (E.Length q p) p start 0 [] b = some ts)
    (hskin : ts.b.m_skin = some skin) (hp : st.m_pageID < ts.b.m_pipelines.length) :
    ∃ ts1, drawPathSegment E L st styleID depth fuel points points.length 0 start b = some ts1 ∧
      ts1.tiles = ts.tiles ∧ ts1.rawTileStartLen = ts.rawTileStartLen ∧
      ts1.b.m_skin = some skin ∧ ts1.b.m_pipelines.length = ts.b.m_pipelines.length ∧
      (points.length = 2 → ts1 = ts) := by
  have hlen : 2 ≤ points.length := by
    have := (List.getElem?_eq_some.mp hp1).1
    omega
  simp only [drawPathSegment, hp0, hp1, hrun]
  by_cases hj : 0 ≠ points.length - 2 ∧
      (if st.m_isSolid then true else L.atDashOffset styleID ts.rawTileLen) = true
  · rw [if_pos hj]
    have h3 : 2 < points.length := by
      have := hj.1
      omega
    have hp2 : points[0 + 2]? = some (points[2]) := List.getElem?_eq_getElem h3
    obtain ⟨b1, hb1, h1, h2⟩ := drawPathJoin_total E L st depth (direction E p q)
      ⟨-(direction E p q).y, (direction E p q).x⟩ q points[2] ((geomWidth b st : ℚ) / 2) ts.b
      skin page hskin hpg hp
    simp only [hp2, hb1]
    refine ⟨_, rfl, rfl, rfl, h1, h2, ?_⟩
    intro h
    omega
  · rw [if_neg hj]
    exact ⟨ts, rfl, rfl, rfl, hskin, rfl, fun _ => rfl⟩

theorem dashed_tiles_shape (s l : ℚ) (hl : 0 < l) (hs : 0 < s) :
    (List.replicate ⌊s / l⌋₊ l ++
        (if s - (⌊s / l⌋₊ : ℚ) * l = 0 then [] else [s - (⌊s / l⌋₊ : ℚ) * l])).length =
      ⌈s / l⌉₊ ∧
    (∀ k, k + 1 < (List.replicate ⌊s / l⌋₊ l ++
        (if s - (⌊s / l⌋₊ : ℚ) * l = 0 then [] else [s - (⌊s / l⌋₊ : ℚ) * l])).length →
      (List.replicate ⌊s / l⌋₊ l ++
        (if s - (⌊s / l⌋₊ : ℚ) * l = 0 then [] else [s - (⌊s / l⌋₊ : ℚ) * l]))[k]? = some l) ∧
    (List.replicate ⌊s / l⌋₊ l ++
        (if s - (⌊s / l⌋₊ : ℚ) * l = 0 then [] else [s - (⌊s / l⌋₊ : ℚ) * l])).sum = s ∧
    0 ≤ s - (⌊s / l⌋₊ : ℚ) * l ∧ s - (⌊s / l⌋₊ : ℚ) * l < l := by
  have hq : 0 ≤ s / l := le_of_lt (div_pos hs hl)
  have h1 : (⌊s / l⌋₊ : ℚ) ≤ s / l := Nat.floor_le hq
  have h2 : s / l < (⌊s / l⌋₊ : ℚ) + 1 := Nat.lt_floor_add_one (s / l)
  have h1m : (⌊s / l⌋₊ : ℚ) * l ≤ s := by
    have := mul_le_mul_of_nonneg_right h1 (le_of_lt hl)
    rwa [div_mul_cancel₀ s (ne_of_gt hl)] at this
  have h2m : s < ((⌊s / l⌋₊ : ℚ) + 1) * l := by
    have := mul_lt_mul_of_pos_right h2 hl
    rwa [div_mul_cancel₀ s (ne_of_gt hl)] at this
  generalize hn : ⌊s / l⌋₊ = n at *
  refine ⟨?_, ?_, ?_, by linarith, by linarith⟩
  · by_cases hf : s - (n : ℚ) * l = 0
    · have hsl : s / l = (n : ℚ) := by
        rw [div_eq_iff (ne_of_gt hl)]
        linarith
      simp [hf, hsl]
    · have hlt : (n : ℚ) < s / l := by
        rw [lt_div_iff₀ hl]
        exact lt_of_le_of_ne h1m (fun h => hf (by linarith))
      have hceil : ⌈s / l⌉₊ = n + 1 := by
        rw [Nat.ceil_eq_iff (Nat.succ_ne_zero n)]
        refine ⟨by simpa using hlt, ?_⟩
        push_cast
        exact le_of_lt h2
      simp [hf, hceil]
  · intro k hk
    have hkn : k < n := by
      by_cases hf : s - (n : ℚ) * l = 0
      · simpa [hf] using Nat.lt_of_succ_lt hk
      · simp only [hf, if_false, List.length_append, List.length_replicate,
          List.length_singleton] at hk
        omega
    rw [List.getElem?_append_left (by simpa using hkn)]
    simp [List.getElem?_replicate, hkn]
  · by_cases hf : s - (n : ℚ) * l = 0
    · simp [hf]
      linarith
    · simp [hf]

theorem drawPathTiles_solid (E : Env R) (st : ResourceStyle) (depth : ℚ) (dir norm : Point)
    (segLen ghw : ℚ) (fuel : Nat) (startPt : Point) (b : GeometryBatcher R) (skin : Skin)
    (page : SkinPage) (hsolid : st.m_isSolid = true) (hlen : 0 < segLen)
    (hs : b.m_skin = some skin) (hpg : skin.pages[st.m_pageID]? = some page)
    (hp : st.m_pageID < b.m_pipelines.length)
    (hass : nextStartLen st 0 segLen < st.rawTileLen) (hfuel : 2 ≤ fuel) :
    ∃ b1, addTexturedFan E b (tileCoords dir norm startPt segLen ghw)
        (tileTexCoords b.m_aaShift st page 0 segLen) 4 depth st.m_pageID = some b1 ∧
      drawPathTiles E st depth dir norm segLen ghw fuel segLen startPt 0 0 [] b =
        some ⟨b1, nextStartLen st 0 segLen, segLen, [segLen]⟩ := by
  obtain ⟨fuel, rfl⟩ : ∃ k, fuel = k + 2 := ⟨fuel - 2, by omega⟩
  have htile : tileLen st segLen 0 segLen = segLen := by
    simp [tileLen, hsolid]
  obtain ⟨b1, hb1, _, _, _, hstep⟩ := drawPathTiles_step E st depth dir norm segLen ghw (fuel + 1)
    segLen startPt 0 0 [] b skin page hlen hs hpg hp (by rw [htile]; exact hass)
  rw [htile] at hb1 hstep
  refine ⟨b1, hb1, ?_⟩
  rw [hstep, sub_self, drawPathTiles_exit E st depth dir norm segLen ghw fuel 0 _ _ _ _ b1
    (lt_irrefl 0)]
  rfl

/-- Counterexample to C12 as stated: a path of two coincident points has a segment of length 0,
the tiling loop is not entered, and `drawPath` with a solid line style appends nothing although
a fan of 4 vertices and 6 indices fits. -/
theorem drawPath_coincident_points_no_fan :
    lineSkin.fromID 1 = some solidStyle ∧ solidStyle.m_isSolid = true ∧
    solidStyle.m_cat = Category.ELineStyle ∧ hasRoom lineBatcher 4 6 0 = true ∧
    ((lineBatcher.pipeline 0).m_currentVertex, (lineBatcher.pipeline 0).m_currentIndex) = (0, 0) ∧
    (drawPathTrace queueEnv flatLineEnv 2 lineBatcher [⟨3, 5⟩, ⟨3, 5⟩] 2 1 0).map
      (fun r => ((r.1.pipeline 0).m_currentVertex, (r.1.pipeline 0).m_currentIndex, r.2)) =
      some (0, 0, [[]]) ∧
    (drawPath queueEnv flatLineEnv 2 lineBatcher [⟨3, 5⟩, ⟨3, 5⟩] 2 1 0).map
      (fun b1 => ((b1.pipeline 0).m_currentVertex, (b1.pipeline 0).m_currentIndex)) =
      some (0, 0) := by
  refine ⟨rfl, rfl, rfl, by decide, by decide, ?_, ?_⟩ <;> decide!

/-- C12, amended: for a solid line style and a path of exactly two points at positive distance
whose tile passes the assertion of the tiling loop, one call of `drawPath` is exactly one call of
`addTexturedFan` with 4 vertices on the page of the style and no join: one tile as long as the
segment is recorded, and the cursors of the page advance by 4 vertices and 6 indices when the
fan fits, and stand at 4 and 6 after the flush when it does not. -/
theorem drawPath_solid_two_points (E : Env R) (L : LineEnv) (fuel : Nat) (b : GeometryBatcher R)
    (p q : Point) (styleID : Nat) (depth : ℚ) (st : ResourceStyle) (skin : Skin)
    (page : SkinPage) (hskin : b.m_skin = some skin) (hstyle : skin.fromID styleID = some st)
    (hcat : st.m_cat = Category.ELineStyle) (hsolid : st.m_isSolid = true)
    (hpg : skin.pages[st.m_pageID]? = some page) (hp : st.m_pageID < b.m_pipelines.length)
    (hlen : 0 < E.Length q p) (hass : nextStartLen st 0 (E.Length q p) < st.rawTileLen)
    (hfuel : 2 ≤ fuel) :
    ∃ b1, drawPath E L fuel b [p, q] 2 styleID depth = some b1 ∧
      drawPathTrace E L fuel b [p, q] 2 styleID depth = some (b1, [[E.Length q p]]) ∧
      addTexturedFan E b
        (tileCoords (direction E p q) ⟨-(direction E p q).y, (direction E p q).x⟩ p
          (E.Length q p) ((geomWidth b st : ℚ) / 2))
        (tileTexCoords b.m_aaShift st page 0 (E.Length q p)) 4 depth st.m_pageID = some b1 ∧
      (hasRoom b 4 6 st.m_pageID = true →
        (b1.pipeline st.m_pageID).m_currentVertex = (b.pipeline st.m_pageID).m_currentVertex + 4 ∧
        (b1.pipeline st.m_pageID).m_currentIndex = (b.pipeline st.m_pageID).m_currentIndex + 6 ∧
        (∀ j, j ≠ st.m_pageID → b1.pipeline j = b.pipeline j) ∧ b1.log = b.log) ∧
      (hasRoom b 4 6 st.m_pageID = false →
        (b1.pipeline st.m_pageID).m_currentVertex = 4 ∧
        (b1.pipeline st.m_pageID).m_currentIndex = 6) := by
  obtain ⟨b1, hfan, htiles⟩ := drawPathTiles_solid E st depth (direction E p q)
    ⟨-(direction E p q).y, (direction E p q).x⟩ (E.Length q p) ((geomWidth b st : ℚ) / 2) fuel p
    b skin page hsolid hlen hskin hpg hp hass hfuel
  have htrace : drawPathTrace E L fuel b [p, q] 2 styleID depth =
      some (b1, [[E.Length q p]]) := by
    have h22 : (2 : Nat) ≥ 2 := le_refl 2
    simp [drawPathTrace, hskin, hstyle, hcat, drawPathLoop, drawPathSegment, htiles]
  refine ⟨b1, by rw [drawPath, htrace]; rfl, htrace, hfan, ?_, ?_⟩
  · intro hroom
    rw [addTexturedFan_room E b _ _ 4 depth st.m_pageID hp (by decide) hroom] at hfan
    cases hfan
    refine ⟨?_, ?_, ?_, rfl⟩
    · rw [setPipeline_self b _ _ hp]; rfl
    · rw [setPipeline_self b _ _ hp]; rfl
    · intro j hj
      exact setPipeline_other b _ j _ hj
  · intro hroom
    rw [addTexturedFan_no_room E b _ _ 4 depth st.m_pageID hp (by decide) hroom] at hfan
    cases hfan
    have hflen : st.m_pageID < (flush E b (st.m_pageID : Int)).m_pipelines.length := by
      rw [flush_length]; exact hp
    obtain ⟨hv, hi⟩ := flush_page_cursors E b skin st.m_pageID hskin hp
    constructor
    · rw [setPipeline_self _ _ _ hflen]
      simp [writeFan, hv]
    · rw [setPipeline_self _ _ _ hflen]
      simp [writeFan, hi]

theorem drawPath_solid_two_points_witness :
    (0 < queueEnv.Length ⟨3, 0⟩ ⟨0, 0⟩ ∧
      nextStartLen solidStyle 0 (queueEnv.Length ⟨3, 0⟩ ⟨0, 0⟩) < solidStyle.rawTileLen ∧
      hasRoom lineBatcher 4 6 solidStyle.m_pageID = true) ∧
    ∃ b1, drawPath queueEnv flatLineEnv 2 lineBatcher [⟨0, 0⟩, ⟨3, 0⟩] 2 1 0 = some b1 ∧
      drawPathTrace queueEnv flatLineEnv 2 lineBatcher [⟨0, 0⟩, ⟨3, 0⟩] 2 1 0 =
        some (b1, [[queueEnv.Length ⟨3, 0⟩ ⟨0, 0⟩]]) ∧
      (b1.pipeline solidStyle.m_pageID).m_currentVertex =
        (lineBatcher.pipeline solidStyle.m_pageID).m_currentVertex + 4 ∧
      (b1.pipeline solidStyle.m_pageID).m_currentIndex =
        (lineBatcher.pipeline solidStyle.m_pageID).m_currentIndex + 6 :=
  ⟨⟨by decide!, by decide!, by decide⟩,
    (drawPath_solid_two_points queueEnv flatLineEnv 2 lineBatcher ⟨0, 0⟩ ⟨3, 0⟩ 1 0 solidStyle
      lineSkin default rfl rfl rfl rfl rfl (by decide) (by decide!) (by decide!)
      (le_refl 2)).imp
      (fun _ h => ⟨h.1, h.2.1, (h.2.2.2.1 (by decide)).1, (h.2.2.2.1 (by decide)).2.1⟩)⟩

theorem drawPathTextImpl_false_state (E : Env R) (b b1 : GeometryBatcher R) (path : List Point)
    (s fontSize : Nat) (utf8Text : String) (fullLength pathOffset : ℚ) (pos : TextPos)
    (fromMask : Bool) (depth : ℚ) (isFixedFont : Bool)
    (h : drawPathTextImpl E b path s fontSize utf8Text fullLength pathOffset pos fromMask depth
      isFixedFont = some (false, b1)) : b1 = b := by
  unfold drawPathTextImpl at h
  cases hc : pts_array.create E path s fullLength pathOffset with
  | none => simp [hc] at h
  | some arr =>
    cases hs : b.m_skin with
    | none => simp [hc, hs] at h
    | some skin =>
      cases hg : lookupGlyphs skin fontSize fromMask isFixedFont
          (Log2Vis E (E.FromUtf8 utf8Text)) with
      | none => simp [hc, hs, hg] at h
      | some glyphs =>
        simp only [hc, hs, hg] at h
        split at h
        · simp at h; exact h.symm
        · split at h
          · simp at h; exact h.symm
          · split at h
            · simp at h
            · split at h <;> simp at h

/-- C21: with `isMasked = false` the call of `drawPathText` is the unmasked pass alone and
returns its result. With `isMasked = true` the masked pass runs first: when it returns false the
call returns false and leaves the state as it was, so the unmasked pass has not run and no glyph
is emitted; when it returns true the call is the unmasked pass run on the state the masked pass
left, and returns its result. -/
theorem drawPathText_passes (E : Env R) (b : GeometryBatcher R) (path : List Point)
    (s fontSize : Nat) (utf8Text : String) (fullLength pathOffset : ℚ) (pos : TextPos)
    (depth : ℚ) (isFixedFont : Bool) :
    drawPathText E b path s fontSize utf8Text fullLength pathOffset pos false depth isFixedFont =
      drawPathTextImpl E b path s fontSize utf8Text fullLength pathOffset pos false depth
        isFixedFont ∧
    ((drawPathTextImpl E b path s fontSize utf8Text fullLength pathOffset pos true depth
        isFixedFont).map Prod.fst = some false →
      drawPathText E b path s fontSize utf8Text fullLength pathOffset pos true depth isFixedFont =
        some (false, b)) ∧
    ((drawPathTextImpl E b path s fontSize utf8Text fullLength pathOffset pos true depth
        isFixedFont).map Prod.fst = some true →
      ∃ b1, drawPathTextImpl E b path s fontSize utf8Text fullLength pathOffset pos true depth
          isFixedFont = some (true, b1) ∧
        drawPathText E b path s fontSize utf8Text fullLength pathOffset pos true depth
            isFixedFont =
          drawPathTextImpl E b1 path s fontSize utf8Text fullLength pathOffset pos false depth
            isFixedFont) := by
  refine ⟨by simp [drawPathText], ?_, ?_⟩
  · intro h
    cases hm : drawPathTextImpl E b path s fontSize utf8Text fullLength pathOffset pos true depth
        isFixedFont with
    | none => simp [hm] at h
    | some r =>
      obtain ⟨ok, b1⟩ := r
      simp only [hm, Option.map_some', Option.some.injEq] at h
      subst h
      have hb : b1 = b := drawPathTextImpl_false_state E b b1 path s fontSize utf8Text fullLength
        pathOffset pos true depth isFixedFont hm
      subst hb
      simp [drawPathText, hm]
  · intro h
    cases hm : drawPathTextImpl E b path s fontSize utf8Text fullLength pathOffset pos true depth
        isFixedFont with
    | none => simp [hm] at h
    | some r =>
      obtain ⟨ok, b1⟩ := r
      simp only [hm, Option.map_some', Option.some.injEq] at h
      subst h
      exact ⟨b1, rfl, by simp [drawPathText, hm]⟩

theorem drawPathText_passes_witness :
    ((drawPathTextImpl queueEnv maskBatcher [⟨0, 0⟩, ⟨100, 0⟩] 2 10 "a" 100 0
        TextPos.above_line true 0 false).map Prod.fst = some false ∧
      (drawPathTextImpl queueEnv maskBatcher [⟨0, 0⟩, ⟨100, 0⟩] 2 10 "a" 100 0
        TextPos.above_line false 0 false).map
        (fun r => (r.1, (r.2.pipeline 0).m_currentVertex)) = some (true, 4)) ∧
    drawPathText queueEnv maskBatcher [⟨0, 0⟩, ⟨100, 0⟩] 2 10 "a" 100 0 TextPos.above_line true
      0 false = some (false, maskBatcher) ∧
    (drawPathText queueEnv (sampleBatcher 1 16 24) [⟨0, 0⟩, ⟨100, 0⟩] 2 10 "a" 100 0
      TextPos.above_line true 0 false).map
      (fun r => (r.1, (r.2.pipeline 0).m_currentVertex, (r.2.pipeline 0).m_currentIndex)) =
      some (true, 8, 12) :=
  ⟨⟨by decide!, by decide!⟩,
    (drawPathText_passes queueEnv maskBatcher [⟨0, 0⟩, ⟨100, 0⟩] 2 10 "a" 100 0
      TextPos.above_line 0 false).2.1 (by decide!),
    by decide!⟩

theorem nextStartLen_dashed (st : ResourceStyle) (segLen start remain : ℚ)
    (hsolid : st.m_isSolid = false) (hwrapped : st.m_isWrapped = false)
    (h0 : 0 ≤ start) (hL : start < st.rawTileLen) (hrem : 0 < remain) :
    0 < tileLen st segLen start remain ∧
    0 ≤ nextStartLen st start (tileLen st segLen start remain) ∧
    nextStartLen st start (tileLen st segLen start remain) < st.rawTileLen := by
  have htile : tileLen st segLen start remain = min (st.rawTileLen - start) remain := by
    simp [tileLen, hsolid, hwrapped]
  have hpos : 0 < min (st.rawTileLen - start) remain := lt_min (by linarith) hrem
  have hle : min (st.rawTileLen - start) remain ≤ st.rawTileLen - start := min_le_left _ _
  rw [htile]
  refine ⟨hpos, ?_, ?_⟩
  · unfold nextStartLen
    split <;> linarith
  · unfold nextStartLen
    split
    · linarith
    · linarith

theorem drawPathTiles_assert_fails (E : Env R) (st : ResourceStyle) (depth : ℚ)
    (dir norm : Point) (segLen ghw : ℚ) (fuel : Nat) (remain : ℚ) (startPt : Point)
    (startLen lastLen : ℚ) (acc : List ℚ) (b : GeometryBatcher R) (hrem : remain > 0)
    (hass : ¬ nextStartLen st startLen (tileLen st segLen startLen remain) < st.rawTileLen) :
    drawPathTiles E st depth dir norm segLen ghw fuel remain startPt startLen lastLen acc b =
      none := by
  cases fuel with
  | zero => rfl
  | succ fuel => simp only [drawPathTiles, hrem, if_true, hass, if_false]

theorem drawPath_first_tile_assert (E : Env R) (L : LineEnv) (fuel : Nat)
    (b : GeometryBatcher R) (p q : Point) (rest : List Point) (styleID : Nat) (depth : ℚ)
    (st : ResourceStyle) (skin : Skin) (hskin : b.m_skin = some skin)
    (hstyle : skin.fromID styleID = some st) (hlen : 0 < E.Length q p)
    (hass : ¬ nextStartLen st 0 (tileLen st (E.Length q p) 0 (E.Length q p)) < st.rawTileLen) :
    drawPath E L fuel b (p :: q :: rest) (rest.length + 2) styleID depth = none := by
  have htiles := drawPathTiles_assert_fails E st depth (direction E p q)
    ⟨-(direction E p q).y, (direction E p q).x⟩ (E.Length q p) ((geomWidth b st : ℚ) / 2) fuel
    (E.Length q p) p 0 0 [] b hlen hass
  have h2 : rest.length + 2 ≥ 2 := by omega
  have h1 : rest.length + 2 - 1 = rest.length + 1 := by omega
  simp only [drawPath, drawPathTrace, h2, if_true, hskin, hstyle, h1, drawPathLoop,
    drawPathSegment, List.getElem?_cons_zero, zero_add, List.getElem?_cons_succ, htiles]
  split <;> rfl

/-- C22, at the failing input: for the solid line style of `lineSkin` (raw tile length 4) and
the segment from (0,0) to (10,0) the one tile has the length of the segment, the running pattern
offset after it is 10 - 4 = 6, which is not below the raw tile length, and the call of
`drawPath` ends in the failed assertion whatever the bound on the iterations. -/
theorem drawPath_solid_assertion_fails :
    lineSkin.fromID 1 = some solidStyle ∧ solidStyle.m_isSolid = true ∧
    0 < solidStyle.rawTileLen ∧
    tileLen solidStyle (queueEnv.Length ⟨10, 0⟩ ⟨0, 0⟩) 0 (queueEnv.Length ⟨10, 0⟩ ⟨0, 0⟩) = 10 ∧
    nextStartLen solidStyle 0 10 = 6 ∧ ¬ (6 < solidStyle.rawTileLen) ∧
    (∀ fuel, drawPath queueEnv flatLineEnv fuel lineBatcher [⟨0, 0⟩, ⟨10, 0⟩] 2 1 0 = none) := by
  refine ⟨rfl, rfl, by decide!, by decide!, by decide!, by decide!, ?_⟩
  intro fuel
  exact drawPath_first_tile_assert queueEnv flatLineEnv fuel lineBatcher ⟨0, 0⟩ ⟨10, 0⟩ [] 1 0
    solidStyle lineSkin rfl rfl (by decide!) (by decide!)

theorem drawPathJoinLoop_eq_fans (E : Env R) (L : LineEnv) (st : ResourceStyle) (depth : ℚ)
    (corner : Point) (joinSegTex : List Point) (angleStep ghw : ℚ) (n : Nat) :
    ∀ (startVec prevStartVec : Point) (b : GeometryBatcher R),
      drawPathJoinLoop E L st depth corner joinSegTex angleStep ghw n startVec prevStartVec b =
        addTexturedFans E st.m_pageID
          (joinFans L corner joinSegTex angleStep ghw depth n startVec prevStartVec) b := by
  induction n with
  | zero =>
    intro startVec prevStartVec b
    rfl
  | succ n ih =>
    intro startVec prevStartVec b
    simp only [drawPathJoinLoop, joinFans, addTexturedFans]
    cases h : addTexturedFan E b
        [corner,
         ⟨corner.x + (L.Rotate startVec angleStep).x * ghw,
          corner.y + (L.Rotate startVec angleStep).y * ghw⟩,
         ⟨corner.x + prevStartVec.x * ghw, corner.y + prevStartVec.y * ghw⟩]
        joinSegTex 3 depth st.m_pageID with
    | none => rfl
    | some b1 => exact ih _ _ b1

theorem drawPathJoin_eq_fans (E : Env R) (L : LineEnv) (st : ResourceStyle) (depth : ℚ)
    (dir norm corner next : Point) (ghw : ℚ) (b : GeometryBatcher R) (skin : Skin)
    (page : SkinPage) (hs : b.m_skin = some skin) (hpg : skin.pages[st.m_pageID]? = some page) :
    drawPathJoin E L st depth dir norm corner next ghw b =
      addTexturedFans E st.m_pageID (joinFansOf E L st page depth dir norm corner next ghw) b := by
  simp only [drawPathJoin, hs, hpg, drawPathJoinLoop_eq_fans]
  rfl

theorem joinFans_length (L : LineEnv) (corner : Point) (joinSegTex : List Point)
    (angleStep ghw depth : ℚ) (n : Nat) :
    ∀ (startVec prevStartVec : Point),
      (joinFans L corner joinSegTex angleStep ghw depth n startVec prevStartVec).length = n := by
  induction n with
  | zero => intro _ _; rfl
  | succ n ih => intro _ _; simp [joinFans, ih]

theorem joinFans_get (L : LineEnv) (corner : Point) (joinSegTex : List Point)
    (angleStep ghw depth : ℚ) (n : Nat) :
    ∀ (startVec : Point) (j : Nat), j < n →
      (joinFans L corner joinSegTex angleStep ghw depth n startVec startVec)[j]? =
        some ⟨[corner,
             ⟨corner.x + ((fun v => L.Rotate v angleStep)^[j + 1] startVec).x * ghw,
              corner.y + ((fun v => L.Rotate v angleStep)^[j + 1] startVec).y * ghw⟩,
             ⟨corner.x + ((fun v => L.Rotate v angleStep)^[j] startVec).x * ghw,
              corner.y + ((fun v => L.Rotate v angleStep)^[j] startVec).y * ghw⟩],
          joinSegTex, 3, depth⟩ := by
  induction n with
  | zero => intro _ j hj; omega
  | succ n ih =>
    intro startVec j hj
    cases j with
    | zero => simp [joinFans]
    | succ j =>
      simp only [joinFans, List.getElem?_cons_succ]
      rw [ih (L.Rotate startVec angleStep) j (by omega)]
      simp only [Function.iterate_succ, Function.comp_apply]

theorem toInt_intCast (z : Int) : toInt (z : ℚ) = z := by
  unfold toInt
  split
  · exact Int.floor_intCast z
  · exact Int.ceil_intCast z

theorem angleSegCount_eq (E : Env R) (alpha : ℚ) :
    angleSegCount E alpha = ⌈|alpha| / (E.pi / 6)⌉ := by
  unfold angleSegCount
  exact toInt_intCast _

theorem angleSegCount_props (E : Env R) (alpha : ℚ) (hpi : 0 < E.pi) :
    0 ≤ angleSegCount E alpha ∧
    (alpha = 0 → angleSegCount E alpha = 0) ∧
    (alpha ≠ 0 → 1 ≤ angleSegCount E alpha ∧
      |alpha / (angleSegCount E alpha : ℚ)| ≤ E.pi / 6 ∧
      (angleSegCount E alpha : ℚ) * (alpha / (angleSegCount E alpha : ℚ)) = alpha) := by
  rw [angleSegCount_eq]
  have hpi6 : 0 < E.pi / 6 := by linarith
  have hq : 0 ≤ |alpha| / (E.pi / 6) := div_nonneg (abs_nonneg alpha) (le_of_lt hpi6)
  refine ⟨Int.ceil_nonneg hq, ?_, ?_⟩
  · intro h0
    simp [h0]
  · intro hne
    have habs : 0 < |alpha| := abs_pos.mpr hne
    have hpos : 0 < |alpha| / (E.pi / 6) := div_pos habs hpi6
    have hc : 0 < ⌈|alpha| / (E.pi / 6)⌉ := Int.ceil_pos.mpr hpos
    have hcq : (0 : ℚ) < (⌈|alpha| / (E.pi / 6)⌉ : ℚ) := by exact_mod_cast hc
    have hle : |alpha| / (E.pi / 6) ≤ (⌈|alpha| / (E.pi / 6)⌉ : ℚ) := Int.le_ceil _
    refine ⟨hc, ?_, ?_⟩
    · rw [abs_div, abs_of_pos hcq, div_le_iff₀ hcq]
      rw [div_le_iff₀ hpi6] at hle
      linarith
    · field_simp

theorem joinFans_sums (L : LineEnv) (corner : Point) (joinSegTex : List Point)
    (angleStep ghw depth : ℚ) (n : Nat) :
    ∀ (startVec prevStartVec : Point),
      (∀ f ∈ joinFans L corner joinSegTex angleStep ghw depth n startVec prevStartVec,
        3 ≤ f.size) ∧
      ((joinFans L corner joinSegTex angleStep ghw depth n startVec prevStartVec).map
        (fun f => f.size)).sum = 3 * n ∧
      ((joinFans L corner joinSegTex angleStep ghw depth n startVec prevStartVec).map
        (fun f => 3 * (f.size - 2))).sum = 3 * n := by
  induction n with
  | zero => intro _ _; simp [joinFans]
  | succ n ih =>
    intro startVec prevStartVec
    obtain ⟨h1, h2, h3⟩ := ih (L.Rotate startVec angleStep) (L.Rotate startVec angleStep)
    refine ⟨?_, ?_, ?_⟩
    · intro f hf
      simp only [joinFans, List.mem_cons] at hf
      rcases hf with hf | hf
      · rw [hf]
      · exact h1 f hf
    · simp only [joinFans, List.map_cons, List.sum_cons, h2]
      omega
    · simp only [joinFans, List.map_cons, List.sum_cons, h3]
      omega

theorem drawPathSegment_eq (E : Env R) (L : LineEnv) (st : ResourceStyle) (styleID : Nat)
    (depth : ℚ) (fuel : Nat) (points : List Point) (pointsCount i : Nat) (start : ℚ)
    (b : GeometryBatcher R) (p q : Point) (ts : TileState R)
    (hp0 : points[i]? = some p) (hp1 : points[i + 1]? = some q)
    (hrun : drawPathTiles E st depth (direction E p q) ⟨-(direction E p q).y, (direction E p q).x⟩
      (E.Length q p) ((geomWidth b st : ℚ) / 2) fuel (E.Length q p) p start 0 [] b = some ts) :
    drawPathSegment E L st styleID depth fuel points pointsCount i start b =
      if i ≠ pointsCount - 2 ∧
          (if st.m_isSolid then true else L.atDashOffset styleID ts.rawTileLen) = true then
        match points[i + 2]? with
        | none => none
        | some next =>
          (drawPathJoin E L st depth (direction E p q)
            ⟨-(direction E p q).y, (direction E p q).x⟩ q next ((geomWidth b st : ℚ) / 2)
            ts.b).map (fun b1 => { ts with b := b1 })
      else some ts := by
  simp only [drawPathSegment, hp0, hp1, hrun]
  by_cases hj : i ≠ pointsCount - 2 ∧
      (if st.m_isSolid then true else L.atDashOffset styleID ts.rawTileLen) = true
  · rw [if_pos hj, if_pos hj]
    cases points[i + 2]? with
    | none => rfl
    | some next =>
      simp only
      cases drawPathJoin E L st depth (direction E p q)
        ⟨-(direction E p q).y, (direction E p q).x⟩ q next ((geomWidth b st : ℚ) / 2) ts.b <;> rfl
  · rw [if_neg hj, if_neg hj]

/-- C23: at a vertex of `drawPath` between segment `i` and the next one, with turn angle `alpha`
computed from the two directions, a join that is emitted is the sequence of calls of
`addTexturedFan` for `ceil (|alpha| / (pi / 6))` fans of 3 vertices on the page of the style:
fan `j` has the shared vertex as its first vertex and spans the start vector rotated `j` and
`j + 1` times by `angleStep = alpha / count`; the calls all return, and advance the cursors of
the page by 3 vertices and 3 indices each when they fit. For `alpha != 0` the count is at least
1, `|angleStep| <= pi / 6` and `count * angleStep = alpha`; for `alpha = 0` there is no fan.
After the last segment (`i = pointsCount - 2`) no join is emitted. -/
theorem drawPath_join (E : Env R) (L : LineEnv) (st : ResourceStyle) (styleID : Nat)
    (depth : ℚ) (fuel : Nat) (points : List Point) (pointsCount i : Nat) (start : ℚ)
    (b : GeometryBatcher R) (p q next : Point) (skin : Skin) (page : SkinPage)
    (ts : TileState R) (hpi : 0 < E.pi)
    (hp0 : points[i]? = some p) (hp1 : points[i + 1]? = some q)
    (hrun : drawPathTiles E st depth (direction E p q) ⟨-(direction E p q).y, (direction E p q).x⟩
      (E.Length q p) ((geomWidth b st : ℚ) / 2) fuel (E.Length q p) p start 0 [] b = some ts)
    (hskin : ts.b.m_skin = some skin) (hpg : skin.pages[st.m_pageID]? = some page)
    (hp : st.m_pageID < ts.b.m_pipelines.length) :
    (i ≠ pointsCount - 2 →
      (if st.m_isSolid then true else L.atDashOffset styleID ts.rawTileLen) = true →
      points[i + 2]? = some next →
      drawPathSegment E L st styleID depth fuel points pointsCount i start b =
        (addTexturedFans E st.m_pageID
          (joinFansOf E L st page depth (direction E p q)
            ⟨-(direction E p q).y, (direction E p q).x⟩ q next ((geomWidth b st : ℚ) / 2))
          ts.b).map (fun b1 => { ts with b := b1 })) ∧
    (∃ b1, addTexturedFans E st.m_pageID
        (joinFansOf E L st page depth (direction E p q)
          ⟨-(direction E p q).y, (direction E p q).x⟩ q next ((geomWidth b st : ℚ) / 2))
        ts.b = some b1 ∧
      (fansFit E st.m_pageID
          (joinFansOf E L st page depth (direction E p q)
            ⟨-(direction E p q).y, (direction E p q).x⟩ q next ((geomWidth b st : ℚ) / 2))
          ts.b = true →
        (b1.pipeline st.m_pageID).m_currentVertex =
          (ts.b.pipeline st.m_pageID).m_currentVertex +
            3 * ⌈|joinAngle E L (direction E p q) q next| / (E.pi / 6)⌉.toNat ∧
        (b1.pipeline st.m_pageID).m_currentIndex =
          (ts.b.pipeline st.m_pageID).m_currentIndex +
            3 * ⌈|joinAngle E L (direction E p q) q next| / (E.pi / 6)⌉.toNat)) ∧
    ((joinFansOf E L st page depth (direction E p q)
        ⟨-(direction E p q).y, (direction E p q).x⟩ q next
        ((geomWidth b st : ℚ) / 2)).length : Int) =
      ⌈|joinAngle E L (direction E p q) q next| / (E.pi / 6)⌉ ∧
    (∀ j, j < (joinFansOf E L st page depth (direction E p q)
        ⟨-(direction E p q).y, (direction E p q).x⟩ q next
        ((geomWidth b st : ℚ) / 2)).length →
      (joinFansOf E L st page depth (direction E p q)
        ⟨-(direction E p q).y, (direction E p q).x⟩ q next ((geomWidth b st : ℚ) / 2))[j]? =
        some ⟨[q,
          ⟨q.x + ((fun v => L.Rotate v (joinAngle E L (direction E p q) q next /
                (⌈|joinAngle E L (direction E p q) q next| / (E.pi / 6)⌉ : ℚ)))^[j + 1]
              (joinStartVec (joinAngle E L (direction E p q) q next)
                ⟨-(direction E p q).y, (direction E p q).x⟩)).x * ((geomWidth b st : ℚ) / 2),
           q.y + ((fun v => L.Rotate v (joinAngle E L (direction E p q) q next /
                (⌈|joinAngle E L (direction E p q) q next| / (E.pi / 6)⌉ : ℚ)))^[j + 1]
              (joinStartVec (joinAngle E L (direction E p q) q next)
                ⟨-(direction E p q).y, (direction E p q).x⟩)).y * ((geomWidth b st : ℚ) / 2)⟩,
          ⟨q.x + ((fun v => L.Rotate v (joinAngle E L (direction E p q) q next /
                (⌈|joinAngle E L (direction E p q) q next| / (E.pi / 6)⌉ : ℚ)))^[j]
              (joinStartVec (joinAngle E L (direction E p q) q next)
                ⟨-(direction E p q).y, (direction E p q).x⟩)).x * ((geomWidth b st : ℚ) / 2),
           q.y + ((fun v => L.Rotate v (joinAngle E L (direction E p q) q next /
                (⌈|joinAngle E L (direction E p q) q next| / (E.pi / 6)⌉ : ℚ)))^[j]
              (joinStartVec (joinAngle E L (direction E p q) q next)
                ⟨-(direction E p q).y, (direction E p q).x⟩)).y * ((geomWidth b st : ℚ) / 2)⟩],
          joinSegTexOf st page, 3, depth⟩) ∧
    (joinAngle E L (direction E p q) q next ≠ 0 →
      1 ≤ ⌈|joinAngle E L (direction E p q) q next| / (E.pi / 6)⌉ ∧
      |joinAngle E L (direction E p q) q next /
          (⌈|joinAngle E L (direction E p q) q next| / (E.pi / 6)⌉ : ℚ)| ≤ E.pi / 6 ∧
      (⌈|joinAngle E L (direction E p q) q next| / (E.pi / 6)⌉ : ℚ) *
          (joinAngle E L (direction E p q) q next /
            (⌈|joinAngle E L (direction E p q) q next| / (E.pi / 6)⌉ : ℚ)) =
        joinAngle E L (direction E p q) q next) ∧
    (joinAngle E L (direction E p q) q next = 0 →
      joinFansOf E L st page depth (direction E p q)
        ⟨-(direction E p q).y, (direction E p q).x⟩ q next ((geomWidth b st : ℚ) / 2) = []) ∧
    (i = pointsCount - 2 →
      drawPathSegment E L st styleID depth fuel points pointsCount i start b = some ts) := by
  have hseg := drawPathSegment_eq E L st styleID depth fuel points pointsCount i start b p q ts
    hp0 hp1 hrun
  have hfans := drawPathJoin_eq_fans E L st depth (direction E p q)
    ⟨-(direction E p q).y, (direction E p q).x⟩ q next ((geomWidth b st : ℚ) / 2) ts.b skin page
    hskin hpg
  obtain ⟨hc0, hczero, hcne⟩ := angleSegCount_props E (joinAngle E L (direction E p q) q next) hpi
  have hceq := angleSegCount_eq E (joinAngle E L (direction E p q) q next)
  have hlen : (joinFansOf E L st page depth (direction E p q)
      ⟨-(direction E p q).y, (direction E p q).x⟩ q next ((geomWidth b st : ℚ) / 2)).length =
      ⌈|joinAngle E L (direction E p q) q next| / (E.pi / 6)⌉.toNat := by
    rw [joinFansOf, joinFans_length, hceq]
  obtain ⟨hsz, hsumv, hsumi⟩ := joinFans_sums L q (joinSegTexOf st page)
    (joinAngle E L (direction E p q) q next /
      (angleSegCount E (joinAngle E L (direction E p q) q next) : ℚ))
    ((geomWidth b st : ℚ) / 2) depth
    (angleSegCount E (joinAngle E L (direction E p q) q next)).toNat
    (joinStartVec (joinAngle E L (direction E p q) q next)
      ⟨-(direction E p q).y, (direction E p q).x⟩)
    (joinStartVec (joinAngle E L (direction E p q) q next)
      ⟨-(direction E p q).y, (direction E p q).x⟩)
  refine ⟨?_, ?_, ?_, ?_, ?_, ?_, ?_⟩
  · intro hi hjoin hnext
    rw [hseg, if_pos ⟨hi, hjoin⟩, hnext]
    simp only [hfans]
  · obtain ⟨b1, hb1, _, _⟩ := drawPathJoin_total E L st depth (direction E p q)
      ⟨-(direction E p q).y, (direction E p q).x⟩ q next ((geomWidth b st : ℚ) / 2) ts.b skin
      page hskin hpg hp
    rw [hfans] at hb1
    refine ⟨b1, hb1, ?_⟩
    intro hfit
    obtain ⟨b2, hb2, _, _, hv, hi, _⟩ := addTexturedFans_room E st.m_pageID _ ts.b hp hsz hfit
    have hb : addTexturedFans E st.m_pageID
        (joinFansOf E L st page depth (direction E p q)
          ⟨-(direction E p q).y, (direction E p q).x⟩ q next ((geomWidth b st : ℚ) / 2))
        ts.b = some b2 := hb2
    rw [hb1] at hb
    cases hb
    rw [hsumv] at hv
    rw [hsumi] at hi
    rw [hceq] at hv hi
    exact ⟨hv, hi⟩
  · rw [hlen]
    rw [hceq] at hc0
    exact Int.toNat_of_nonneg hc0
  · intro j hj
    rw [hlen, ← hceq] at hj
    rw [← hceq]
    exact joinFans_get L q (joinSegTexOf st page) _ ((geomWidth b st : ℚ) / 2) depth _ _ j hj
  · intro hne
    rw [← hceq]
    exact hcne hne
  · intro h0
    rw [joinFansOf, hczero h0]
    rfl
  · intro hi
    rw [hseg, if_neg (fun h => h.1 hi)]

theorem drawPath_join_witness :
    (0 < queueEnv.pi ∧
      joinAngle queueEnv turnLineEnv (direction queueEnv ⟨0, 0⟩ ⟨3, 0⟩) ⟨3, 0⟩ ⟨3, 3⟩ = 1) ∧
    ((joinFansOf queueEnv turnLineEnv solidStyle default 0 (direction queueEnv ⟨0, 0⟩ ⟨3, 0⟩)
        ⟨-(direction queueEnv ⟨0, 0⟩ ⟨3, 0⟩).y, (direction queueEnv ⟨0, 0⟩ ⟨3, 0⟩).x⟩ ⟨3, 0⟩
        ⟨3, 3⟩ ((geomWidth lineBatcher solidStyle : ℚ) / 2)).length : Int) = 2 ∧
    (drawPath queueEnv turnLineEnv 2 lineBatcher [⟨0, 0⟩, ⟨3, 0⟩, ⟨3, 3⟩] 3 1 0).map
      (fun b1 => ((b1.pipeline 0).m_currentVertex, (b1.pipeline 0).m_currentIndex)) =
      some (14, 18) := by
  obtain ⟨b1, hfan, htiles⟩ := drawPathTiles_solid queueEnv solidStyle 0
    (direction queueEnv ⟨0, 0⟩ ⟨3, 0⟩)
    ⟨-(direction queueEnv ⟨0, 0⟩ ⟨3, 0⟩).y, (direction queueEnv ⟨0, 0⟩ ⟨3, 0⟩).x⟩
    (queueEnv.Length ⟨3, 0⟩ ⟨0, 0⟩) ((geomWidth lineBatcher solidStyle : ℚ) / 2) 2 ⟨0, 0⟩
    lineBatcher lineSkin default rfl (by decide!) rfl rfl (by decide) (by decide!) (le_refl 2)
  obtain ⟨b2, hfan2, hsk, hlen, _⟩ := addTexturedFan_facts queueEnv lineBatcher
    (tileCoords (direction queueEnv ⟨0, 0⟩ ⟨3, 0⟩)
      ⟨-(direction queueEnv ⟨0, 0⟩ ⟨3, 0⟩).y, (direction queueEnv ⟨0, 0⟩ ⟨3, 0⟩).x⟩ ⟨0, 0⟩
      (queueEnv.Length ⟨3, 0⟩ ⟨0, 0⟩) ((geomWidth lineBatcher solidStyle : ℚ) / 2))
    (tileTexCoords lineBatcher.m_aaShift solidStyle default 0 (queueEnv.Length ⟨3, 0⟩ ⟨0, 0⟩))
    4 0 solidStyle.m_pageID (by decide) (by decide)
  rw [hfan] at hfan2
  cases hfan2
  have h := drawPath_join queueEnv turnLineEnv solidStyle 1 0 2 [⟨0, 0⟩, ⟨3, 0⟩, ⟨3, 3⟩] 3 0 0
    lineBatcher ⟨0, 0⟩ ⟨3, 0⟩ ⟨3, 3⟩ lineSkin default _ (by decide!) rfl rfl htiles
    (hsk.trans rfl) rfl (by rw [hlen]; decide)
  exact ⟨⟨by decide!, by decide!⟩, h.2.2.1.trans (by decide!), by decide!⟩

theorem pts_array_get_some (arr : pts_array) (i : Nat) (harr : arr.m_size ≤ arr.m_arr.length)
    (hi : i < arr.m_size) : ∃ q, arr.get i = some q := by
  unfold pts_array.get
  rw [if_pos hi]
  have hidx : (if arr.m_reverse then arr.m_size - i - 1 else i) < arr.m_arr.length := by
    split <;> omega
  exact ⟨_, List.getElem?_eq_getElem hidx⟩

theorem remainingLength_nonneg (E : Env R) (arr : pts_array)
    (hlen : ∀ p q, 0 ≤ E.Length p q) (n : Nat) :
    ∀ ind pt, 0 ≤ remainingLength E arr n ind pt := by
  induction n with
  | zero => intro _ _; exact le_refl 0
  | succ n ih =>
    intro ind pt
    unfold remainingLength
    cases arr.get (ind + 1) with
    | none => exact le_refl 0
    | some q => exact add_nonneg (hlen q pt) (ih (ind + 1) q)

theorem calcLoop_spec (E : Env R) (arr : pts_array) (harr : arr.m_size ≤ arr.m_arr.length)
    (hlen : ∀ p q, 0 ≤ E.Length p q) (k : Nat) :
    ∀ (ind : Nat) (offset : ℚ) (pt : Point) (fuel : Nat),
      ind + 1 + k = arr.size → k + 1 ≤ fuel → (0 < k ∨ 0 ≤ offset) →
      ∃ ok off1 ind1 pt1,
        calcLoop E arr fuel offset ind pt = some (ok, off1, ind1, pt1) ∧
        calcLoop E arr (k + 1) offset ind pt = some (ok, off1, ind1, pt1) ∧
        ind ≤ ind1 ∧ ind1 + 1 ≤ arr.size ∧ (ok = true → ind1 + 1 < arr.size) ∧
        (ok = false ↔ offset ≥ remainingLength E arr k ind pt) := by
  induction k with
  | zero =>
    intro ind offset pt fuel hk hfuel hoff
    obtain ⟨fuel, rfl⟩ : ∃ f, fuel = f + 1 := ⟨fuel - 1, by omega⟩
    have hend : ind + 1 = arr.size := by omega
    have h0 : 0 ≤ offset := by
      rcases hoff with h | h
      · omega
      · exact h
    refine ⟨false, offset, ind, pt, ?_, ?_, le_refl _, by omega, by simp, ?_⟩
    · simp only [calcLoop, hend, if_true]
    · simp only [calcLoop, hend, if_true]
    · simp only [remainingLength, true_iff]
      exact h0
  | succ k ih =>
    intro ind offset pt fuel hk hfuel _
    obtain ⟨fuel, rfl⟩ : ∃ f, fuel = f + 1 := ⟨fuel - 1, by omega⟩
    have hne : ¬ (ind + 1 = arr.size) := by omega
    have hsz : arr.size = arr.m_size := rfl
    obtain ⟨q, hq⟩ := pts_array_get_some arr (ind + 1) harr (by omega)
    have hrest := remainingLength_nonneg E arr hlen k (ind + 1) q
    by_cases hlt : offset < E.Length q pt
    · refine ⟨true, offset, ind, pt, ?_, ?_, le_refl _, by omega, fun _ => by omega, ?_⟩
      · simp only [calcLoop, hne, if_false, hq, hlt, if_true]
      · simp only [calcLoop, hne, if_false, hq, hlt, if_true]
      · simp only [remainingLength, hq]
        constructor
        · intro h; simp at h
        · intro h; linarith
    · obtain ⟨ok, off1, ind1, pt1, hrun, hrun1, h1, h2, h3, h4⟩ := ih (ind + 1)
        (offset - E.Length q pt) q fuel (by omega) (by omega) (Or.inr (by linarith))
      refine ⟨ok, off1, ind1, pt1, ?_, ?_, by omega, h2, h3, ?_⟩
      · simp only [calcLoop, hne, if_false, hq, hlt]
        exact hrun
      · simp only [calcLoop, hne, if_false, hq, hlt]
        exact hrun1
      · simp only [remainingLength, hq]
        rw [h4]
        constructor <;> intro h <;> linarith

theorem onSegment_next (arr : pts_array) (ind : Nat) (pt : Point)
    (hon : arr.onSegment ind pt = true) : ind + 1 < arr.size := by
  unfold pts_array.onSegment at hon
  cases h0 : arr.get ind with
  | none => simp [h0] at hon
  | some p =>
    cases h1 : arr.get (ind + 1) with
    | none => simp [h0, h1] at hon
    | some q =>
      unfold pts_array.get at h1
      by_cases hlt : ind + 1 < arr.m_size
      · exact hlt
      · simp [hlt] at h1

/-- C24: for a path of at least 2 points that are all present, an index `ind < size` and a point
`pt` on the segment that starts at `arr[ind]`, with distances that are not negative,
`CalcPointAndAngle` returns: its loop needs no more than `size - ind` passes, that is at most
`size - 1 - ind` advances of `ind` and the pass that leaves the loop, every read of the path is
at an index below `size` (a read elsewhere would end the call without a result), `ind` does not
decrease and stays below `size`, the result is false exactly when `offset` is at least the
remaining length of the path from `pt`, and `ind + 1 < size` holds when it is true. -/
theorem CalcPointAndAngle_walk (E : Env R) (arr : pts_array) (offset : ℚ) (ind : Nat)
    (pt : Point) (angle : ℚ) (hsize : 2 ≤ arr.size) (harr : arr.m_size ≤ arr.m_arr.length)
    (hind : ind < arr.size) (hon : arr.onSegment ind pt = true)
    (hlen : ∀ p q, 0 ≤ E.Length p q) :
    ∃ r, CalcPointAndAngle E arr offset ind pt angle = some r ∧
      calcLoop E arr (arr.size - ind) offset ind pt =
        calcLoop E arr (arr.size + 1) offset ind pt ∧
      ind ≤ r.ind ∧ r.ind - ind ≤ arr.size - 1 - ind ∧ r.ind < arr.size ∧
      (r.ok = false ↔ offset ≥ remainingLength E arr (arr.size - 1 - ind) ind pt) ∧
      (r.ok = true → r.ind + 1 < arr.size) := by
  have hnext := onSegment_next arr ind pt hon
  have hk : ind + 1 + (arr.size - 1 - ind) = arr.size := by omega
  have hk1 : arr.size - 1 - ind + 1 = arr.size - ind := by omega
  have hsz : arr.size = arr.m_size := rfl
  have h2 : 2 ≤ arr.size := hsize
  have h3 : ind < arr.size := hind
  obtain ⟨ok, off1, ind1, pt1, hrun, hrun1, hle, hle1, htrue, hiff⟩ := calcLoop_spec E arr harr
    hlen (arr.size - 1 - ind) ind offset pt (arr.size + 1) hk (by omega) (Or.inl (by omega))
  rw [hk1] at hrun1
  cases ok with
  | false =>
    refine ⟨⟨false, off1, ind1, pt1, angle⟩, ?_, by rw [hrun, hrun1], hle,
      (by show ind1 - ind ≤ arr.size - 1 - ind; omega), (by show ind1 < arr.size; omega),
      hiff, fun h => by simp at h⟩
    simp only [CalcPointAndAngle, hrun]
  | true =>
    have hlt := htrue rfl
    obtain ⟨q, hq⟩ := pts_array_get_some arr (ind1 + 1) harr (by omega)
    refine ⟨⟨true, off1, ind1,
      E.Move pt1 off1 (if ind ≠ ind1 ∨ angle = angle_not_inited then E.AngleTo pt1 q else angle),
      if ind ≠ ind1 ∨ angle = angle_not_inited then E.AngleTo pt1 q else angle⟩, ?_,
      by rw [hrun, hrun1], hle, (by show ind1 - ind ≤ arr.size - 1 - ind; omega),
      (by show ind1 < arr.size; omega), hiff, fun _ => hlt⟩
    simp only [CalcPointAndAngle, hrun, hq]

theorem CalcPointAndAngle_walk_witness :
    (pts_array.onSegment ⟨[⟨0, 0⟩, ⟨100, 0⟩, ⟨100, 50⟩], 3, false⟩ 0 ⟨20, 0⟩ = true ∧
      remainingLength queueEnv ⟨[⟨0, 0⟩, ⟨100, 0⟩, ⟨100, 50⟩], 3, false⟩ 2 0 ⟨20, 0⟩ = 130) ∧
    (∃ r, CalcPointAndAngle queueEnv ⟨[⟨0, 0⟩, ⟨100, 0⟩, ⟨100, 50⟩], 3, false⟩ 130 0 ⟨20, 0⟩
        angle_not_inited = some r ∧ r.ok = false) ∧
    (CalcPointAndAngle queueEnv ⟨[⟨0, 0⟩, ⟨100, 0⟩, ⟨100, 50⟩], 3, false⟩ 100 0 ⟨20, 0⟩
      angle_not_inited).map (fun r => (r.ok, r.ind, r.offset)) = some (true, 1, 20) :=
  ⟨⟨by decide!, by decide!⟩,
    (CalcPointAndAngle_walk queueEnv ⟨[⟨0, 0⟩, ⟨100, 0⟩, ⟨100, 50⟩], 3, false⟩ 130 0 ⟨20, 0⟩
      angle_not_inited (by decide) (by decide) (by decide) (by decide!)
      (fun _ _ => add_nonneg (abs_nonneg _) (abs_nonneg _))).imp
      (fun _ h => ⟨h.1, h.2.2.2.2.2.1.mpr (by decide!)⟩),
    by decide!⟩

theorem storeFanIndices_get (v i m j : Nat) (mem : Nat → Nat) (hj : j < m) :
    storeFanIndices v i m mem (i + j * 3) = v % indexModulus ∧
    storeFanIndices v i m mem (i + j * 3 + 1) = (v + j + 1) % indexModulus ∧
    storeFanIndices v i m mem (i + j * 3 + 2) = (v + j + 2) % indexModulus := by
  induction m with
  | zero => omega
  | succ m ih =>
    simp only [storeFanIndices]
    by_cases hjm : j = m
    · subst hjm
      refine ⟨?_, ?_, ?_⟩
      · rw [Function.update_noteq (by omega), Function.update_noteq (by omega),
          Function.update_same]
      · rw [Function.update_noteq (by omega), Function.update_same]
      · rw [Function.update_same]
    · obtain ⟨h0, h1, h2⟩ := ih (by omega)
      refine ⟨?_, ?_, ?_⟩
      · rw [Function.update_noteq (by omega), Function.update_noteq (by omega),
          Function.update_noteq (by omega)]
        exact h0
      · rw [Function.update_noteq (by omega), Function.update_noteq (by omega),
          Function.update_noteq (by omega)]
        exact h1
      · rw [Function.update_noteq (by omega), Function.update_noteq (by omega),
          Function.update_noteq (by omega)]
        exact h2

theorem writeFan_index (pl : GeometryPipeline) (coords texCoords : List Point) (n : Nat)
    (depth : ℚ) (j : Nat) (hj : j + 3 ≤ n) :
    (writeFan pl coords texCoords n depth).m_storage.indices (pl.m_currentIndex + j * 3) =
      pl.m_currentVertex % indexModulus ∧
    (writeFan pl coords texCoords n depth).m_storage.indices (pl.m_currentIndex + j * 3 + 1) =
      (pl.m_currentVertex + j + 1) % indexModulus ∧
    (writeFan pl coords texCoords n depth).m_storage.indices (pl.m_currentIndex + j * 3 + 2) =
      (pl.m_currentVertex + j + 2) % indexModulus := by
  simp only [writeFan]
  exact storeFanIndices_get pl.m_currentVertex pl.m_currentIndex (n - 2) j _ (by omega)

/-- C25: a call of `addTexturedFan` with `n >= 3` vertices that writes at vertex offset `v` and
index offset `i` (the cursors of the page after the flush the call may make) with
`v + n <= 65536` returns, stores vertex `k` of the fan at `v + k`, and stores for every
`j <= n - 3` the indices `v`, `v + j + 1`, `v + j + 2` at the slots `i + 3j`, `i + 3j + 1`,
`i + 3j + 2`: every triangle has the hub `v`, and each of the `3 (n - 2)` stored indices lies
in `[v, v + n)`. -/
theorem addTexturedFan_indices (E : Env R) (b : GeometryBatcher R) (coords texCoords : List Point)
    (n : Nat) (depth : ℚ) (p : Nat) (hp : p < b.m_pipelines.length) (hn : 3 ≤ n)
    (h16 : ((makeRoom E b n ((n - 2) * 3) p).pipeline p).m_currentVertex + n ≤ 65536) :
    ∃ b1, addTexturedFan E b coords texCoords n depth p = some b1 ∧
      (b1.pipeline p).m_currentVertex =
        ((makeRoom E b n ((n - 2) * 3) p).pipeline p).m_currentVertex + n ∧
      (b1.pipeline p).m_currentIndex =
        ((makeRoom E b n ((n - 2) * 3) p).pipeline p).m_currentIndex + (n - 2) * 3 ∧
      (∀ k, k < n →
        (b1.pipeline p).m_storage.vertices
            (((makeRoom E b n ((n - 2) * 3) p).pipeline p).m_currentVertex + k) =
          { pt := coords.getD k default, tex := texCoords.getD k default, depth := depth }) ∧
      (∀ j, j + 3 ≤ n →
        (b1.pipeline p).m_storage.indices
            (((makeRoom E b n ((n - 2) * 3) p).pipeline p).m_currentIndex + j * 3) =
          ((makeRoom E b n ((n - 2) * 3) p).pipeline p).m_currentVertex ∧
        (b1.pipeline p).m_storage.indices
            (((makeRoom E b n ((n - 2) * 3) p).pipeline p).m_currentIndex + j * 3 + 1) =
          ((makeRoom E b n ((n - 2) * 3) p).pipeline p).m_currentVertex + j + 1 ∧
        (b1.pipeline p).m_storage.indices
            (((makeRoom E b n ((n - 2) * 3) p).pipeline p).m_currentIndex + j * 3 + 2) =
          ((makeRoom E b n ((n - 2) * 3) p).pipeline p).m_currentVertex + j + 2) ∧
      (∀ k, k < (n - 2) * 3 →
        ((makeRoom E b n ((n - 2) * 3) p).pipeline p).m_currentVertex ≤
          (b1.pipeline p).m_storage.indices
            (((makeRoom E b n ((n - 2) * 3) p).pipeline p).m_currentIndex + k) ∧
        (b1.pipeline p).m_storage.indices
            (((makeRoom E b n ((n - 2) * 3) p).pipeline p).m_currentIndex + k) <
          ((makeRoom E b n ((n - 2) * 3) p).pipeline p).m_currentVertex + n) := by
  have hp1 : p < (makeRoom E b n ((n - 2) * 3) p).m_pipelines.length := by
    rw [makeRoom_length]; exact hp
  have hM : indexModulus = 65536 := rfl
  have htriple : ∀ j, j + 3 ≤ n →
      (writeFan ((makeRoom E b n ((n - 2) * 3) p).pipeline p) coords texCoords n
          depth).m_storage.indices
          (((makeRoom E b n ((n - 2) * 3) p).pipeline p).m_currentIndex + j * 3) =
        ((makeRoom E b n ((n - 2) * 3) p).pipeline p).m_currentVertex ∧
      (writeFan ((makeRoom E b n ((n - 2) * 3) p).pipeline p) coords texCoords n
          depth).m_storage.indices
          (((makeRoom E b n ((n - 2) * 3) p).pipeline p).m_currentIndex + j * 3 + 1) =
        ((makeRoom E b n ((n - 2) * 3) p).pipeline p).m_currentVertex + j + 1 ∧
      (writeFan ((makeRoom E b n ((n - 2) * 3) p).pipeline p) coords texCoords n
          depth).m_storage.indices
          (((makeRoom E b n ((n - 2) * 3) p).pipeline p).m_currentIndex + j * 3 + 2) =
        ((makeRoom E b n ((n - 2) * 3) p).pipeline p).m_currentVertex + j + 2 := by
    intro j hj
    obtain ⟨h0, h1, h2⟩ := writeFan_index ((makeRoom E b n ((n - 2) * 3) p).pipeline p) coords
      texCoords n depth j hj
    rw [h0, h1, h2, hM]
    exact ⟨Nat.mod_eq_of_lt (by omega), Nat.mod_eq_of_lt (by omega),
      Nat.mod_eq_of_lt (by omega)⟩
  refine ⟨_, addTexturedFan_eq E b coords texCoords n depth p hp (by omega), ?_, ?_, ?_, ?_, ?_⟩
  · rw [setPipeline_self _ _ _ hp1]; rfl
  · rw [setPipeline_self _ _ _ hp1]; rfl
  · intro k hk
    rw [setPipeline_self _ _ _ hp1]
    exact writeFan_vertex _ coords texCoords n depth k hk
  · intro j hj
    rw [setPipeline_self _ _ _ hp1]
    exact htriple j hj
  · intro k hk
    rw [setPipeline_self _ _ _ hp1]
    obtain ⟨h0, h1, h2⟩ := htriple (k / 3) (by omega)
    have hsplit : k = k / 3 * 3 + k % 3 := by omega
    have hcases : k % 3 = 0 ∨ k % 3 = 1 ∨ k % 3 = 2 := by omega
    rcases hcases with hc | hc | hc
    · have hk0 : ((makeRoom E b n ((n - 2) * 3) p).pipeline p).m_currentIndex + k =
          ((makeRoom E b n ((n - 2) * 3) p).pipeline p).m_currentIndex + k / 3 * 3 := by omega
      rw [hk0, h0]
      omega
    · have hk1 : ((makeRoom E b n ((n - 2) * 3) p).pipeline p).m_currentIndex + k =
          ((makeRoom E b n ((n - 2) * 3) p).pipeline p).m_currentIndex + k / 3 * 3 + 1 := by
        omega
      rw [hk1, h1]
      omega
    · have hk2 : ((makeRoom E b n ((n - 2) * 3) p).pipeline p).m_currentIndex + k =
          ((makeRoom E b n ((n - 2) * 3) p).pipeline p).m_currentIndex + k / 3 * 3 + 2 := by
        omega
      rw [hk2, h2]
      omega

theorem addTexturedFan_indices_witness :
    (withQuad (sampleBatcher 1 16 24)).m_pipelines.length = 1 ∧
    (((makeRoom queueEnv (withQuad (sampleBatcher 1 16 24)) 5 ((5 - 2) * 3) 0).pipeline
      0).m_currentVertex,
     ((makeRoom queueEnv (withQuad (sampleBatcher 1 16 24)) 5 ((5 - 2) * 3) 0).pipeline
      0).m_currentIndex) = (4, 6) ∧
    (∃ b1, addTexturedFan queueEnv (withQuad (sampleBatcher 1 16 24)) [] [] 5 0 0 = some b1 ∧
      (b1.pipeline 0).m_currentVertex =
        ((makeRoom queueEnv (withQuad (sampleBatcher 1 16 24)) 5 ((5 - 2) * 3) 0).pipeline
          0).m_currentVertex + 5) ∧
    (addTexturedFan queueEnv (withQuad (sampleBatcher 1 16 24)) [] [] 5 0 0).map
      (fun b1 => (List.range 9).map (fun k => (b1.pipeline 0).m_storage.indices (6 + k))) =
      some [4, 5, 6, 4, 6, 7, 4, 7, 8] :=
  ⟨by decide, by decide,
    (addTexturedFan_indices queueEnv (withQuad (sampleBatcher 1 16 24)) [] [] 5 0 0
      (by decide) (by decide) (by decide)).imp (fun _ h => ⟨h.1, h.2.1⟩),
    by decide⟩

theorem drawTrianglesListTraceLoop_progress (E : Env R) (s : Skin) (points : List Point)
    (tex : Point) (depth : ℚ) (p : Nat)
    (hpool : ∀ d rm, 3 ≤ (reserveFor E d rm).1.verticesSize / sizeofVertex ∧
      3 ≤ (reserveFor E d rm).1.indicesSize / sizeofIndex)
    (fuel pointsLeft off : Nat) (b : GeometryBatcher R)
    (hs : b.m_skin = some s) (hp : p < b.m_pipelines.length)
    (hfuel : pointsLeft / 3 + 1 ≤ fuel)
    (hinv : (pointsLeft ≤ verticesLeft b p ∧ pointsLeft ≤ indicesLeft b p) ∨
      (3 ≤ verticesLeft b p ∧ 3 ≤ indicesLeft b p)) :
    ∃ b1 chunks, drawTrianglesListTraceLoop E points tex depth p fuel pointsLeft off b =
        some (b1, chunks) ∧
      chunks.length ≤ pointsLeft / 3 + 1 ∧
      ∀ pre c post, chunks = pre ++ c :: post →
        (c.size = pointsLeft - (pre.map (fun x => x.size)).sum ∧ post = []) ∨
        (3 ≤ c.size ∧ c.size < pointsLeft - (pre.map (fun x => x.size)).sum ∧ post ≠ []) := by
  induction fuel generalizing pointsLeft off b with
  | zero => omega
  | succ fuel ih =>
    obtain ⟨hle, hdvd, hposb⟩ := batchSizeOf_props b p pointsLeft
    simp only [drawTrianglesListTraceLoop]
    by_cases hlt : batchSizeOf b p pointsLeft < pointsLeft
    · have hroom : 3 ≤ verticesLeft b p ∧ 3 ≤ indicesLeft b p := by
        rcases hinv with h | h
        · have := batchSizeOf_fits b p pointsLeft h.1 h.2
          omega
        · exact h
      have hb0 : 0 < batchSizeOf b p pointsLeft := hposb (by omega) hroom.1 hroom.2
      have hb3 : 3 ≤ batchSizeOf b p pointsLeft := by
        obtain ⟨c, hc⟩ := hdvd hlt
        omega
      have hne : ¬ (pointsLeft - batchSizeOf b p pointsLeft = 0) := by omega
      have hx : (writeBatch (b.pipeline p) points tex depth off
          (batchSizeOf b p pointsLeft)).m_currentIndex ≠ 0 := by
        simp only [writeBatch]; omega
      obtain ⟨b3, cs, hrun, hcount, hprog⟩ := ih (pointsLeft - batchSizeOf b p pointsLeft)
        (off + batchSizeOf b p pointsLeft)
        (flush E (b.setPipeline p (writeBatch (b.pipeline p) points tex depth off
          (batchSizeOf b p pointsLeft))) (p : Int))
        (by rw [flush_skin, setPipeline_skin, hs])
        (by rw [flush_length, setPipeline_length]; exact hp)
        (by omega)
        (Or.inr (flush_after_write E b s p _ hs hp hx hpool))
      simp only [hlt, decide_True, if_true, hne, if_false, hrun]
      refine ⟨b3, _, rfl, ?_, ?_⟩
      · simp only [List.length_cons]
        omega
      · intro pre c post hcs
        cases pre with
        | nil =>
          simp only [List.nil_append, List.cons.injEq] at hcs
          obtain ⟨hc, hpost⟩ := hcs
          right
          subst hc
          refine ⟨hb3, by simpa using hlt, ?_⟩
          intro hnil
          rw [hnil] at hpost
          rw [hpost] at hrun
          cases fuel with
          | zero => simp [drawTrianglesListTraceLoop] at hrun
          | succ f =>
            simp only [drawTrianglesListTraceLoop] at hrun
            split at hrun
            · simp at hrun
            · split at hrun <;> simp at hrun
        | cons x pre1 =>
          simp only [List.cons_append, List.cons.injEq] at hcs
          obtain ⟨hx1, hrest⟩ := hcs
          subst hx1
          have h := hprog pre1 c post hrest
          simp only [List.map_cons, List.sum_cons]
          rcases h with h | h
          · left
            exact ⟨by omega, h.2⟩
          · right
            exact ⟨h.1, by omega, h.2.2⟩
    · have heq : batchSizeOf b p pointsLeft = pointsLeft := by omega
      have hz : pointsLeft - batchSizeOf b p pointsLeft = 0 := by omega
      simp only [hlt, decide_False, Bool.false_eq_true, if_false, hz, if_true]
      refine ⟨_, _, rfl, by simp, ?_⟩
      intro pre c post hcs
      cases pre with
      | nil =>
        simp only [List.nil_append, List.cons.injEq] at hcs
        left
        obtain ⟨hc, hpost⟩ := hcs
        subst hc
        exact ⟨by simpa using heq, hpost.symm⟩
      | cons x pre1 =>
        simp only [List.cons_append, List.cons.injEq] at hcs
        have := hcs.2
        cases pre1 <;> simp at this

/-- C26: with a skin attached, on a page whose block and every block leased later hold at least
3 vertices and 3 indices, the loop of `drawTrianglesList` ends for every point count within
`pointsCount / 3 + 1` passes: every pass either takes all the points that are left, and is the
last one, or takes at least 3 and fewer than are left. For `pointsCount >= 2`, where the call
passes its assertion, the call returns with the result of the loop. -/
theorem drawTrianglesList_terminates (E : Env R) (b : GeometryBatcher R) (s : Skin)
    (st : ResourceStyle) (page : SkinPage) (fuel : Nat) (points : List Point)
    (pointsCount styleID : Nat) (depth : ℚ)
    (hs : b.m_skin = some s) (hst : s.fromID styleID = some st)
    (hp : st.m_pageID < b.m_pipelines.length) (hpg : s.pages[st.m_pageID]? = some page)
    (hfuel : pointsCount / 3 + 1 ≤ fuel)
    (hcur : 3 ≤ (b.pipeline st.m_pageID).m_maxVertices ∧
      3 ≤ (b.pipeline st.m_pageID).m_maxIndices)
    (hpool : ∀ d rm, 3 ≤ (reserveFor E d rm).1.verticesSize / sizeofVertex ∧
      3 ≤ (reserveFor E d rm).1.indicesSize / sizeofIndex) :
    ∃ b1 chunks,
      drawTrianglesListTraceLoop E points
          (page.mapPixel ⟨(st.m_texRect.minX : ℚ) + 1, (st.m_texRect.minY : ℚ) + 1⟩) depth
          st.m_pageID fuel pointsCount 0 (makeRoom E b pointsCount pointsCount st.m_pageID) =
        some (b1, chunks) ∧
      drawTrianglesListLoop E points
          (page.mapPixel ⟨(st.m_texRect.minX : ℚ) + 1, (st.m_texRect.minY : ℚ) + 1⟩) depth
          st.m_pageID fuel pointsCount 0 (makeRoom E b pointsCount pointsCount st.m_pageID) =
        some b1 ∧
      chunks.length ≤ pointsCount / 3 + 1 ∧
      (∀ pre c post, chunks = pre ++ c :: post →
        (c.size = pointsCount - (pre.map (fun x => x.size)).sum ∧ post = []) ∨
        (3 ≤ c.size ∧ c.size < pointsCount - (pre.map (fun x => x.size)).sum ∧ post ≠ [])) ∧
      (2 ≤ pointsCount →
        drawTrianglesList E fuel b points pointsCount styleID depth = some b1) := by
  have hs1 : (makeRoom E b pointsCount pointsCount st.m_pageID).m_skin = some s := by
    rw [makeRoom_skin, hs]
  have hp1 : st.m_pageID <
      (makeRoom E b pointsCount pointsCount st.m_pageID).m_pipelines.length := by
    rw [makeRoom_length]; exact hp
  obtain ⟨b1, chunks, hrun, hcount, hprog⟩ := drawTrianglesListTraceLoop_progress E s points
    (page.mapPixel ⟨(st.m_texRect.minX : ℚ) + 1, (st.m_texRect.minY : ℚ) + 1⟩) depth
    st.m_pageID hpool fuel pointsCount 0
    (makeRoom E b pointsCount pointsCount st.m_pageID) hs1 hp1 hfuel
    (makeRoom_list_invariant E b s pointsCount st.m_pageID hs hp hcur hpool)
  have hloop : drawTrianglesListLoop E points
      (page.mapPixel ⟨(st.m_texRect.minX : ℚ) + 1, (st.m_texRect.minY : ℚ) + 1⟩) depth
      st.m_pageID fuel pointsCount 0 (makeRoom E b pointsCount pointsCount st.m_pageID) =
      some b1 := by
    rw [← drawTrianglesListTraceLoop_fst, hrun]
    rfl
  refine ⟨b1, chunks, hrun, hloop, hcount, hprog, ?_⟩
  intro hpc
  have hpc2 : pointsCount ≥ 2 := hpc
  have htrace : drawTrianglesListTrace E fuel b points pointsCount styleID depth =
      some (b1, chunks) := by
    simp only [drawTrianglesListTrace, hs, hst, hp, hpc2, hpg, if_true]
    exact hrun
  rw [← drawTrianglesListTrace_fst, htrace]
  rfl

theorem drawTrianglesList_terminates_witness :
    (∃ b1 chunks,
      drawTrianglesListTraceLoop (constEnv 6 6) []
          ((default : SkinPage).mapPixel
            ⟨(sampleGlyph.m_texRect.minX : ℚ) + 1, (sampleGlyph.m_texRect.minY : ℚ) + 1⟩) 0
          sampleGlyph.m_pageID 4 10 0
          (makeRoom (constEnv 6 6) (constBatcher 1 6 6) 10 10 sampleGlyph.m_pageID) =
        some (b1, chunks) ∧
      chunks.length ≤ 10 / 3 + 1 ∧
      drawTrianglesList (constEnv 6 6) 4 (constBatcher 1 6 6) [] 10 0 0 = some b1) ∧
    (drawTrianglesListTrace (constEnv 6 6) 4 (constBatcher 1 6 6) [] 10 0 0).map
      (fun r => r.2.map (fun c => c.size)) = some [6, 4] :=
  ⟨(drawTrianglesList_terminates (constEnv 6 6) (constBatcher 1 6 6) (sampleSkin 1) sampleGlyph
      default 4 [] 10 0 0 rfl rfl (by decide) rfl (by decide) (by decide) constEnv_pool).imp
      (fun _ h => h.imp (fun _ g => ⟨g.1, g.2.2.1, g.2.2.2.2 (by decide)⟩)),
    by decide!⟩

theorem tileFans_sums (st : ResourceStyle) (page : SkinPage) (aaShift : Nat) (depth : ℚ)
    (dir norm : Point) (ghw : ℚ) (lens : List ℚ) :
    ∀ (pt : Point),
      (tileFans st page aaShift depth dir norm ghw lens pt).length = lens.length ∧
      (∀ f ∈ tileFans st page aaShift depth dir norm ghw lens pt, 3 ≤ f.size) ∧
      ((tileFans st page aaShift depth dir norm ghw lens pt).map (fun f => f.size)).sum =
        4 * lens.length ∧
      ((tileFans st page aaShift depth dir norm ghw lens pt).map
        (fun f => 3 * (f.size - 2))).sum = 6 * lens.length := by
  induction lens with
  | nil => intro _; simp [tileFans]
  | cons len rest ih =>
    intro pt
    obtain ⟨h0, h1, h2, h3⟩ := ih (tileEndPt dir pt len)
    refine ⟨by simp [tileFans, h0], ?_, ?_, ?_⟩
    · intro f hf
      simp only [tileFans, List.mem_cons] at hf
      rcases hf with hf | hf
      · rw [hf]
        show 3 ≤ 4
        omega
      · exact h1 f hf
    · simp only [tileFans, List.map_cons, List.sum_cons, h2, List.length_cons]
      omega
    · simp only [tileFans, List.map_cons, List.sum_cons, h3, List.length_cons]
      omega

theorem tileFans_get (st : ResourceStyle) (page : SkinPage) (aaShift : Nat) (depth : ℚ)
    (dir norm : Point) (ghw l : ℚ) (lens : List ℚ) :
    ∀ (pt : Point) (j : Nat), j < lens.length → (∀ i, i < j → lens[i]? = some l) →
      (tileFans st page aaShift depth dir norm ghw lens pt)[j]? =
        some ⟨tileCoords dir norm ⟨pt.x + (j : ℚ) * (dir.x * l), pt.y + (j : ℚ) * (dir.y * l)⟩
            (lens.getD j 0) ghw,
          tileTexCoords aaShift st page 0 (lens.getD j 0), 4, depth⟩ := by
  induction lens with
  | nil => intro _ j hj; simp at hj
  | cons len rest ih =>
    intro pt j hj hfull
    cases j with
    | zero =>
      have hpt : (⟨pt.x + ((0 : Nat) : ℚ) * (dir.x * l), pt.y + ((0 : Nat) : ℚ) * (dir.y * l)⟩ :
          Point) = pt := by
        simp
      simp only [tileFans, List.getElem?_cons_zero, hpt, List.getD_cons_zero]
    | succ j =>
      have hlen : len = l := by
        have := hfull 0 (by omega)
        simpa using this
      subst hlen
      have hrest : ∀ i, i < j → rest[i]? = some len := by
        intro i hi
        have := hfull (i + 1) (by omega)
        simpa using this
      have hpt : (⟨(tileEndPt dir pt len).x + (j : ℚ) * (dir.x * len),
          (tileEndPt dir pt len).y + (j : ℚ) * (dir.y * len)⟩ : Point) =
          ⟨pt.x + ((j + 1 : Nat) : ℚ) * (dir.x * len),
            pt.y + ((j + 1 : Nat) : ℚ) * (dir.y * len)⟩ := by
        simp only [tileEndPt, Point.mk.injEq]
        constructor <;> push_cast <;> ring
      simp only [tileFans, List.getElem?_cons_succ, List.getD_cons_succ]
      rw [ih (tileEndPt dir pt len) j (by simpa using hj) hrest, hpt]

theorem drawPathSegment_first (E : Env R) (L : LineEnv) (st : ResourceStyle) (styleID : Nat)
    (depth : ℚ) (fuel : Nat) (points : List Point) (p q : Point) (start : ℚ)
    (b : GeometryBatcher R) (skin : Skin) (page : SkinPage) (ts0 : TileState R)
    (hp0 : points[0]? = some p) (hp1 : points[1]? = some q)
    (hpg : skin.pages[st.m_pageID]? = some page)
    (hrun : drawPathTiles E st depth (direction E p q) ⟨-(direction E p q).y, (direction E p q).x⟩
      (E.Length q p) ((geomWidth b st : ℚ) / 2) fuel (E.Length q p) p start 0 [] b = some ts0)
    (hskin : ts0.b.m_skin = some skin) (hp : st.m_pageID < ts0.b.m_pipelines.length) :
    ∃ ts, drawPathSegment E L st styleID depth fuel points points.length 0 start b = some ts ∧
      ts.tiles = ts0.tiles ∧ ts.rawTileStartLen = ts0.rawTileStartLen ∧
      (ts.b = ts0.b ∨ ∃ next, points[2]? = some next ∧
        drawPathJoin E L st depth (direction E p q)
          ⟨-(direction E p q).y, (direction E p q).x⟩ q next ((geomWidth b st : ℚ) / 2) ts0.b =
          some ts.b) ∧
      (points.length = 2 → ts.b = ts0.b) := by
  have hseg := drawPathSegment_eq E L st styleID depth fuel points points.length 0 start b p q
    ts0 hp0 hp1 hrun
  have hlen : 2 ≤ points.length := by
    have := (List.getElem?_eq_some.mp hp1).1
    omega
  by_cases hj : 0 ≠ points.length - 2 ∧
      (if st.m_isSolid then true else L.atDashOffset styleID ts0.rawTileLen) = true
  · rw [if_pos hj] at hseg
    have h3 : 2 < points.length := by
      have := hj.1
      omega
    have hp2 : points[0 + 2]? = some (points[2]) := List.getElem?_eq_getElem h3
    obtain ⟨b1, hb1, _, _⟩ := drawPathJoin_total E L st depth (direction E p q)
      ⟨-(direction E p q).y, (direction E p q).x⟩ q points[2] ((geomWidth b st : ℚ) / 2) ts0.b
      skin page hskin hpg hp
    rw [hp2] at hseg
    simp only [hb1, Option.map_some'] at hseg
    refine ⟨_, hseg, rfl, rfl, Or.inr ⟨points[2], List.getElem?_eq_getElem h3, hb1⟩, ?_⟩
    intro h
    omega
  · rw [if_neg hj] at hseg
    exact ⟨ts0, hseg, rfl, rfl, Or.inl rfl, fun _ => rfl⟩

/-- C13: for a line style that is neither solid nor wrapped, with raw tile length `L > 0`, the
first segment of a path, of length `s > 0`, is tiled from pattern offset 0: `drawPath` calls
`addTexturedFan` once per tile, for `ceil (s / L)` fans of 4 vertices on the page of the style,
tile `j` starting `j * L` along the segment, and the state after the tiles is the state these
calls leave (a join with the next segment follows it when there is one); when the fans fit the
cursors of the page advance by 4 vertices and 6 indices per tile. Every tile but the last has
length `L`, the lengths sum to `s`, and the running pattern offset afterwards is
`s - floor (s / L) * L`, the remainder of `s` modulo `L`. For `s = 5/2 * L` the tiles are
`L, L, L/2` and the offset afterwards is `L/2`. For a path of two points these are the tiles of
the whole call of `drawPath`. -/
theorem drawPath_dashed_tiles (E : Env R) (L : LineEnv) (st : ResourceStyle) (styleID : Nat)
    (depth : ℚ) (fuel : Nat) (points : List Point) (p q : Point) (b : GeometryBatcher R)
    (skin : Skin) (page : SkinPage)
    (hsolid : st.m_isSolid = false) (hwrapped : st.m_isWrapped = false)
    (hL : 0 < st.rawTileLen) (hp0 : points[0]? = some p) (hp1 : points[1]? = some q)
    (hs : 0 < E.Length q p) (hskin : b.m_skin = some skin)
    (hstyle : skin.fromID styleID = some st) (hcat : st.m_cat = Category.ELineStyle)
    (hpg : skin.pages[st.m_pageID]? = some page) (hp : st.m_pageID < b.m_pipelines.length)
    (hfuel : ⌊E.Length q p / st.rawTileLen⌋₊ + 2 ≤ fuel) :
    ∃ ts b0, drawPathSegment E L st styleID depth fuel points points.length 0 0 b = some ts ∧
      addTexturedFans E st.m_pageID
        (tileFans st page b.m_aaShift depth (direction E p q)
          ⟨-(direction E p q).y, (direction E p q).x⟩ ((geomWidth b st : ℚ) / 2) ts.tiles p) b =
        some b0 ∧
      (ts.b = b0 ∨ ∃ next, points[2]? = some next ∧
        drawPathJoin E L st depth (direction E p q)
          ⟨-(direction E p q).y, (direction E p q).x⟩ q next ((geomWidth b st : ℚ) / 2) b0 =
          some ts.b) ∧
      (points.length = 2 → ts.b = b0) ∧
      (tileFans st page b.m_aaShift depth (direction E p q)
          ⟨-(direction E p q).y, (direction E p q).x⟩ ((geomWidth b st : ℚ) / 2) ts.tiles
          p).length = ⌈E.Length q p / st.rawTileLen⌉₊ ∧
      (∀ j, j < ts.tiles.length →
        (tileFans st page b.m_aaShift depth (direction E p q)
          ⟨-(direction E p q).y, (direction E p q).x⟩ ((geomWidth b st : ℚ) / 2) ts.tiles
          p)[j]? =
          some ⟨tileCoords (direction E p q) ⟨-(direction E p q).y, (direction E p q).x⟩
              ⟨p.x + (j : ℚ) * ((direction E p q).x * st.rawTileLen),
                p.y + (j : ℚ) * ((direction E p q).y * st.rawTileLen)⟩
              (ts.tiles.getD j 0) ((geomWidth b st : ℚ) / 2),
            tileTexCoords b.m_aaShift st page 0 (ts.tiles.getD j 0), 4, depth⟩) ∧
      (fansFit E st.m_pageID
          (tileFans st page b.m_aaShift depth (direction E p q)
            ⟨-(direction E p q).y, (direction E p q).x⟩ ((geomWidth b st : ℚ) / 2) ts.tiles p)
          b = true →
        (b0.pipeline st.m_pageID).m_currentVertex =
          (b.pipeline st.m_pageID).m_currentVertex + 4 * ⌈E.Length q p / st.rawTileLen⌉₊ ∧
        (b0.pipeline st.m_pageID).m_currentIndex =
          (b.pipeline st.m_pageID).m_currentIndex + 6 * ⌈E.Length q p / st.rawTileLen⌉₊ ∧
        b0.log = b.log) ∧
      ts.tiles.length = ⌈E.Length q p / st.rawTileLen⌉₊ ∧
      (∀ k, k + 1 < ts.tiles.length → ts.tiles[k]? = some st.rawTileLen) ∧
      ts.tiles.sum = E.Length q p ∧
      ts.rawTileStartLen =
        E.Length q p - (⌊E.Length q p / st.rawTileLen⌋₊ : ℚ) * st.rawTileLen ∧
      0 ≤ ts.rawTileStartLen ∧ ts.rawTileStartLen < st.rawTileLen ∧
      (E.Length q p = 5 / 2 * st.rawTileLen →
        ts.tiles = [st.rawTileLen, st.rawTileLen, st.rawTileLen / 2] ∧
        ts.rawTileStartLen = st.rawTileLen / 2) ∧
      (points.length = 2 →
        drawPathTrace E L fuel b points points.length styleID depth = some (ts.b, [ts.tiles])) := by
  obtain ⟨hlen, hfull, hsum, hf0, hfL⟩ := dashed_tiles_shape (E.Length q p) st.rawTileLen hL hs
  have hsplit : E.Length q p = (⌊E.Length q p / st.rawTileLen⌋₊ : ℚ) * st.rawTileLen +
      (E.Length q p - (⌊E.Length q p / st.rawTileLen⌋₊ : ℚ) * st.rawTileLen) := by ring
  obtain ⟨ts0, hrun, htiles, hstart, hskin0, hlength0, hfans⟩ := drawPathTiles_dashed E st depth
    (direction E p q) ⟨-(direction E p q).y, (direction E p q).x⟩ (E.Length q p)
    ((geomWidth b st : ℚ) / 2) skin page hsolid hwrapped hL hpg
    (E.Length q p - (⌊E.Length q p / st.rawTileLen⌋₊ : ℚ) * st.rawTileLen) hf0 hfL
    ⌊E.Length q p / st.rawTileLen⌋₊ fuel p 0 [] b hfuel hskin hp
  rw [← hsplit] at hrun
  rw [List.nil_append] at htiles
  rw [← htiles] at hfans hlen hfull hsum
  obtain ⟨ts, hseg, ht, hst, hjoin, htwo⟩ := drawPathSegment_first E L st styleID depth fuel
    points p q 0 b skin page ts0 hp0 hp1 hpg hrun hskin0 (by rw [hlength0]; exact hp)
  obtain ⟨hfl, hsz, hsumv, hsumi⟩ := tileFans_sums st page b.m_aaShift depth (direction E p q)
    ⟨-(direction E p q).y, (direction E p q).x⟩ ((geomWidth b st : ℚ) / 2) ts0.tiles p
  rw [← ht] at hfans hlen hfull hsum hfl hsz hsumv hsumi
  refine ⟨ts, ts0.b, hseg, hfans, hjoin, htwo, by rw [hfl]; exact hlen, ?_, ?_, hlen, hfull,
    hsum, ?_, ?_, ?_, ?_, ?_⟩
  · intro j hj
    refine tileFans_get st page b.m_aaShift depth (direction E p q)
      ⟨-(direction E p q).y, (direction E p q).x⟩ ((geomWidth b st : ℚ) / 2) st.rawTileLen
      ts.tiles p j hj ?_
    intro i hi
    exact hfull i (by omega)
  · intro hfit
    obtain ⟨b2, hb2, hlog, _, hv, hi, _⟩ := addTexturedFans_room E st.m_pageID _ b hp hsz hfit
    rw [hfans] at hb2
    cases hb2
    rw [hsumv, hlen] at hv
    rw [hsumi, hlen] at hi
    exact ⟨hv, hi, hlog⟩
  · rw [hst, hstart]
  · rw [hst, hstart]; exact hf0
  · rw [hst, hstart]; exact hfL
  · intro h52
    have hdiv : E.Length q p / st.rawTileLen = 5 / 2 := by
      rw [h52, mul_div_assoc, div_self (ne_of_gt hL), mul_one]
    have hfloor : ⌊E.Length q p / st.rawTileLen⌋₊ = 2 := by
      rw [hdiv, Nat.floor_eq_iff (by norm_num)]
      norm_num
    have hrest : E.Length q p - ((2 : Nat) : ℚ) * st.rawTileLen = st.rawTileLen / 2 := by
      rw [h52]; push_cast; ring
    have hne : st.rawTileLen / 2 ≠ 0 := by
      have : 0 < st.rawTileLen / 2 := by linarith
      exact ne_of_gt this
    rw [ht, htiles, hst, hstart, hfloor, hrest]
    simp [hne, List.replicate]
  · intro h2
    have h22 : (2 : Nat) ≥ 2 := le_refl 2
    simp only [drawPathTrace, h2, h22, if_true, hskin, hstyle, hcat, drawPathLoop]
    rw [← h2, hseg]

theorem drawPath_dashed_tiles_witness :
    (∃ ts b0, drawPathSegment queueEnv flatLineEnv dashStyle 0 0 4 [⟨0, 0⟩, ⟨10, 0⟩] 2 0 0
        lineBatcher = some ts ∧
      ts.tiles = [4, 4, 2] ∧ ts.rawTileStartLen = 2 ∧ ts.b = b0 ∧
      addTexturedFans queueEnv dashStyle.m_pageID
        (tileFans dashStyle default lineBatcher.m_aaShift 0
          (direction queueEnv ⟨0, 0⟩ ⟨10, 0⟩)
          ⟨-(direction queueEnv ⟨0, 0⟩ ⟨10, 0⟩).y, (direction queueEnv ⟨0, 0⟩ ⟨10, 0⟩).x⟩
          ((geomWidth lineBatcher dashStyle : ℚ) / 2) ts.tiles ⟨0, 0⟩) lineBatcher = some b0 ∧
      drawPathTrace queueEnv flatLineEnv 4 lineBatcher [⟨0, 0⟩, ⟨10, 0⟩] 2 0 0 =
        some (ts.b, [ts.tiles])) ∧
    (drawPath queueEnv flatLineEnv 4 lineBatcher [⟨0, 0⟩, ⟨10, 0⟩] 2 0 0).map
      (fun b1 => ((b1.pipeline 0).m_currentVertex, (b1.pipeline 0).m_currentIndex,
        ((b1.pipeline 0).m_storage.vertices 4).pt, ((b1.pipeline 0).m_storage.vertices 8).pt,
        ((b1.pipeline 0).m_storage.vertices 11).pt)) =
      some (12, 18, ⟨4, 5 / 2⟩, ⟨8, 5 / 2⟩, ⟨10, 5 / 2⟩) :=
  ⟨(drawPath_dashed_tiles queueEnv flatLineEnv dashStyle 0 0 4 [⟨0, 0⟩, ⟨10, 0⟩] ⟨0, 0⟩ ⟨10, 0⟩
    lineBatcher lineSkin default rfl rfl (by decide!) rfl rfl (by decide!) rfl rfl rfl rfl
    (by decide) (by decide!)).imp
    (fun _ h => h.imp (fun _ g => ⟨g.1,
      (g.2.2.2.2.2.2.2.2.2.2.2.2.2.1
        (show queueEnv.Length ⟨10, 0⟩ ⟨0, 0⟩ = 5 / 2 * dashStyle.rawTileLen by decide!)).1.trans
        (show [dashStyle.rawTileLen, dashStyle.rawTileLen, dashStyle.rawTileLen / 2] = [4, 4, 2]
          by decide!),
      (g.2.2.2.2.2.2.2.2.2.2.2.2.2.1
        (show queueEnv.Length ⟨10, 0⟩ ⟨0, 0⟩ = 5 / 2 * dashStyle.rawTileLen by decide!)).2.trans
        (show dashStyle.rawTileLen / 2 = 2 by decide!),
      g.2.2.2.1 rfl, g.2.1, g.2.2.2.2.2.2.2.2.2.2.2.2.2.2 rfl⟩)),
    by decide!⟩

theorem pts_array_create_facts (E : Env R) (path : List Point) (sz : Nat)
    (fullLength pathOffset : ℚ) (arr : pts_array) (po : ℚ)
    (h : pts_array.create E path sz fullLength pathOffset = some (arr, po)) :
    1 < arr.m_size ∧ arr.m_size ≤ arr.m_arr.length := by
  unfold pts_array.create at h
  by_cases hsz : sz > 1
  · rw [if_pos hsz] at h
    cases h0 : path[0]? with
    | none => simp [h0] at h
    | some first =>
      cases h1 : path[sz - 1]? with
      | none => simp [h0, h1] at h
      | some last =>
        obtain ⟨hl, _⟩ := List.getElem?_eq_some.mp h1
        simp only [h0, h1] at h
        by_cases ha : |E.AngleTo first last| > E.pi / 2
        · rw [if_pos ha] at h
          cases hseg : segmentsLength E path (sz - 1) with
          | none => simp [hseg] at h
          | some len =>
            simp only [hseg] at h
            by_cases hge : fullLength - pathOffset - len ≥ -(1 / 1000000)
            · rw [if_pos hge] at h
              simp only [Option.some.injEq, Prod.mk.injEq] at h
              obtain ⟨rfl, _⟩ := h
              exact ⟨hsz, by show sz ≤ path.length; omega⟩
            · rw [if_neg hge] at h
              simp at h
        · rw [if_neg ha] at h
          simp only [Option.some.injEq, Prod.mk.injEq] at h
          obtain ⟨rfl, _⟩ := h
          exact ⟨hsz, by show sz ≤ path.length; omega⟩
  · rw [if_neg hsz] at h
    simp at h

theorem calcLoop_total (E : Env R) (arr : pts_array) (harr : arr.m_size ≤ arr.m_arr.length)
    (k : Nat) :
    ∀ (ind : Nat) (offset : ℚ) (pt : Point) (fuel : Nat),
      ind + 1 + k = arr.size → k + 1 ≤ fuel →
      ∃ ok off1 ind1 pt1,
        calcLoop E arr fuel offset ind pt = some (ok, off1, ind1, pt1) ∧
        ind1 + 1 ≤ arr.size ∧ (ok = true → ind1 + 1 < arr.size) := by
  induction k with
  | zero =>
    intro ind offset pt fuel hk hfuel
    obtain ⟨fuel, rfl⟩ : ∃ f, fuel = f + 1 := ⟨fuel - 1, by omega⟩
    have hend : ind + 1 = arr.size := by omega
    refine ⟨false, offset, ind, pt, ?_, by omega, by simp⟩
    simp only [calcLoop, hend, if_true]
  | succ k ih =>
    intro ind offset pt fuel hk hfuel
    obtain ⟨fuel, rfl⟩ : ∃ f, fuel = f + 1 := ⟨fuel - 1, by omega⟩
    have hne : ¬ (ind + 1 = arr.size) := by omega
    have hsz : arr.size = arr.m_size := rfl
    obtain ⟨q, hq⟩ := pts_array_get_some arr (ind + 1) harr (by omega)
    by_cases hlt : offset < E.Length q pt
    · refine ⟨true, offset, ind, pt, ?_, by omega, fun _ => by omega⟩
      simp only [calcLoop, hne, if_false, hq, hlt, if_true]
    · obtain ⟨ok, off1, ind1, pt1, hrun, h2, h3⟩ := ih (ind + 1) (offset - E.Length q pt) q fuel
        (by omega) (by omega)
      refine ⟨ok, off1, ind1, pt1, ?_, h2, h3⟩
      simp only [calcLoop, hne, if_false, hq, hlt]
      exact hrun

theorem CalcPointAndAngle_total (E : Env R) (arr : pts_array)
    (harr : arr.m_size ≤ arr.m_arr.length) (offset : ℚ) (ind : Nat) (pt : Point) (angle : ℚ)
    (hind : ind + 1 ≤ arr.size) :
    ∃ r, CalcPointAndAngle E arr offset ind pt angle = some r ∧ r.ind + 1 ≤ arr.size := by
  have hsz : arr.size = arr.m_size := rfl
  obtain ⟨ok, off1, ind1, pt1, hrun, hle, htrue⟩ := calcLoop_total E arr harr
    (arr.size - 1 - ind) ind offset pt (arr.size + 1) (by omega) (by omega)
  cases ok with
  | false =>
    exact ⟨⟨false, off1, ind1, pt1, angle⟩, by simp only [CalcPointAndAngle, hrun], hle⟩
  | true =>
    have hlt := htrue rfl
    obtain ⟨q, hq⟩ := pts_array_get_some arr (ind1 + 1) harr (by omega)
    exact ⟨⟨true, off1, ind1,
      E.Move pt1 off1 (if ind ≠ ind1 ∨ angle = angle_not_inited then E.AngleTo pt1 q else angle),
      if ind ≠ ind1 ∨ angle = angle_not_inited then E.AngleTo pt1 q else angle⟩,
      by simp only [CalcPointAndAngle, hrun, hq], hle⟩

theorem drawGlyph_total (E : Env R) (b : GeometryBatcher R) (s : Skin) (ptOrg ptGlyph : Point)
    (angle blOffset : ℚ) (g : ResourceStyle) (depth : ℚ) (hs : b.m_skin = some s)
    (hp : g.m_pageID < b.m_pipelines.length) (hpg : g.m_pageID < s.pages.length) :
    ∃ b1, drawGlyph E b ptOrg ptGlyph angle blOffset g depth = some b1 ∧
      b1.m_skin = some s ∧ b1.m_pipelines.length = b.m_pipelines.length := by
  have hpage : s.pages[g.m_pageID]? = some s.pages[g.m_pageID] := List.getElem?_eq_getElem hpg
  have hp1 : g.m_pageID < (makeRoom E b 4 6 g.m_pageID).m_pipelines.length := by
    rw [makeRoom_length]; exact hp
  unfold drawGlyph
  simp only
  rw [drawTexturedPolygon_eq E b s _ ptOrg angle _ _ _ _ _ _ _ _ depth g.m_pageID hs hp hpage]
  obtain ⟨b1, hb1, h1, h2, _⟩ := addTexturedFan_facts E (makeRoom E b 4 6 g.m_pageID)
    (polygonCoords E ptOrg angle (ptGlyph.x + ((g.m_xOffset - 1 : Int) : ℚ))
      (ptGlyph.y - ((g.m_yOffset - 1 : Int) : ℚ) - blOffset -
        (usub g.m_texRect.SizeY 2 : ℚ))
      (ptGlyph.x + ((g.m_xOffset - 1 : Int) : ℚ) + (usub g.m_texRect.SizeX 2 : ℚ))
      (ptGlyph.y - ((g.m_yOffset - 1 : Int) : ℚ) - blOffset))
    (polygonTexCoords s.pages[g.m_pageID] (uadd g.m_texRect.minX 1) (uadd g.m_texRect.minY 1)
      (usub g.m_texRect.maxX 1) (usub g.m_texRect.maxY 1))
    4 depth g.m_pageID hp1 (by decide)
  exact ⟨b1, hb1, by rw [h1, makeRoom_skin, hs], by rw [h2, makeRoom_length]⟩

theorem drawGlyphs_total (E : Env R) (arr : pts_array) (harr : arr.m_size ≤ arr.m_arr.length)
    (s : Skin) (blOffset depth : ℚ) (gs : List ResourceStyle) :
    ∀ (offset : ℚ) (ind : Nat) (ptOrg : Point) (angle : ℚ) (b : GeometryBatcher R),
      ind + 1 ≤ arr.size → b.m_skin = some s →
      (∀ g ∈ gs, g.m_pageID < b.m_pipelines.length ∧ g.m_pageID < s.pages.length) →
      ∃ b1, drawGlyphs E arr blOffset depth gs offset ind ptOrg angle b = some b1 ∧
        b1.m_skin = some s ∧ b1.m_pipelines.length = b.m_pipelines.length := by
  induction gs with
  | nil =>
    intro offset ind ptOrg angle b _ hs _
    exact ⟨b, rfl, hs, rfl⟩
  | cons g gs ih =>
    intro offset ind ptOrg angle b hind hs hpages
    obtain ⟨r, hr, hrind⟩ := CalcPointAndAngle_total E arr harr offset ind ptOrg angle hind
    have hg := hpages g (List.mem_cons_self _ _)
    by_cases hok : r.ok = true
    · obtain ⟨b1, hb1, hs1, hl1⟩ := drawGlyph_total E b s r.pt ⟨0, 0⟩ r.angle blOffset g depth hs
        hg.1 hg.2
      obtain ⟨b2, hb2, hs2, hl2⟩ := ih (g.m_xAdvance : ℚ) r.ind r.pt r.angle b1 hrind hs1
        (fun x hx => by
          have := hpages x (List.mem_cons_of_mem _ hx)
          rw [hl1]
          exact this)
      refine ⟨b2, ?_, hs2, by rw [hl2, hl1]⟩
      simp only [drawGlyphs, hr, hok, if_true, hb1, hb2]
    · refine ⟨b, ?_, hs, rfl⟩
      simp only [drawGlyphs, hr, hok, Bool.false_eq_true, if_false]

theorem skipHidden_mem (gs : List ResourceStyle) :
    ∀ (offset : ℚ) (g : ResourceStyle), g ∈ (skipHidden offset gs).2 → g ∈ gs := by
  induction gs with
  | nil =>
    intro offset g hg
    simp [skipHidden] at hg
  | cons x xs ih =>
    intro offset g hg
    unfold skipHidden at hg
    split at hg
    · exact List.mem_cons_of_mem _ (ih _ g hg)
    · exact hg

theorem drawPathTextImpl_pass (E : Env R) (b : GeometryBatcher R) (path : List Point)
    (sz fontSize : Nat) (utf8Text : String) (fullLength pathOffset : ℚ) (pos : TextPos)
    (fromMask : Bool) (depth : ℚ) (isFixedFont : Bool) (s : Skin) (glyphs : List ResourceStyle)
    (arr : pts_array) (po : ℚ)
    (hpath : pts_array.create E path sz fullLength pathOffset = some (arr, po))
    (hs : b.m_skin = some s)
    (hg : lookupGlyphs s fontSize fromMask isFixedFont (Log2Vis E (E.FromUtf8 utf8Text)) =
      some glyphs)
    (hpages : ∀ g ∈ glyphs, g.m_pageID < b.m_pipelines.length ∧ g.m_pageID < s.pages.length) :
    (((fullLength - strLengthOf glyphs) / 2 < 0 ∨
        (fullLength - strLengthOf glyphs) / 2 - po ≤ -strLengthOf glyphs) →
      drawPathTextImpl E b path sz fontSize utf8Text fullLength pathOffset pos fromMask depth
        isFixedFont = some (false, b)) ∧
    (0 ≤ (fullLength - strLengthOf glyphs) / 2 →
      -strLengthOf glyphs < (fullLength - strLengthOf glyphs) / 2 - po →
      ∃ b1, drawPathTextImpl E b path sz fontSize utf8Text fullLength pathOffset pos fromMask
          depth isFixedFont = some (true, b1) ∧
        b1.m_skin = some s ∧ b1.m_pipelines.length = b.m_pipelines.length) := by
  obtain ⟨hsize, harr⟩ := pts_array_create_facts E path sz fullLength pathOffset arr po hpath
  constructor
  · intro h
    by_cases h1 : (fullLength - strLengthOf glyphs) / 2 < 0
    · simp only [drawPathTextImpl, hpath, hs, hg, h1, if_true]
    · have h2 : -((fullLength - strLengthOf glyphs) / 2 - po) ≥ strLengthOf glyphs := by
        rcases h with h | h
        · exact absurd h h1
        · linarith
      simp only [drawPathTextImpl, hpath, hs, hg, h1, if_false, h2, if_true]
  · intro h0 hlt
    have h1 : ¬ (fullLength - strLengthOf glyphs) / 2 < 0 := not_lt.mpr h0
    have h2 : ¬ (-((fullLength - strLengthOf glyphs) / 2 - po) ≥ strLengthOf glyphs) := by
      intro h
      linarith
    obtain ⟨pt0, hpt0⟩ := pts_array_get_some arr 0 harr (by omega)
    obtain ⟨b1, hb1, hs1, hl1⟩ := drawGlyphs_total E arr harr s (baseLineOffset pos fontSize)
      depth (skipHidden ((fullLength - strLengthOf glyphs) / 2 - po) glyphs).2
      (skipHidden ((fullLength - strLengthOf glyphs) / 2 - po) glyphs).1 0 pt0 angle_not_inited b
      (by show 0 + 1 ≤ arr.m_size; omega) hs
      (fun g hgm => hpages g (skipHidden_mem glyphs _ g hgm))
    refine ⟨b1, ?_, hs1, hl1⟩
    simp only [drawPathTextImpl, hpath, hs, hg, h1, if_false, h2, hpt0, hb1]

/-- C11, amended: `drawPathText` returns `false` whenever the centering offset
`(fullLength - strLength) / 2` of a pass it runs is negative, and that pass draws nothing: the
state is unchanged when this is the first pass (the masked pass when `isMasked`, the unmasked
pass otherwise), and is the state left by the masked pass when it is the unmasked pass of a
masked call. A centering offset of zero is not a failure: with the path offset left by
`pts_array` below the advance of the string, a pass with centering offset zero returns `true`,
so the unmasked call returns `true`, and the masked call returns `true` when both of its passes
have centering offset zero. -/
theorem drawPathText_centering (E : Env R) (b : GeometryBatcher R) (path : List Point)
    (sz fontSize : Nat) (utf8Text : String) (fullLength pathOffset : ℚ) (pos : TextPos)
    (isMasked : Bool) (depth : ℚ) (isFixedFont : Bool) (s : Skin)
    (glyphs plain : List ResourceStyle) (arr : pts_array) (po : ℚ)
    (hpath : pts_array.create E path sz fullLength pathOffset = some (arr, po))
    (hs : b.m_skin = some s)
    (hg : lookupGlyphs s fontSize isMasked isFixedFont (Log2Vis E (E.FromUtf8 utf8Text)) =
      some glyphs)
    (hgp : lookupGlyphs s fontSize false isFixedFont (Log2Vis E (E.FromUtf8 utf8Text)) =
      some plain)
    (hpages : ∀ g ∈ glyphs ++ plain,
      g.m_pageID < b.m_pipelines.length ∧ g.m_pageID < s.pages.length) :
    ((fullLength - strLengthOf glyphs) / 2 < 0 →
      drawPathText E b path sz fontSize utf8Text fullLength pathOffset pos isMasked depth
        isFixedFont = some (false, b)) ∧
    (isMasked = true → ∀ b1,
      drawPathTextImpl E b path sz fontSize utf8Text fullLength pathOffset pos true depth
        isFixedFont = some (true, b1) →
      (fullLength - strLengthOf plain) / 2 < 0 →
      drawPathText E b path sz fontSize utf8Text fullLength pathOffset pos isMasked depth
        isFixedFont = some (false, b1)) ∧
    (isMasked = false → (fullLength - strLengthOf plain) / 2 = 0 → po < strLengthOf plain →
      ∃ b1, drawPathText E b path sz fontSize utf8Text fullLength pathOffset pos isMasked depth
        isFixedFont = some (true, b1)) ∧
    (isMasked = true → (fullLength - strLengthOf glyphs) / 2 = 0 → po < strLengthOf glyphs →
      (fullLength - strLengthOf plain) / 2 = 0 → po < strLengthOf plain →
      ∃ b1 b2,
        drawPathTextImpl E b path sz fontSize utf8Text fullLength pathOffset pos true depth
          isFixedFont = some (true, b1) ∧
        drawPathTextImpl E b1 path sz fontSize utf8Text fullLength pathOffset pos false depth
          isFixedFont = some (true, b2) ∧
        drawPathText E b path sz fontSize utf8Text fullLength pathOffset pos isMasked depth
          isFixedFont = some (true, b2)) := by
  have hpg1 : ∀ g ∈ glyphs, g.m_pageID < b.m_pipelines.length ∧ g.m_pageID < s.pages.length :=
    fun g hgm => hpages g (List.mem_append_left _ hgm)
  have hpg2 : ∀ g ∈ plain, g.m_pageID < b.m_pipelines.length ∧ g.m_pageID < s.pages.length :=
    fun g hgm => hpages g (List.mem_append_right _ hgm)
  have hsome : (pts_array.create E path sz fullLength pathOffset).isSome = true := by
    rw [hpath]; rfl
  refine ⟨?_, ?_, ?_, ?_⟩
  · intro hneg
    have hlen : fullLength < strLengthOf glyphs := by linarith
    cases isMasked with
    | true =>
      simp [drawPathText, drawPathTextImpl_too_long E b path sz fontSize utf8Text fullLength
        pathOffset pos true depth isFixedFont s glyphs hsome hs hg hlen]
    | false =>
      simp [drawPathText, drawPathTextImpl_too_long E b path sz fontSize utf8Text fullLength
        pathOffset pos false depth isFixedFont s glyphs hsome hs hg hlen]
  · intro hm b1 hmask hneg
    subst hm
    obtain ⟨hfail, hok⟩ := drawPathTextImpl_pass E b path sz fontSize utf8Text fullLength
      pathOffset pos true depth isFixedFont s glyphs arr po hpath hs hg hpg1
    have hs1 : b1.m_skin = some s := by
      by_cases hc : 0 ≤ (fullLength - strLengthOf glyphs) / 2 ∧
          -strLengthOf glyphs < (fullLength - strLengthOf glyphs) / 2 - po
      · obtain ⟨b1', hb1', hs1', _⟩ := hok hc.1 hc.2
        rw [hmask] at hb1'
        simp only [Option.some.injEq, Prod.mk.injEq, true_and] at hb1'
        rw [hb1']
        exact hs1'
      · have hf := hfail (by
          by_cases h0 : (fullLength - strLengthOf glyphs) / 2 < 0
          · exact Or.inl h0
          · right
            have h1 : ¬ -strLengthOf glyphs < (fullLength - strLengthOf glyphs) / 2 - po :=
              fun h => hc ⟨not_lt.mp h0, h⟩
            exact not_lt.mp h1)
        rw [hmask] at hf
        simp at hf
    have hlen : fullLength < strLengthOf plain := by linarith
    simp only [drawPathText, if_true, hmask]
    exact drawPathTextImpl_too_long E b1 path sz fontSize utf8Text fullLength pathOffset pos
      false depth isFixedFont s plain hsome hs1 hgp hlen
  · intro hm hzero hpo
    subst hm
    obtain ⟨_, hok⟩ := drawPathTextImpl_pass E b path sz fontSize utf8Text fullLength
      pathOffset pos false depth isFixedFont s plain arr po hpath hs hgp hpg2
    obtain ⟨b1, hb1, _, _⟩ := hok (by rw [hzero]) (by rw [hzero]; linarith)
    exact ⟨b1, by simp only [drawPathText, Bool.false_eq_true, if_false, hb1]⟩
  · intro hm hzero hpo hzero2 hpo2
    subst hm
    obtain ⟨_, hok⟩ := drawPathTextImpl_pass E b path sz fontSize utf8Text fullLength
      pathOffset pos true depth isFixedFont s glyphs arr po hpath hs hg hpg1
    obtain ⟨b1, hb1, hs1, hl1⟩ := hok (by rw [hzero]) (by rw [hzero]; linarith)
    obtain ⟨_, hok2⟩ := drawPathTextImpl_pass E b1 path sz fontSize utf8Text fullLength
      pathOffset pos false depth isFixedFont s plain arr po hpath hs1 hgp
      (fun g hgm => by rw [hl1]; exact hpg2 g hgm)
    obtain ⟨b2, hb2, _, _⟩ := hok2 (by rw [hzero2]) (by rw [hzero2]; linarith)
    exact ⟨b1, b2, hb1, hb2, by simp only [drawPathText, if_true, hb1, hb2]⟩

/-- Instance of `drawPathText_centering`: the masked call with full length 100, path offset 0,
and two glyphs of advance 50 in both passes, whose centering offset is zero: both passes draw
and the call returns `true` with 16 vertices and 24 indices on page 0. -/
theorem drawPathText_centering_witness :
    (pts_array.create queueEnv [⟨0, 0⟩, ⟨100, 0⟩] 2 100 0 =
        some (⟨[⟨0, 0⟩, ⟨100, 0⟩], 2, false⟩, 0) ∧
      lookupGlyphs (sampleSkin 1) 10 true false (Log2Vis queueEnv (queueEnv.FromUtf8 "ab")) =
        some [sampleGlyph, sampleGlyph] ∧
      ((100 : ℚ) - strLengthOf [sampleGlyph, sampleGlyph]) / 2 = 0 ∧
      (0 : ℚ) < strLengthOf [sampleGlyph, sampleGlyph]) ∧
    (∃ b1 b2,
      drawPathTextImpl queueEnv (sampleBatcher 1 16 24) [⟨0, 0⟩, ⟨100, 0⟩] 2 10 "ab" 100 0
        TextPos.above_line true 0 false = some (true, b1) ∧
      drawPathTextImpl queueEnv b1 [⟨0, 0⟩, ⟨100, 0⟩] 2 10 "ab" 100 0
        TextPos.above_line false 0 false = some (true, b2) ∧
      drawPathText queueEnv (sampleBatcher 1 16 24) [⟨0, 0⟩, ⟨100, 0⟩] 2 10 "ab" 100 0
        TextPos.above_line true 0 false = some (true, b2)) ∧
    (drawPathText queueEnv (sampleBatcher 1 16 24) [⟨0, 0⟩, ⟨100, 0⟩] 2 10 "ab" 100 0
      TextPos.above_line true 0 false).map
      (fun r => (r.1, (r.2.pipeline 0).m_currentVertex, (r.2.pipeline 0).m_currentIndex)) =
      some (true, 16, 24) :=
  ⟨⟨samplePath_create, by decide, by decide!, by decide!⟩,
    (drawPathText_centering queueEnv (sampleBatcher 1 16 24) [⟨0, 0⟩, ⟨100, 0⟩] 2 10 "ab" 100 0
      TextPos.above_line true 0 false (sampleSkin 1) [sampleGlyph, sampleGlyph]
      [sampleGlyph, sampleGlyph] ⟨[⟨0, 0⟩, ⟨100, 0⟩], 2, false⟩ 0 samplePath_create rfl
      (by decide) (by decide) (by decide)).2.2.2 rfl (by decide!) (by decide!) (by decide!)
      (by decide!),
    by decide!⟩

end yg
